import Mathlib

/-!
# PE320 touchscreen panel: heater synchronisation and control engine

A shallow embedding of `src/main.js` and theorems about it.

* JavaScript values that reach the code from a decoded status document are
  modelled by `JSVal`.
* The page (`document`) is modelled by `Dom`: the `textContent` of the elements
  the code reads and writes.
* `window.confirm`, `sendGcode` and `element.click()` are modelled as entries of
  an effect log, in call order; the operator's answer to a confirmation is an
  input. A `setTimeout` adds a pending timer to the state; timers fire in any
  order and at any time between two handlers.
* `localStorage` is a map from keys to strings; `JSON.stringify` is spelled out
  for the settings document.
* The globals `configuredExtruderHeaters` and `configuredBedHeaters` are passed
  to the handlers as arguments: they are assigned by `update` at each successful
  poll, and the handlers are modelled from then on.
* A JavaScript `TypeError` that aborts a function is modelled by `none`
  (respectively by an aborted loop that keeps the effects already done).
-/

namespace PE320

/-! ## JavaScript values -/

/-- Values of a decoded JSON document (`response.json()`), plus `undefined`.
Numbers are modelled by rationals: every finite double is one. -/
inductive JSVal where
  | undefined : JSVal
  | null : JSVal
  | bool (b : Bool) : JSVal
  | num (x : Rat) : JSVal
  | str (s : String) : JSVal
  | arr (items : List JSVal) : JSVal
  | obj (fields : List (String × JSVal)) : JSVal

/-- Strict comparison `v === x` of a value with a number literal. -/
def JSVal.strictEqNumber : JSVal → Rat → Bool
  | .num y, x => decide (y = x)
  | _, _ => false

/-- The abstract operation `ToBoolean`, which `Boolean(v)` applies. -/
def JSVal.toBoolean : JSVal → Bool
  | .undefined => false
  | .null => false
  | .bool b => b
  | .num x => decide (x ≠ 0)
  | .str s => decide (s ≠ "")
  | .arr _ => true
  | .obj _ => true

/-- The sentinel `-1` the status document uses for "no heater in this slot". -/
def sentinel : JSVal := .num (-1)

/-- `Array.prototype.map` with the `(element, index)` callback, indices
counted from `start`. -/
def mapIdxFrom {α β : Type} (f : α → Nat → β) : Nat → List α → List β
  | _, [] => []
  | start, x :: xs => f x start :: mapIdxFrom f (start + 1) xs

/-- `xs.map((element, index) => ...)`. -/
def jsMap {α β : Type} (f : α → Nat → β) (xs : List α) : List β :=
  mapIdxFrom f 0 xs

/-- The two-element array `[element, index]`. -/
def heaterPair (element : JSVal) (index : Nat) : JSVal :=
  .arr [element, .num (index : Rat)]

/-- `findHeaters` (main.js 47-51):
`targetObject.map((element, index) => element !== -1 ? [element, index] : null).filter(Boolean)`. -/
def findHeaters (targetObject : List JSVal) : List JSVal :=
  (jsMap (fun element index =>
      if !(element.strictEqNumber (-1)) then heaterPair element index else JSVal.null)
    targetObject).filter JSVal.toBoolean

/-- Whether a value is the sentinel is decidable (by cases on the value). -/
instance decEqSentinel : (v : JSVal) → Decidable (v = sentinel)
  | .num x =>
    if h : x = -1 then isTrue (by rw [h]; rfl)
    else isFalse (fun h2 => h (JSVal.num.inj h2))
  | .undefined => isFalse (fun h => JSVal.noConfusion h)
  | .null => isFalse (fun h => JSVal.noConfusion h)
  | .bool _ => isFalse (fun h => JSVal.noConfusion h)
  | .str _ => isFalse (fun h => JSVal.noConfusion h)
  | .arr _ => isFalse (fun h => JSVal.noConfusion h)
  | .obj _ => isFalse (fun h => JSVal.noConfusion h)

/-! ## Effects, timers and the fault flags -/

/-- Entries of the effect log, in call order. -/
inductive Effect where
  /-- The modal dialog `window.confirm(message)` was shown. -/
  | confirm (message : String) : Effect
  /-- The call `sendGcode(command)`: one POST to the command endpoint. -/
  | gcode (command : String) : Effect
  /-- The call `document.querySelector(selector).click()`. -/
  | click (selector : String) : Effect
  /-- The call `window.location.reload()`. -/
  | reload : Effect
  deriving DecidableEq, Repr

/-- A pending `setTimeout(() => (heaterFaults[slot] = false), delay)`. -/
structure Timer where
  delay : Nat
  slot : Nat
  deriving DecidableEq, Repr

/-- `defaultNumOfHeaters` (main.js 3). -/
def defaultNumOfHeaters : Nat := 8

/-- `defaultNumOfExtruderHeaters` (main.js 4). -/
def defaultNumOfExtruderHeaters : Nat := 4

/-- The global array `heaterFaults` (entry `none` is `undefined`: an index the
array does not have) and the timers that are scheduled and have not fired. -/
structure FaultState where
  heaterFaults : Nat → Option Bool
  timers : List Timer

/-- The state at page load: `new Array(defaultNumOfHeaters).fill(false)`
(main.js 8) and no timer. -/
def FaultState.init : FaultState where
  heaterFaults := fun i => if i < defaultNumOfHeaters then some false else none
  timers := []

/-- `s.includes(needle)` on strings. -/
def jsIncludes (s needle : String) : Bool :=
  decide (needle.toList <:+: s.toList)

/-- The text of the fault dialog of slot `i` (main.js 300 and 399). -/
def faultMessage (i : Nat) : String :=
  "Heater " ++ toString (i + 1) ++
    " has a temperature fault. Reset the fault? If fault persists, contact local distributor or Rapid Fusion for support."

/-- The fault-reset command of slot `i` (main.js 303 and 402). -/
def resetCommand (i : Nat) : String :=
  "M292 M562 P" ++ toString i

/-- One iteration of the loop at main.js 297-310, for a slot whose state is the
string `state`; `answer i` is what the operator answers to the dialog of
slot `i`. Returns the new state and the effects of the iteration. -/
def faultCheckSlot (answer : Nat → Bool) (i : Nat) (state : String)
    (st : FaultState) : FaultState × List Effect :=
  if jsIncludes state "fault" && decide (st.heaterFaults i = some false) then
    if answer i then
      ({ heaterFaults := Function.update st.heaterFaults i (some true),
         timers := st.timers ++ [{ delay := 500, slot := i }] },
       [Effect.confirm (faultMessage i), Effect.gcode (resetCommand i)])
    else
      ({ heaterFaults := Function.update st.heaterFaults i (some true),
         timers := st.timers },
       [Effect.confirm (faultMessage i)])
  else
    (st, [])

/-- What a poll's fault loop leaves: the state, the effects, and whether the
loop ran to its end (`false`: `allHeaterStates[i].includes` raised a
`TypeError`, which the `catch` at main.js 314 turns into a rejection). -/
structure PollResult where
  state : FaultState
  log : List Effect
  completed : Bool

/-- The loop at main.js 297-310 from index `i` on. An entry `none` of
`allHeaterStates` is a value without a method `includes` (such as `undefined`,
for a heater object without `state`): the call raises, and the loop stops with
the effects done so far. The states of a status document are strings. -/
def faultCheckFrom (answer : Nat → Bool) :
    Nat → List (Option String) → FaultState → PollResult
  | _, [], st => { state := st, log := [], completed := true }
  | _, none :: _, st => { state := st, log := [], completed := false }
  | i, some state :: rest, st =>
    let r := faultCheckSlot answer i state st
    let r2 := faultCheckFrom answer (i + 1) rest r.1
    { state := r2.state, log := r.2 ++ r2.log, completed := r2.completed }

/-- The polling fault check: the loop at main.js 297-310 over
`allHeaterStates`. -/
def faultCheck (answer : Nat → Bool) (allHeaterStates : List (Option String))
    (st : FaultState) : PollResult :=
  faultCheckFrom answer 0 allHeaterStates st

/-- The `k`-th pending timer fires: its callback runs `heaterFaults[slot] = false`. -/
def fireTimer (k : Nat) (st : FaultState) : FaultState :=
  match st.timers[k]? with
  | none => st
  | some t =>
    { heaterFaults := Function.update st.heaterFaults t.slot (some false),
      timers := st.timers.eraseIdx k }

/-! ## The page and the stored documents -/

/-- The eight heater zones the page has elements for. -/
inductive Zone where
  | top | middle | bottom | nozzle | bed0 | bed1 | bed2 | bed3
  deriving DecidableEq, Repr

/-- The zone key used in element ids, class names and the settings document. -/
def Zone.key : Zone → String
  | .top => "top"
  | .middle => "middle"
  | .bottom => "bottom"
  | .nozzle => "nozzle"
  | .bed0 => "bed0"
  | .bed1 => "bed1"
  | .bed2 => "bed2"
  | .bed3 => "bed3"

/-- The `textContent` of the elements the code reads and writes. The HTML page
is not among the sources: the model takes it to have, for each zone, one element
`.tab-pane-<zone> .temp-popup-user-input`, one `#user-input-active-<zone>` and
one `#user-input-preheat-<zone>`, and no element for any other key; the five
lists are the elements matched by `.heating-profiles-text.top-temp`,
`.middle-temp`, `.bottom-temp`, `.nozzle-temp` and `.bed-temp`, in document
order. -/
structure Dom where
  popup : Zone → String
  active : Zone → String
  preheat : Zone → String
  topTemps : List String
  middleTemps : List String
  bottomTemps : List String
  nozzleTemps : List String
  bedTemps : List String

/-- The store `localStorage`: `getItem` on a key gives `none` for `null`. -/
def Storage : Type := String → Option String

/-- `localStorage.setItem(key, value)`. -/
def Storage.setItem (storage : Storage) (key value : String) : Storage :=
  fun k => if k = key then some value else storage k

/-- `Array.prototype.forEach` with the `(element, index)` callback, indices
counted from `start`, threading the variables the callback assigns; a callback
that raises (`none`) ends the loop and the enclosing function. -/
def forEachFrom {α σ : Type} (body : α → Nat → σ → Option σ) :
    Nat → List α → σ → Option σ
  | _, [], acc => some acc
  | start, x :: xs, acc =>
    match body x start acc with
    | none => none
    | some acc2 => forEachFrom body (start + 1) xs acc2

/-- `xs.forEach((element, index) => ...)`. -/
def jsForEach {α σ : Type} (body : α → Nat → σ → Option σ) (xs : List α) (acc : σ) :
    Option σ :=
  forEachFrom body 0 xs acc

/-! ## Heater commands -/

/-- `toggleHeaterStates(heaterState, heaterIndex)` (main.js 365-408); `answer`
is the operator's answer to `window.confirm`. `none`: the lookup of the element
of `heaterType[heaterIndex]` gave `null` and reading its `textContent` raised. -/
def toggleHeaterStates (heaterState : String) (heaterIndex : Nat) (answer : Bool)
    (dom : Dom) (st : FaultState) : Option (FaultState × List Effect) :=
  let heaterType : List Zone :=
    [.top, .middle, .bottom, .nozzle, .bed0, .bed1, .bed2, .bed3]
  if heaterState = "Off" then
    match heaterType[heaterIndex]? with
    | none => none
    | some zone =>
      let setTemp := dom.preheat zone
      some (st, [Effect.gcode ("M568 P" ++ toString heaterIndex ++ " R" ++ setTemp ++ " A1")])
  else if heaterState = "Preheat" then
    match heaterType[heaterIndex]? with
    | none => none
    | some zone =>
      let setTemp := dom.active zone
      some (st, [Effect.gcode ("M568 P" ++ toString heaterIndex ++ " S" ++ setTemp ++ " A2")])
  else if heaterState = "Active" then
    match heaterType[heaterIndex]? with
    | none => none
    | some _ =>
      some (st, [Effect.gcode ("M568 P" ++ toString heaterIndex ++ " A0")])
  else if heaterState = "Fault" then
    if answer then
      some (st, [Effect.confirm (faultMessage heaterIndex),
                 Effect.gcode (resetCommand heaterIndex)])
    else
      some ({ heaterFaults := Function.update st.heaterFaults heaterIndex (some true),
              timers := st.timers },
            [Effect.confirm (faultMessage heaterIndex)])
  else
    some (st, [])

/-- `configureHeaters(mode, configuredExtruderHeaters)` (main.js 411-424): the
effects, or `none` when the callback raised (no element for
`heaterType[index]`), in which case `sendGcode` is not reached. -/
def configureHeaters (mode : Nat) (configuredExtruderHeaters : List JSVal) (dom : Dom) :
    Option (List Effect) :=
  let heaterType : List Zone := [.top, .middle, .bottom, .nozzle]
  match jsForEach (fun _heater index gcodeString =>
      match heaterType[index]? with
      | none => none
      | some zone =>
        let preheatTemp := dom.preheat zone
        let activeTemp := dom.active zone
        some (gcodeString ++ ("M568 P" ++ toString index ++ " S" ++ activeTemp ++ " R"
          ++ preheatTemp ++ " A" ++ toString mode ++ " ")))
      configuredExtruderHeaters "" with
  | none => none
  | some gcodeString => some [Effect.gcode gcodeString]

/-- `configureBedHeaters(mode, configuredBedHeaters)` (main.js 427-440);
`configuredExtruderHeaters` is the global list that `update` assigned at the
last successful poll. -/
def configureBedHeaters (mode : Nat) (configuredBedHeaters : List JSVal)
    (configuredExtruderHeaters : List JSVal) (dom : Dom) : Option (List Effect) :=
  let heaterType : List Zone := [.bed0, .bed1, .bed2, .bed3]
  match jsForEach (fun _heater index gcodeString =>
      match heaterType[index]? with
      | none => none
      | some zone =>
        let preheatTemp := dom.preheat zone
        let activeTemp := dom.active zone
        some (gcodeString ++ ("M568 P" ++ toString (index + configuredExtruderHeaters.length)
          ++ " S" ++ activeTemp ++ " R" ++ preheatTemp ++ " A" ++ toString mode ++ " ")))
      configuredBedHeaters "" with
  | none => none
  | some gcodeString => some [Effect.gcode gcodeString]

/-- `configuredExtruderHeaters` as a poll computes it (main.js 123 and 126):
`findHeaters(data.heat.heaters).slice(0, defaultNumOfExtruderHeaters)`. -/
def configuredExtruderHeatersOf (heaters : List JSVal) : List JSVal :=
  (findHeaters heaters).take defaultNumOfExtruderHeaters

/-! ## The settings document -/

/-- One zone of the settings document. -/
structure ZoneSettings where
  popup : String
  active : String
  preheat : String
  deriving DecidableEq, Repr

/-- The double quote, as a string. -/
def dquote : String := String.singleton (Char.ofNat 0x22)

/-- The backslash, as a string. -/
def bslash : String := String.singleton (Char.ofNat 0x5C)

/-- How `JSON.stringify` writes one character of a string (ECMAScript
`QuoteJSONString`). Lone surrogates, which a Lean string cannot hold, are not
modelled. -/
def jsonEscapeChar (c : Char) : String :=
  if c.toNat = 0x22 then bslash ++ dquote
  else if c.toNat = 0x5C then bslash ++ bslash
  else if c.toNat = 0x08 then bslash ++ "b"
  else if c.toNat = 0x0C then bslash ++ "f"
  else if c.toNat = 0x0A then bslash ++ "n"
  else if c.toNat = 0x0D then bslash ++ "r"
  else if c.toNat = 0x09 then bslash ++ "t"
  else if c.toNat < 0x20 then
    bslash ++ "u00" ++ String.singleton (Nat.digitChar (c.toNat / 16))
      ++ String.singleton (Nat.digitChar (c.toNat % 16))
  else String.singleton c

/-- Concatenation of a list of strings, in order. -/
def concatStrings (parts : List String) : String :=
  parts.foldr (fun part rest => part ++ rest) ""

/-- `JSON.stringify` of a string. -/
def quoteJSONString (s : String) : String :=
  dquote ++ concatStrings (s.toList.map jsonEscapeChar) ++ dquote

/-- `JSON.stringify` of one zone object `{ popup, active, preheat }`. -/
def stringifyZone (v : ZoneSettings) : String :=
  "\x7b" ++ quoteJSONString "popup" ++ ":" ++ quoteJSONString v.popup ++ ","
    ++ quoteJSONString "active" ++ ":" ++ quoteJSONString v.active ++ ","
    ++ quoteJSONString "preheat" ++ ":" ++ quoteJSONString v.preheat ++ "\x7d"

/-- `JSON.stringify` of the settings object, keys in insertion order. -/
def stringifySettings (settings : List (String × ZoneSettings)) : String :=
  "\x7b" ++ ",".intercalate
      (settings.map (fun kv => quoteJSONString kv.1 ++ ":" ++ stringifyZone kv.2))
    ++ "\x7d"

/-- `text || fallback` on strings: the empty string is falsy. -/
def jsOr (text fallback : String) : String :=
  if text = "" then fallback else text

/-- The object `saveSettings` builds from the page (main.js 447-471). -/
def collectSettings (dom : Dom) : List (String × ZoneSettings) :=
  let categories : List Zone :=
    [.top, .middle, .bottom, .nozzle, .bed0, .bed1, .bed2, .bed3]
  categories.map (fun category =>
    (category.key,
      { popup := jsOr (dom.popup category) "0",
        active := jsOr (dom.active category) "0",
        preheat := jsOr (dom.preheat category) "0" }))

/-- `saveSettings()` (main.js 446-474). -/
def saveSettings (dom : Dom) (storage : Storage) : Storage :=
  storage.setItem "temperatureSettings" (stringifySettings (collectSettings dom))

/-! ## Setpoint entry and profiles -/

/-- What a handler leaves: the page, the store and the effects. -/
structure HandlerResult where
  dom : Dom
  storage : Storage
  log : List Effect

/-- The `switch (tabpane)` of `setTemp` (main.js 709-758): the zone whose two
setpoint elements are looked up, and the heater address. -/
def paneHeater (tabpane : String) : Option (Zone × String) :=
  if tabpane = ".tab-pane-top" then some (.top, "P0")
  else if tabpane = ".tab-pane-middle" then some (.middle, "P1")
  else if tabpane = ".tab-pane-bottom" then some (.bottom, "P2")
  else if tabpane = ".tab-pane-nozzle" then some (.nozzle, "P3")
  else if tabpane = ".tab-pane-bed0" then some (.bed0, "P4")
  else if tabpane = ".tab-pane-bed1" then some (.bed1, "P5")
  else if tabpane = ".tab-pane-bed2" then some (.bed2, "P6")
  else if tabpane = ".tab-pane-bed3" then some (.bed3, "P7")
  else none

/-- `setTemp(tabpane, buttonIndex)` (main.js 704-780). `none`: `tabpane` names
no pane, so that the lookup of the entry element gives `null` and reading its
`textContent` raises. -/
def setTemp (tabpane : String) (buttonIndex : Nat) (dom : Dom) (storage : Storage) :
    Option HandlerResult :=
  match paneHeater tabpane with
  | none => none
  | some (zone, heater) =>
    let displayTemp := dom.popup zone
    match buttonIndex with
    | 0 =>
      let dom1 := { dom with active := Function.update dom.active zone displayTemp }
      some { dom := dom1, storage := saveSettings dom1 storage,
             log := [Effect.gcode ("M568 " ++ heater ++ " S" ++ displayTemp ++ " A2")] }
    | 1 =>
      let dom1 := { dom with preheat := Function.update dom.preheat zone displayTemp }
      some { dom := dom1, storage := saveSettings dom1 storage,
             log := [Effect.gcode ("M568 " ++ heater ++ " R" ++ displayTemp)] }
    | 2 =>
      let dom1 := { dom with active := Function.update dom.active zone displayTemp }
      let dom2 := { dom1 with preheat := Function.update dom1.preheat zone displayTemp }
      some { dom := dom2, storage := saveSettings dom2 storage,
             log := [Effect.gcode ("M568 " ++ heater ++ " S" ++ displayTemp ++ " A2"),
                     Effect.gcode ("M568 " ++ heater ++ " R" ++ displayTemp)] }
    | _ => some { dom := dom, storage := storage, log := [] }

/-- The sixteen assignments at main.js 897-919: both setpoints of the four
extruder zones take the profile's own value, those of the four bed zones the
bed value. -/
def profileSetpoint (topTemp middleTemp bottomTemp nozzleTemp bedTemp : String) :
    Zone → String
  | .top => topTemp
  | .middle => middleTemp
  | .bottom => bottomTemp
  | .nozzle => nozzleTemp
  | .bed0 => bedTemp
  | .bed1 => bedTemp
  | .bed2 => bedTemp
  | .bed3 => bedTemp

/-- The click handler of the `index`-th set-profile button (main.js 880-931);
`configuredBedHeaters` is the global list assigned at the last successful poll.
`none`: one of the five cell lists has no `index`-th element. -/
def setProfileClick (index : Nat) (configuredBedHeaters : List JSVal) (dom : Dom)
    (storage : Storage) : Option HandlerResult :=
  match dom.topTemps[index]?, dom.middleTemps[index]?, dom.bottomTemps[index]?,
      dom.nozzleTemps[index]?, dom.bedTemps[index]? with
  | some topTemp, some middleTemp, some bottomTemp, some nozzleTemp, some bedTemp =>
    let dom1 := { dom with
      active := profileSetpoint topTemp middleTemp bottomTemp nozzleTemp bedTemp,
      preheat := profileSetpoint topTemp middleTemp bottomTemp nozzleTemp bedTemp }
    let extruderBatch :=
      "M568 P0 S" ++ topTemp ++ " R" ++ topTemp ++ " A2 M568 P1 S" ++ middleTemp ++ " R"
        ++ middleTemp ++ " A2 M568 P2 S" ++ bottomTemp ++ " R" ++ bottomTemp
        ++ " A2 M568 P3 S" ++ nozzleTemp ++ " R" ++ nozzleTemp ++ " A2"
    match jsForEach (fun _heater index gcodeString =>
        some (gcodeString ++ ("M568 P" ++ toString (index + 4) ++ " S" ++ bedTemp ++ " R"
          ++ bedTemp ++ " A2 ")))
        configuredBedHeaters "" with
    | none => none
    | some gcodeString =>
      some { dom := dom1, storage := saveSettings dom1 storage,
             log := [Effect.gcode extruderBatch, Effect.gcode gcodeString,
                     Effect.click ".main-tab-link"] }
  | _, _, _, _, _ => none

/-- The heater index of a zone: `top` = 0, ..., `nozzle` = 3, `bed0` = 4, ...,
`bed3` = 7. -/
def Zone.index : Zone → Nat
  | .top => 0
  | .middle => 1
  | .bottom => 2
  | .nozzle => 3
  | .bed0 => 4
  | .bed1 => 5
  | .bed2 => 6
  | .bed3 => 7

/-- A page for examples: every setpoint and entry reads "0", and the profile
table shows the six built-in profiles (main.js 1155-1204) as
`updateHeatingProfiles` writes them. -/
def samplePage : Dom where
  popup := fun _ => "0"
  active := fun _ => "0"
  preheat := fun _ => "0"
  topTemps := ["180", "150", "150", "150", "80", "80"]
  middleTemps := ["250", "200", "190", "160", "160", "140"]
  bottomTemps := ["260", "200", "200", "200", "170", "150"]
  nozzleTemps := ["270", "210", "210", "205", "180", "160"]
  bedTemps := ["100", "90", "100", "80", "80", "50"]

/-- The empty store. -/
def Storage.empty : Storage := fun _ => none

/-! ## Executions of the fault tracker -/

/-- What can happen to the fault flags: a poll reaches its fault loop with
`allHeaterStates` and the operator answers `answer i` to the dialog of slot `i`;
the `k`-th pending timer fires; a state label is clicked, which calls
`toggleHeaterStates` (main.js 626-630). The loop and the handlers run to
completion without interleaving: `window.confirm` blocks the page. -/
inductive Event where
  | poll (allHeaterStates : List (Option String)) (answer : Nat → Bool) : Event
  | timer (k : Nat) : Event
  | click (heaterState : String) (heaterIndex : Nat) (answer : Bool) (dom : Dom) : Event

/-- One event: the new state and the effects. A handler that raises leaves the
flags as they are. -/
def step (st : FaultState) : Event → FaultState × List Effect
  | .poll allHeaterStates answer =>
    ((faultCheck answer allHeaterStates st).state, (faultCheck answer allHeaterStates st).log)
  | .timer k => (fireTimer k st, [])
  | .click heaterState heaterIndex answer dom =>
    match toggleHeaterStates heaterState heaterIndex answer dom st with
    | none => (st, [])
    | some r => r

/-- The state after a sequence of events. -/
def exec (st : FaultState) (events : List Event) : FaultState :=
  events.foldl (fun s e => (step s e).1) st

/-- The pending timers whose callback clears the flag of slot `i`. -/
def timersOf (i : Nat) (st : FaultState) : List Timer :=
  st.timers.filter (fun t => decide (t.slot = i))

/-- Nothing happened to slot `i`: flag and timers as before, no dialog and no
reset command for it. -/
def Quiet (i : Nat) (st st2 : FaultState) (log : List Effect) : Prop :=
  st2.heaterFaults i = st.heaterFaults i ∧ timersOf i st2 = timersOf i st ∧
    log.count (Effect.confirm (faultMessage i)) = 0 ∧
    log.count (Effect.gcode (resetCommand i)) = 0

/-- Slot `i` was Clear, one dialog was shown for it and answered `answer`; the
flag is now set, and a confirmed reset sent one command and scheduled one
timer. -/
def Prompted (answer : Bool) (i : Nat) (st st2 : FaultState) (log : List Effect) : Prop :=
  st.heaterFaults i = some false ∧ st2.heaterFaults i = some true ∧
    timersOf i st2
      = timersOf i st ++ (if answer then [{ delay := 500, slot := i }] else []) ∧
    log.count (Effect.confirm (faultMessage i)) = 1 ∧
    log.count (Effect.gcode (resetCommand i)) = (if answer then 1 else 0)

/-- Slot `i` either has no pending timer, or has exactly one, of 500 ms, and is
Reported. -/
def SlotInv (i : Nat) (st : FaultState) : Prop :=
  timersOf i st = [] ∨
    (timersOf i st = [{ delay := 500, slot := i }] ∧ st.heaterFaults i = some true)

/-- The number a list of decimal digits denotes, continuing from `acc`. -/
def digitsValue (acc : Nat) (ds : List Char) : Nat :=
  ds.foldl (fun a c => 10 * a + (c.toNat - 48)) acc

/-! ## JSON text: `JSON.parse` -/

/-- JSON white space: space, tab, line feed, carriage return. -/
def isJsonWs (c : Char) : Bool :=
  c.toNat = 0x20 || c.toNat = 0x09 || c.toNat = 0x0A || c.toNat = 0x0D

/-- Skips leading JSON white space. -/
def skipWs : List Char → List Char
  | [] => []
  | c :: rest => if isJsonWs c then skipWs rest else c :: rest

/-- The value of a hexadecimal digit. -/
def hexValue (c : Char) : Option Nat :=
  if 48 ≤ c.toNat ∧ c.toNat ≤ 57 then some (c.toNat - 48)
  else if 97 ≤ c.toNat ∧ c.toNat ≤ 102 then some (c.toNat - 87)
  else if 65 ≤ c.toNat ∧ c.toNat ≤ 70 then some (c.toNat - 55)
  else none

/-- The code unit written by the four hexadecimal digits of a `\u` escape. -/
def hex4 (a b c d : Char) : Option Nat :=
  match hexValue a, hexValue b, hexValue c, hexValue d with
  | some x, some y, some z, some w => some (((x * 16 + y) * 16 + z) * 16 + w)
  | _, _, _, _ => none

/-- The UTF-16 code units of a JSON string up to its closing quote, escapes
decoded (a character outside the Basic Multilingual Plane written literally
counts as its code point), and the text after the quote. `none`: the text is
not a JSON string. -/
def parseStringBody : List Char → Option (List Nat × List Char)
  | [] => none
  | c :: rest =>
    if c.toNat = 0x22 then some ([], rest)
    else if c.toNat = 0x5C then
      match rest with
      | [] => none
      | e :: rest2 =>
        if e.toNat = 0x75 then
          match rest2 with
          | h1 :: h2 :: h3 :: h4 :: rest3 =>
            match hex4 h1 h2 h3 h4 with
            | none => none
            | some u =>
              match parseStringBody rest3 with
              | none => none
              | some (s, r) => some (u :: s, r)
          | _ => none
        else
          match (if e.toNat = 0x22 then some 0x22
            else if e.toNat = 0x5C then some 0x5C
            else if e.toNat = 0x2F then some 0x2F
            else if e.toNat = 0x62 then some 0x08
            else if e.toNat = 0x66 then some 0x0C
            else if e.toNat = 0x6E then some 0x0A
            else if e.toNat = 0x72 then some 0x0D
            else if e.toNat = 0x74 then some 0x09
            else none : Option Nat) with
          | none => none
          | some d =>
            match parseStringBody rest2 with
            | none => none
            | some (s, r) => some (d :: s, r)
    else if c.toNat < 0x20 then none
    else
      match parseStringBody rest with
      | none => none
      | some (s, r) => some (c.toNat :: s, r)

/-- The characters of a sequence of code units: a high surrogate followed by a
low surrogate is one character; a lone surrogate, which a string of this model
cannot hold, is replaced by U+FFFD. `pending` is a high surrogate just read. -/
def decodeUnits : Option Nat → List Nat → List Char
  | none, [] => []
  | some _, [] => [Char.ofNat 0xFFFD]
  | none, u :: rest =>
    if 0xD800 ≤ u ∧ u ≤ 0xDBFF then decodeUnits (some u) rest
    else if 0xDC00 ≤ u ∧ u ≤ 0xDFFF then Char.ofNat 0xFFFD :: decodeUnits none rest
    else Char.ofNat u :: decodeUnits none rest
  | some h, u :: rest =>
    if 0xDC00 ≤ u ∧ u ≤ 0xDFFF then
      Char.ofNat (0x10000 + (h - 0xD800) * 0x400 + (u - 0xDC00)) :: decodeUnits none rest
    else if 0xD800 ≤ u ∧ u ≤ 0xDBFF then Char.ofNat 0xFFFD :: decodeUnits (some u) rest
    else Char.ofNat 0xFFFD :: Char.ofNat u :: decodeUnits none rest

/-- The string with the given code units. -/
def unitsToString (units : List Nat) : String :=
  String.mk (decodeUnits none units)

/-- Whether a character is a decimal digit. -/
def isDigitChar (c : Char) : Bool :=
  decide (48 ≤ c.toNat) && decide (c.toNat ≤ 57)

/-- The leading decimal digits of a text, and the rest. -/
def spanDigits : List Char → List Char × List Char
  | [] => ([], [])
  | c :: rest =>
    if isDigitChar c then ((c :: (spanDigits rest).1), (spanDigits rest).2)
    else ([], c :: rest)

/-- The integer part of a JSON number: `0`, or digits not starting with `0`. -/
def spanJsonInt (cs : List Char) : List Char × List Char :=
  match cs with
  | [] => ([], [])
  | c :: rest =>
    if c.toNat = 48 then ([c], rest) else spanDigits (c :: rest)

/-- The fraction of a JSON number, if one starts here: its digits and the rest.
`none`: a point without a digit after it. -/
def spanJsonFraction (cs : List Char) : Option (List Char × List Char) :=
  match cs with
  | [] => some ([], [])
  | c :: rest =>
    if c.toNat = 0x2E then
      (if (spanDigits rest).1 = [] then none else some (spanDigits rest))
    else some ([], c :: rest)

/-- The exponent of a JSON number, if one starts here: its sign (true for
minus), digits and the rest. `none`: an `e` without a digit after it. -/
def spanJsonExponent (cs : List Char) : Option (Bool × List Char × List Char) :=
  match cs with
  | [] => some (false, [], [])
  | c :: rest =>
    if c.toNat = 0x65 ∨ c.toNat = 0x45 then
      match rest with
      | [] => none
      | s :: rest2 =>
        if s.toNat = 0x2D then
          (if (spanDigits rest2).1 = [] then none
           else some (true, (spanDigits rest2).1, (spanDigits rest2).2))
        else if s.toNat = 0x2B then
          (if (spanDigits rest2).1 = [] then none
           else some (false, (spanDigits rest2).1, (spanDigits rest2).2))
        else
          (if (spanDigits rest).1 = [] then none
           else some (false, (spanDigits rest).1, (spanDigits rest).2))
    else some (false, [], c :: rest)

/-- The mathematical value of a number literal with the given parts. The
rounding of `JSON.parse` to a double is not modelled. -/
def numberValue (negative : Bool) (intDigits fracDigits : List Char) (expNegative : Bool)
    (expDigits : List Char) : Rat :=
  let magnitude : Rat :=
    if fracDigits = [] ∧ expDigits = [] then ((digitsValue 0 intDigits : Nat) : Rat)
    else
      let mantissa : Rat :=
        ((digitsValue 0 (intDigits ++ fracDigits) : Nat) : Rat) / (10 : Rat) ^ fracDigits.length
      if expNegative then mantissa / (10 : Rat) ^ (digitsValue 0 expDigits)
      else mantissa * (10 : Rat) ^ (digitsValue 0 expDigits)
  if negative then -magnitude else magnitude

/-- A JSON number at the start of a text, and the rest. -/
def parseNumber (cs : List Char) : Option (Rat × List Char) :=
  let negative : Bool := match cs with
    | [] => false
    | c :: _ => decide (c.toNat = 0x2D)
  let cs1 : List Char := if negative then cs.drop 1 else cs
  if (spanJsonInt cs1).1 = [] then none
  else
    match spanJsonFraction (spanJsonInt cs1).2 with
    | none => none
    | some (fracDigits, cs3) =>
      match spanJsonExponent cs3 with
      | none => none
      | some (expNegative, expDigits, cs4) =>
        some (numberValue negative (spanJsonInt cs1).1 fracDigits expNegative expDigits, cs4)

/-- `object[key] = value` on the list of own properties: an existing key keeps
its place and takes the new value. -/
def setProp (fields : List (String × JSVal)) (key : String) (value : JSVal) :
    List (String × JSVal) :=
  match fields with
  | [] => [(key, value)]
  | (k, v) :: rest =>
    if k = key then (k, value) :: rest else (k, v) :: setProp rest key value

/-- The members of a JSON object after the opening brace, `parseValue` being
the parser of values; `cs` starts at a member. -/
def parseMembers (parseValue : List Char → Option (JSVal × List Char)) :
    Nat → List Char → List (String × JSVal) → Option (JSVal × List Char)
  | 0, _, _ => none
  | n + 1, cs, acc =>
    match cs with
    | [] => none
    | q :: cs1 =>
      if q.toNat = 0x22 then
        match parseStringBody cs1 with
        | none => none
        | some (key, cs2) =>
          match skipWs cs2 with
          | [] => none
          | colon :: cs3 =>
            if colon.toNat = 0x3A then
              match parseValue (skipWs cs3) with
              | none => none
              | some (value, cs4) =>
                match skipWs cs4 with
                | [] => none
                | sep :: cs5 =>
                  if sep.toNat = 0x2C then
                    parseMembers parseValue n (skipWs cs5) (setProp acc (unitsToString key) value)
                  else if sep.toNat = 0x7D then
                    some (JSVal.obj (setProp acc (unitsToString key) value), cs5)
                  else none
            else none
      else none

/-- The elements of a JSON array after the opening bracket; `cs` starts at an
element. -/
def parseElements (parseValue : List Char → Option (JSVal × List Char)) :
    Nat → List Char → List JSVal → Option (JSVal × List Char)
  | 0, _, _ => none
  | n + 1, cs, acc =>
    match parseValue cs with
    | none => none
    | some (value, cs1) =>
      match skipWs cs1 with
      | [] => none
      | sep :: cs2 =>
        if sep.toNat = 0x2C then parseElements parseValue n (skipWs cs2) (acc ++ [value])
        else if sep.toNat = 0x5D then some (JSVal.arr (acc ++ [value]), cs2)
        else none

/-- A JSON value at the start of a text (no leading white space), and the rest.
`fuel` bounds the nesting depth; each nested value starts after at least one
character of its parent. -/
def parseValue : Nat → List Char → Option (JSVal × List Char)
  | 0, _ => none
  | fuel + 1, cs =>
    match cs with
    | [] => none
    | c :: rest =>
      if c.toNat = 0x7B then
        match skipWs rest with
        | [] => none
        | d :: rest2 =>
          if d.toNat = 0x7D then some (JSVal.obj [], rest2)
          else parseMembers (parseValue fuel) rest.length (d :: rest2) []
      else if c.toNat = 0x5B then
        match skipWs rest with
        | [] => none
        | d :: rest2 =>
          if d.toNat = 0x5D then some (JSVal.arr [], rest2)
          else parseElements (parseValue fuel) rest.length (d :: rest2) []
      else if c.toNat = 0x22 then
        match parseStringBody rest with
        | none => none
        | some (s, r) => some (JSVal.str (unitsToString s), r)
      else
        match cs with
        | 't' :: 'r' :: 'u' :: 'e' :: r => some (JSVal.bool true, r)
        | 'f' :: 'a' :: 'l' :: 's' :: 'e' :: r => some (JSVal.bool false, r)
        | 'n' :: 'u' :: 'l' :: 'l' :: r => some (JSVal.null, r)
        | _ =>
          match parseNumber cs with
          | none => none
          | some (x, r) => some (JSVal.num x, r)

/-- `JSON.parse(text)`; `none`: a `SyntaxError` is raised. -/
def jsonParse (text : String) : Option JSVal :=
  match parseValue (text.length + 1) (skipWs text.toList) with
  | none => none
  | some (value, rest) => if skipWs rest = [] then some value else none

/-! ## Conversions to text: `ToString` and `JSON.stringify` -/

/-- The conversions to text this model does not spell out: `fraction` is
`Number::toString` on a number that is not an integer below `10 ^ 21` in
magnitude, `composite` is `ToString` on an array or an object. The theorems hold
for every choice of them. -/
structure Conv where
  fraction : Rat → String
  composite : JSVal → String

/-- `Number::toString(x)`: the decimal numeral for an integer below `10 ^ 21`
in magnitude. -/
def numberText (cv : Conv) (x : Rat) : String :=
  if x.den = 1 ∧ x.num.natAbs < 10 ^ 21 then
    (if x.num < 0 then "-" ++ toString x.num.natAbs else toString x.num.natAbs)
  else cv.fraction x

/-- The abstract operation `ToString(v)`. -/
def jsToString (cv : Conv) : JSVal → String
  | .undefined => "undefined"
  | .null => "null"
  | .bool b => if b then "true" else "false"
  | .num x => numberText cv x
  | .str s => s
  | .arr items => cv.composite (.arr items)
  | .obj fields => cv.composite (.obj fields)

mutual
/-- `JSON.stringify(v)` for a value of a JSON document; inside an array
`undefined` is written `null`. -/
def jsonStringify (cv : Conv) : JSVal → String
  | .undefined => "null"
  | .null => "null"
  | .bool b => if b then "true" else "false"
  | .num x => numberText cv x
  | .str s => quoteJSONString s
  | .arr items => "[" ++ ",".intercalate (stringifyItems cv items) ++ "]"
  | .obj fields => "\x7b" ++ ",".intercalate (stringifyFields cv fields) ++ "\x7d"
/-- The elements of an array, each stringified. -/
def stringifyItems (cv : Conv) : List JSVal → List String
  | [] => []
  | x :: xs => jsonStringify cv x :: stringifyItems cv xs
/-- The members of an object, each stringified; a property whose value is
`undefined` is left out. -/
def stringifyFields (cv : Conv) : List (String × JSVal) → List String
  | [] => []
  | (_, JSVal.undefined) :: rest => stringifyFields cv rest
  | (k, v) :: rest =>
    (quoteJSONString k ++ ":" ++ jsonStringify cv v) :: stringifyFields cv rest
end

/-! ## Property access -/

/-- The property read `v[name]` (or `v.name`), for the property names this
program reads (`popup`, `active`, `preheat`, `current`, `state`, `heat`,
`heaters`, `bedHeaters`, `chamberHeaters`), which no string, number, boolean or
array has: the own property of an object, `undefined` when there is none.
`none`: `v` is `null` or `undefined` and the read raises a `TypeError`. -/
def getProp (v : JSVal) (name : String) : Option JSVal :=
  match v with
  | .undefined => none
  | .null => none
  | .obj fields => some ((fields.lookup name).getD JSVal.undefined)
  | _ => some JSVal.undefined

/-- `Object.entries(v)`, in the order of the list of own properties (JavaScript
puts integer-like keys first; no result of this model depends on the order of
entries). A string has one entry per character, an array one per element.
`none`: `v` is `null` or `undefined` and the call raises a `TypeError`. -/
def objectEntries : JSVal → Option (List (String × JSVal))
  | .undefined => none
  | .null => none
  | .bool _ => some []
  | .num _ => some []
  | .str s => some (mapIdxFrom (fun c i => (toString i, JSVal.str (String.singleton c))) 0 s.toList)
  | .arr items => some (mapIdxFrom (fun x i => (toString i, x)) 0 items)
  | .obj fields => some fields

/-- `v || fallback`. -/
def jsOrVal (v fallback : JSVal) : JSVal :=
  if v.toBoolean then v else fallback

/-! ## Loading and resetting the stored documents -/

/-- One zone of the record `loadSettings` returns: each field is the stored
value or the string "0". -/
structure LoadedZone where
  popup : JSVal
  active : JSVal
  preheat : JSVal

/-- A zone object of strings, as a loaded zone. -/
def ZoneSettings.toLoaded (v : ZoneSettings) : LoadedZone :=
  { popup := .str v.popup, active := .str v.active, preheat := .str v.preheat }

/-- `initializeDefaultSettings()` (main.js 519-535). -/
def initializeDefaultSettings : List (String × ZoneSettings) :=
  let categories : List Zone :=
    [.top, .middle, .bottom, .nozzle, .bed0, .bed1, .bed2, .bed3]
  categories.map (fun category =>
    (category.key, { popup := "0", active := "0", preheat := "0" }))

/-- `acc[category] = zone` on the record under construction: an existing key
keeps its place and takes the new value. The key `__proto__` sets the prototype
of `acc` and adds no own property. -/
def setZone (acc : List (String × LoadedZone)) (category : String) (zone : LoadedZone) :
    List (String × LoadedZone) :=
  if category = "__proto__" then acc
  else
    match acc with
    | [] => [(category, zone)]
    | (k, z) :: rest =>
      if k = category then (k, zone) :: rest else (k, z) :: setZone rest category zone

/-- The callback of the `reduce` at main.js 491-498. `none`: `values` is `null`
and reading `values.popup` raises. -/
def normalizeEntry (acc : List (String × LoadedZone)) (entry : String × JSVal) :
    Option (List (String × LoadedZone)) :=
  match getProp entry.2 "popup", getProp entry.2 "active", getProp entry.2 "preheat" with
  | some popup, some active, some preheat =>
    some (setZone acc entry.1
      { popup := jsOrVal popup (.str "0"),
        active := jsOrVal active (.str "0"),
        preheat := jsOrVal preheat (.str "0") })
  | _, _, _ => none

/-- `entries.reduce(callback, acc)` for a callback that may raise. -/
def reduceEntries (entries : List (String × JSVal)) (acc : List (String × LoadedZone)) :
    Option (List (String × LoadedZone)) :=
  match entries with
  | [] => some acc
  | entry :: rest =>
    match normalizeEntry acc entry with
    | none => none
    | some acc2 => reduceEntries rest acc2

/-- The record built at main.js 490-500 from the parsed document:
`Object.entries(doc).reduce(..., {})`. -/
def normalizeSettings (doc : JSVal) : Option (List (String × LoadedZone)) :=
  match objectEntries doc with
  | none => none
  | some entries => reduceEntries entries []

/-- The zone whose elements the selectors `.tab-pane-<key> .temp-popup-user-input`,
`#user-input-active-<key>` and `#user-input-preheat-<key>` find; `none`: the
page has no such element. -/
def zoneOfKey (key : String) : Option Zone :=
  if key = "top" then some .top
  else if key = "middle" then some .middle
  else if key = "bottom" then some .bottom
  else if key = "nozzle" then some .nozzle
  else if key = "bed0" then some .bed0
  else if key = "bed1" then some .bed1
  else if key = "bed2" then some .bed2
  else if key = "bed3" then some .bed3
  else none

/-- `setValuesInForm(category)` of `loadSettings` (main.js 502-511), `zone` being
`settings[category]`. `none`: the page has no element for `category`, and the
assignment to `textContent` of `null` raises. -/
def setValuesInForm (cv : Conv) (dom : Dom) (category : String) (zone : LoadedZone) :
    Option Dom :=
  match zoneOfKey category with
  | none => none
  | some z =>
    some { dom with
      popup := Function.update dom.popup z (jsToString cv zone.popup),
      active := Function.update dom.active z (jsToString cv zone.active),
      preheat := Function.update dom.preheat z (jsToString cv zone.preheat) }

/-- `Object.keys(settings).forEach(setValuesInForm)` (main.js 513). -/
def setAllValuesInForm (cv : Conv) (settings : List (String × LoadedZone)) (dom : Dom) :
    Option Dom :=
  match settings with
  | [] => some dom
  | (category, zone) :: rest =>
    match setValuesInForm cv dom category zone with
    | none => none
    | some dom2 => setAllValuesInForm cv rest dom2

/-- What `loadSettings` leaves: the record it returns, the page and the store. -/
structure LoadResult where
  settings : List (String × LoadedZone)
  dom : Dom
  storage : Storage

/-- `loadSettings()` (main.js 477-516). `none`: an error is raised, by
`JSON.parse`, by `Object.entries`, by the callback of `reduce` or by
`setValuesInForm`. -/
def loadSettings (cv : Conv) (dom : Dom) (storage : Storage) : Option LoadResult :=
  let storedSettings : String := jsOr ((storage "temperatureSettings").getD "") "\x7b\x7d"
  if storedSettings = "" then
    let defaultSettings := initializeDefaultSettings
    some { settings := defaultSettings.map (fun kv => (kv.1, kv.2.toLoaded)),
           dom := dom,
           storage := storage.setItem "temperatureSettings" (stringifySettings defaultSettings) }
  else
    match jsonParse storedSettings with
    | none => none
    | some doc =>
      match normalizeSettings doc with
      | none => none
      | some settings =>
        match setAllValuesInForm cv settings dom with
        | none => none
        | some dom2 => some { settings := settings, dom := dom2, storage := storage }

/-- One built-in heating profile (main.js 1156-1203). -/
def heatingProfile (material : String) (top middle bottom nozzle bed : Nat) : JSVal :=
  .obj [("Material", .str material), ("Top", .num top), ("Middle", .num middle),
        ("Bottom", .num bottom), ("Nozzle", .num nozzle), ("Bed", .num bed)]

/-- The array `defaultHeatingProfiles` of `initializeDefaultHeatingProfiles`
(main.js 1155-1204). -/
def defaultHeatingProfiles : JSVal :=
  .arr [heatingProfile "Airtech PC-GF" 180 250 260 270 100,
        heatingProfile "Airtech PP-GF" 150 200 200 210 90,
        heatingProfile "Airtech ABS-CF" 150 190 200 210 100,
        heatingProfile "Airtech PETG-GF" 150 160 200 205 80,
        heatingProfile "Default PETG" 80 160 170 180 80,
        heatingProfile "Default PLA" 80 140 150 160 50]

/-- `initializeDefaultHeatingProfiles()` (main.js 1153-1210): the list it
returns and the store after its `setItem`. -/
def initializeDefaultHeatingProfiles (cv : Conv) (storage : Storage) : JSVal × Storage :=
  (defaultHeatingProfiles,
    storage.setItem "HeatingProfiles" (jsonStringify cv defaultHeatingProfiles))

/-- `loadHeatingProfiles()` (main.js 1145-1150): `getItem` gives `null` for a
missing entry, and `null` and the empty string are falsy. `none`: `JSON.parse`
raises. -/
def loadHeatingProfiles (cv : Conv) (storage : Storage) : Option (JSVal × Storage) :=
  match storage "HeatingProfiles" with
  | none => some (initializeDefaultHeatingProfiles cv storage)
  | some storedHeatingProfiles =>
    if storedHeatingProfiles = "" then some (initializeDefaultHeatingProfiles cv storage)
    else
      match jsonParse storedHeatingProfiles with
      | none => none
      | some profiles => some (profiles, storage)

/-- `resetlocalStorageSettings()` (main.js 1274-1281): the store after the two
writes, and the request to reload the page. -/
def resetlocalStorageSettings (cv : Conv) (storage : Storage) : Storage × List Effect :=
  let defaultSettings := initializeDefaultSettings
  let storage1 := storage.setItem "temperatureSettings" (stringifySettings defaultSettings)
  let storage2 := (initializeDefaultHeatingProfiles cv storage1).2
  (storage2, [Effect.reload])

/-- Conversions for examples. -/
def sampleConv : Conv where
  fraction := fun _ => ""
  composite := fun _ => ""

/-- The settings document of `initializeDefaultSettings`, as a parsed value. -/
def defaultSettingsDoc : JSVal :=
  .obj (initializeDefaultSettings.map (fun kv =>
    (kv.1, JSVal.obj [("popup", .str kv.2.popup), ("active", .str kv.2.active),
                      ("preheat", .str kv.2.preheat)])))

/-- A character that `JSON.stringify` writes as itself. -/
def CleanChar (c : Char) : Prop :=
  c.toNat ≠ 0x22 ∧ c.toNat ≠ 0x5C ∧ 0x20 ≤ c.toNat

instance decCleanChar : DecidablePred CleanChar := fun c => by
  unfold CleanChar
  infer_instance

/-- The characters of a string in double quotes. -/
def quotedChars (cs : List Char) : List Char :=
  Char.ofNat 0x22 :: (cs ++ [Char.ofNat 0x22])

/-- A zone object of the settings document, as characters. -/
def zoneChars (v : ZoneSettings) : List Char :=
  Char.ofNat 0x7B :: (quotedChars "popup".data ++ ':' :: (quotedChars v.popup.data ++ ','
    :: (quotedChars "active".data ++ ':' :: (quotedChars v.active.data ++ ','
    :: (quotedChars "preheat".data ++ ':' :: (quotedChars v.preheat.data
    ++ [Char.ofNat 0x7D]))))))

/-- A zone of clean strings. -/
def CleanZone (v : ZoneSettings) : Prop :=
  (∀ c ∈ v.popup.data, CleanChar c) ∧ (∀ c ∈ v.active.data, CleanChar c)
    ∧ (∀ c ∈ v.preheat.data, CleanChar c)

/-- The zone object as a parsed value. -/
def zoneDoc (v : ZoneSettings) : JSVal :=
  .obj [("popup", .str v.popup), ("active", .str v.active), ("preheat", .str v.preheat)]

/-- One member of the settings document, as characters. -/
def memberChars (kv : String × ZoneSettings) : List Char :=
  quotedChars kv.1.data ++ ':' :: zoneChars kv.2

/-- The members after the first, each after its comma. -/
def moreMembersChars (rest : List (String × ZoneSettings)) : List Char :=
  (rest.map (fun kv => ',' :: memberChars kv)).flatten

/-- A settings entry of clean strings. -/
def CleanEntry (kv : String × ZoneSettings) : Prop :=
  (∀ c ∈ kv.1.data, CleanChar c) ∧ CleanZone kv.2

/-! ## Vocabulary of the statements about stored settings -/

/-- A text that is the decimal numeral of a temperature in 0..400. -/
def IsTemperature (text : String) : Prop :=
  ∃ n : Nat, n ≤ 400 ∧ text = toString n

/-- The record of eight zones with the given fields. -/
def zonesRecord (p a h : Zone → String) : List (String × LoadedZone) :=
  ([.top, .middle, .bottom, .nozzle, .bed0, .bed1, .bed2, .bed3] : List Zone).map
    (fun z => (z.key, ({ popup := .str (p z), active := .str (a z),
                         preheat := .str (h z) } : LoadedZone)))

/-- The rule "the stored value when it is present and non-empty, 0 when it is
missing or empty", as the spec words it, for one field: `stored` is the own
property of the stored zone object (`none`: there is none), `loaded` the field
of the loaded zone. Empty is what `||` takes for empty: the empty string, and
with it `0`, `NaN`, `false`, `null` and `undefined`. -/
def DefaultsToZero (stored : Option JSVal) (loaded : JSVal) : Prop :=
  (∀ v, stored = some v → v.toBoolean = true → loaded = v)
  ∧ (∀ v, stored = some v → v.toBoolean = false → loaded = JSVal.str "0")
  ∧ (stored = none → loaded = JSVal.str "0")

/-- All three fields of a loaded zone follow the rule, for the stored zone
object `fs`, and none is `undefined`. -/
def ZoneDefaultsToZero (fs : List (String × JSVal)) (zone : LoadedZone) : Prop :=
  DefaultsToZero (fs.lookup "popup") zone.popup
  ∧ DefaultsToZero (fs.lookup "active") zone.active
  ∧ DefaultsToZero (fs.lookup "preheat") zone.preheat
  ∧ zone.popup ≠ JSVal.undefined ∧ zone.active ≠ JSVal.undefined
  ∧ zone.preheat ≠ JSVal.undefined

/-- A stored settings document for examples: zone `top` with a popup value, an
empty active value and no preheat value, and zone `bed0` with no value at all. -/
def sampleStoredFields : List (String × JSVal) :=
  [("top", JSVal.obj [("popup", JSVal.str "210"), ("active", JSVal.str "")]),
   ("bed0", JSVal.obj [])]

/-- The text of the stored settings document for examples. -/
def sampleStoredSettings : String :=
  jsonStringify sampleConv (JSVal.obj sampleStoredFields)

/-! ## Rendering the status: `updateText` and `updateUIdata` -/

/-- Whether `c` is in the class `\w` of a regular expression: `[A-Za-z0-9_]`. -/
def isWordChar (c : Char) : Bool :=
  c.isAlphanum || decide (c = '_')

/-- `s.replace(/^\w/, (c) => c.toUpperCase())`: a first character of the class
`\w` is replaced by its capital, which for such a character is another one only
when it is a lowercase ASCII letter. -/
def capitalizeFirst (s : String) : String :=
  match s.data with
  | [] => s
  | c :: rest => if isWordChar c then String.mk (c.toUpper :: rest) else s

/-- The text the callback of `updateText` assigns to an element (main.js
109-117), `value` being `outputData[index]`. -/
def renderText (cv : Conv) (value : JSVal) (endText : String) : String :=
  match value with
  | .str s => if s = "standby" then "Preheat" else capitalizeFirst s ++ endText
  | v => jsToString cv v ++ endText

/-- `updateText(heater, outputData, endText)` (main.js 107-120): `heater` is the
list of the texts of the selected elements; the new texts and the value
returned. An index beyond `outputData` reads `undefined`. -/
def updateText (cv : Conv) (heater : List String) (outputData : List JSVal)
    (endText : String) : List String × List JSVal :=
  (jsMap (fun _element index => renderText cv (outputData.getD index JSVal.undefined) endText)
     heater,
   outputData)

/-- The loop at main.js 77-79: `outputData[i] = targetObject[i][targetProperty]`.
`none`: an entry is `null` or `undefined` and the read raises. -/
def extractProperty (targetObject : List JSVal) (targetProperty : String) :
    Option (List JSVal) :=
  match targetObject with
  | [] => some []
  | entry :: rest =>
    match getProp entry targetProperty with
    | none => none
    | some value =>
      match extractProperty rest targetProperty with
      | none => none
      | some values => some (value :: values)

/-- `updateUIdata(objectDescription, targetObject, targetProperty, targetClass,
..., endText)` (main.js 65-105) for an array `targetObject`;
`elementsWithClass` is the list of the texts of the elements that
`document.querySelectorAll(targetClass)` finds. The three parameters
`configured...Heaters` are not read. The result is the new texts of those
elements and the value returned, `none` standing for `null`; the outer `none`:
the extraction loop raised. -/
def updateUIdata (cv : Conv) (objectDescription : String) (targetObject : List JSVal)
    (targetProperty : String) (elementsWithClass : List String) (endText : String) :
    Option (List String × Option (List JSVal)) :=
  match extractProperty targetObject targetProperty with
  | none => none
  | some outputData =>
    if objectDescription = "extruderHeaters" then
      let r := updateText cv elementsWithClass (outputData.take 4) endText
      some (r.1, some r.2)
    else if objectDescription = "bedHeaters" then
      let r := updateText cv elementsWithClass ((outputData.drop 4).take 4) endText
      some (r.1, some r.2)
    else if objectDescription = "chamberHeaters" then
      let r := updateText cv elementsWithClass outputData endText
      some (r.1, some r.2)
    else if objectDescription = "allHeaters" then
      some (elementsWithClass, some outputData)
    else
      some (elementsWithClass, none)

/-! ## The keypad: `numPadClick` -/

/-- The UTF-16 code units of a character. -/
def charUnits (c : Char) : List Nat :=
  if c.toNat < 0x10000 then [c.toNat]
  else [0xD800 + (c.toNat - 0x10000) / 0x400, 0xDC00 + (c.toNat - 0x10000) % 0x400]

/-- The UTF-16 code units of a string. -/
def stringUnits (s : String) : List Nat :=
  (s.data.map charUnits).flatten

/-- The property `s.length` of a string: the number of its code units. -/
def jsLength (s : String) : Nat :=
  (stringUnits s).length

/-- `s.slice(0, -1)`: the string without its last code unit. -/
def sliceLast (s : String) : String :=
  unitsToString (stringUnits s).dropLast

/-- The white space and line terminators that `parseFloat` skips at the start
of its argument. -/
def isStrWhiteSpace (c : Char) : Bool :=
  decide (c.toNat ∈ [0x09, 0x0A, 0x0B, 0x0C, 0x0D, 0x20, 0xA0, 0x1680, 0x2028, 0x2029,
    0x202F, 0x205F, 0x3000, 0xFEFF])
  || (decide (0x2000 ≤ c.toNat) && decide (c.toNat ≤ 0x200A))

/-- A number of JavaScript: `NaN`, the two infinities, or a finite value. As in
`numberValue`, rounding to a double is not modelled, nor is the sign of zero. -/
inductive JSNum where
  | nan : JSNum
  | posInf : JSNum
  | negInf : JSNum
  | fin (x : Rat) : JSNum

/-- `parseFloat(text)`: after leading white space, the longest prefix that is a
decimal literal (a sign, then `Infinity`, or digits with an optional fraction
and an optional exponent, or a point and digits); `NaN` when there is none. -/
def parseFloat (text : List Char) : JSNum :=
  let cs : List Char := text.dropWhile isStrWhiteSpace
  let negative : Bool := match cs with
    | [] => false
    | c :: _ => decide (c.toNat = 0x2D)
  let signed : Bool := match cs with
    | [] => false
    | c :: _ => decide (c.toNat = 0x2D) || decide (c.toNat = 0x2B)
  let cs1 : List Char := if signed then cs.drop 1 else cs
  if "Infinity".data.isPrefixOf cs1 then (if negative then JSNum.negInf else JSNum.posInf)
  else
    let intDigits : List Char := (spanDigits cs1).1
    let cs2 : List Char := (spanDigits cs1).2
    let fraction : List Char × List Char := match cs2 with
      | [] => ([], [])
      | c :: rest => if c.toNat = 0x2E then spanDigits rest else ([], c :: rest)
    if intDigits = [] ∧ fraction.1 = [] then JSNum.nan
    else
      match spanJsonExponent fraction.2 with
      | none => JSNum.fin (numberValue negative intDigits fraction.1 false [])
      | some (expNegative, expDigits, _) =>
        JSNum.fin (numberValue negative intDigits fraction.1 expNegative expDigits)

/-- `x || 0` for a number `x`. -/
def JSNum.orZero : JSNum → JSNum
  | .nan => .fin 0
  | .fin x => if x = 0 then .fin 0 else .fin x
  | v => v

/-- `Math.min(x, 400)`. -/
def JSNum.min400 : JSNum → JSNum
  | .nan => .nan
  | .posInf => .fin 400
  | .negInf => .negInf
  | .fin x => .fin (min x 400)

/-- `ToString(x)` for a number, which the assignment to `textContent` applies. -/
def JSNum.text (cv : Conv) : JSNum → String
  | .nan => "NaN"
  | .posInf => "Infinity"
  | .negInf => "-Infinity"
  | .fin x => numberText cv x

/-- Strict comparison `v === s` of a value with a string. -/
def JSVal.strictEqString : JSVal → String → Bool
  | .str t, s => decide (t = s)
  | _, _ => false

/-- The variable `inputValue` of `numPadClick`: the text of the entry, or the
number a branch assigns (`buttonIndex + 1` or `0`). -/
inductive EntryValue where
  | text (s : String) : EntryValue
  | number (n : Nat) : EntryValue

/-- `tabpane.match(/[^-]+$/)[0]`: the longest suffix without a hyphen. `none`:
the suffix is empty, `match` gives `null` and the index raises. -/
def lastSegment (tabpane : String) : Option String :=
  let segment : List Char := (tabpane.data.reverse.takeWhile (fun c => c.toNat ≠ 0x2D)).reverse
  if segment = [] then none else some (String.mk segment)

/-- Lines 696-700 of `numPadClick`: a text of four code units loses the last
one (a number has no `length`), then `Math.min(parseFloat(inputValue) || 0, 400)`
is written to the entry. -/
def clampEntry (cv : Conv) (inputValue : EntryValue) : String :=
  let argument : String := match inputValue with
    | .text s => if jsLength s = 4 then sliceLast s else s
    | .number n => toString n
  (parseFloat argument.data).orZero.min400.text cv

/-- `numPadClick(tabpane, buttonIndex)` (main.js 660-701); `settings` is the
global the handler reads. The test `inputValue === 0` at line 666 compares a
text with a number and never holds. `none`: an error is raised, because
`tabpane` names no pane, or has no last segment, or `settings` has no entry for
the segment where a branch reads it. -/
def numPadClick (cv : Conv) (tabpane : String) (buttonIndex : Nat)
    (settings : List (String × LoadedZone)) (dom : Dom) : Option Dom :=
  match paneHeater tabpane with
  | none => none
  | some (zone, _) =>
    let inputValue : String := dom.popup zone
    match lastSegment tabpane with
    | none => none
    | some heaters =>
      let pressed : Option EntryValue :=
        if buttonIndex ≤ 8 then
          match settings.lookup heaters with
          | none => none
          | some stored =>
            if stored.popup.strictEqString inputValue then
              some (.number (buttonIndex + 1))
            else some (.text (inputValue ++ toString (buttonIndex + 1)))
        else if buttonIndex = 9 then some (.number 0)
        else if buttonIndex = 10 then
          match settings.lookup heaters with
          | none => none
          | some stored =>
            if stored.popup.strictEqString inputValue then some (.number 0)
            else some (.text (inputValue ++ toString 0))
        else
          if sliceLast inputValue = "" then some (.number 0)
          else some (.text (sliceLast inputValue))
      match pressed with
      | none => none
      | some value =>
        some { dom with popup := Function.update dom.popup zone (clampEntry cv value) }

/-- A sequence of key presses on the keypad of one pane, `settings` staying as
it is; `none`: a press raised. -/
def pressKeys (cv : Conv) (tabpane : String) (settings : List (String × LoadedZone)) :
    List Nat → Dom → Option Dom
  | [], dom => some dom
  | buttonIndex :: rest, dom =>
    match numPadClick cv tabpane buttonIndex settings dom with
    | none => none
    | some dom2 => pressKeys cv tabpane settings rest dom2

/-! ## The poll cycle: `fetchData`, `updateObjectModel`, `update` -/

/-- What `fetch(url)` and the reading of the body come to: `networkError` is a
rejected `fetch`; otherwise the response with its `ok` flag, its `content-type`
header (`none`: no such header) and the text of its body (`none`: the body
cannot be read, and `response.json()` and `response.text()` reject). -/
inductive FetchOutcome where
  | networkError : FetchOutcome
  | response (ok : Bool) (contentType : Option String) (body : Option String) : FetchOutcome

/-- `fetchData(url, options)` (main.js 17-38): the data, or `none` when the
promise is rejected. The `catch` logs to the console and throws the error on.
`response.json()` reads the body with the grammar of `JSON.parse`. -/
def fetchData (outcome : FetchOutcome) : Option JSVal :=
  match outcome with
  | .networkError => none
  | .response ok contentType body =>
    if !ok then none
    else
      let isJson : Bool := match contentType with
        | none => false
        | some t => decide (t ≠ "") && jsIncludes t "application/json"
      match body with
      | none => none
      | some text => if isJson then jsonParse text else some (JSVal.str text)

/-- The object assigned to `globalObjectModelResult` (main.js 204-216); a field
`none` is `null`, which `updateUIdata` returns for an unknown description. -/
structure Snapshot where
  configuredExtruderHeaters : List JSVal
  configuredBedHeaters : List JSVal
  configuredChamberHeaters : List JSVal
  extruderHeaterTemps : Option (List JSVal)
  extruderHeaterStates : Option (List JSVal)
  bedHeaterTemps : Option (List JSVal)
  bedHeaterStates : Option (List JSVal)
  allHeaterTemps : Option (List JSVal)
  allHeaterStates : Option (List JSVal)

/-- The texts of the elements a poll writes: those matched by
`.temp-data.extruder`, `.temp-state.extruder`, `.temp-data.bed` and
`.temp-state.bed`, in document order. -/
structure Labels where
  extruderTemps : List String
  extruderStates : List String
  bedTemps : List String
  bedStates : List String

/-- The state a poll reads and writes: `globalObjectModelResult` (`none`: not
yet assigned), the nine globals that `update` assigns by destructuring (`none`:
not yet assigned), the fault flags with their timers, the labels, and the
number of elements matched by `.temp-tab-link.heater`. The `style` of elements
is not part of the state. -/
structure PageState where
  globalObjectModelResult : Option Snapshot
  published : Option Snapshot
  faults : FaultState
  labels : Labels
  tabLinks : Nat

/-- The array `data.heat[name]` that `findHeaters` is applied to. `none`: one
of the property reads raises, or the value is no array and has no method `map`. -/
def heatProperty (data : JSVal) (name : String) : Option (List JSVal) :=
  match getProp data "heat" with
  | none => none
  | some heat =>
    match getProp heat name with
    | some (JSVal.arr items) => some items
    | _ => none

/-- `values.includes(s)` on an array, for a string `s`. -/
def arrayIncludes (values : List JSVal) (s : String) : Bool :=
  values.any (fun v => v.strictEqString s)

/-- Whether the glow update at main.js 219-255 (258-294 for the bed) raises:
`states.includes` and, when no state is "active" or "standby", `temps.some` are
called, and `null` has neither method. -/
def glowRaises (states temps : Option (List JSVal)) : Bool :=
  match states with
  | none => true
  | some values =>
    if arrayIncludes values "active" || arrayIncludes values "standby" then false
    else temps.isNone

/-- An entry of `allHeaterStates` as the fault loop sees it: a string as it is;
an array by the answer of its own `includes("fault")`, written as the text
"fault" or the empty text; `none` for a value without a method `includes`. -/
def faultLoopEntry : JSVal → Option String
  | .str s => some s
  | .arr items => some (if arrayIncludes items "fault" then "fault" else "")
  | _ => none

/-- `updateObjectModel()` (main.js 41-320) for the outcome of the status query
and the operator's answers to the fault dialogs: the state it leaves, the
effects, and the value the promise resolves with (`none`: it is rejected, from
the `catch` at line 314). -/
def updateObjectModel (cv : Conv) (outcome : FetchOutcome) (answer : Nat → Bool)
    (st : PageState) : PageState × List Effect × Option Snapshot :=
  match fetchData outcome with
  | none => (st, [], none)
  | some data =>
    match heatProperty data "heaters", heatProperty data "bedHeaters",
        heatProperty data "chamberHeaters" with
    | some heaters, some bedHeaters, some chamberHeaters =>
      let configuredHeatersAll := findHeaters heaters
      let configuredBedHeaters := findHeaters bedHeaters
      let configuredChamberHeaters := findHeaters chamberHeaters
      let configuredExtruderHeaters := configuredHeatersAll.take defaultNumOfExtruderHeaters
      if 0 < configuredBedHeaters.length ∧ st.tabLinks < configuredBedHeaters.length + 4 then
        (st, [], none)
      else
        match updateUIdata cv "extruderHeaters" heaters "current" st.labels.extruderTemps "°C" with
        | none => (st, [], none)
        | some (texts1, extruderHeaterTemps) =>
          let st1 := { st with labels := { st.labels with extruderTemps := texts1 } }
          match updateUIdata cv "extruderHeaters" heaters "state" st1.labels.extruderStates "" with
          | none => (st1, [], none)
          | some (texts2, extruderHeaterStates) =>
            let st2 := { st1 with labels := { st1.labels with extruderStates := texts2 } }
            match updateUIdata cv "bedHeaters" heaters "current" st2.labels.bedTemps "°C" with
            | none => (st2, [], none)
            | some (texts3, bedHeaterTemps) =>
              let st3 := { st2 with labels := { st2.labels with bedTemps := texts3 } }
              match updateUIdata cv "bedHeaters" heaters "state" st3.labels.bedStates "" with
              | none => (st3, [], none)
              | some (texts4, bedHeaterStates) =>
                let st4 := { st3 with labels := { st3.labels with bedStates := texts4 } }
                match updateUIdata cv "allHeaters" heaters "current" [] "°C",
                    updateUIdata cv "allHeaters" heaters "state" [] "" with
                | some (_, allHeaterTemps), some (_, allHeaterStates) =>
                  let result : Snapshot :=
                    { configuredExtruderHeaters := configuredExtruderHeaters,
                      configuredBedHeaters := configuredBedHeaters,
                      configuredChamberHeaters := configuredChamberHeaters,
                      extruderHeaterTemps := extruderHeaterTemps,
                      extruderHeaterStates := extruderHeaterStates,
                      bedHeaterTemps := bedHeaterTemps,
                      bedHeaterStates := bedHeaterStates,
                      allHeaterTemps := allHeaterTemps,
                      allHeaterStates := allHeaterStates }
                  let st5 := { st4 with globalObjectModelResult := some result }
                  if glowRaises extruderHeaterStates extruderHeaterTemps
                      || glowRaises bedHeaterStates bedHeaterTemps then (st5, [], none)
                  else
                    match allHeaterStates with
                    | none => (st5, [], none)
                    | some states =>
                      let r := faultCheck answer (states.map faultLoopEntry) st5.faults
                      let st6 := { st5 with faults := r.state }
                      if r.completed then (st6, r.log, some result) else (st6, r.log, none)
                | _, _ => (st4, [], none)
    | _, _, _ => (st, [], none)

/-- `update()` (main.js 341-359): on a resolved promise the nine globals are
assigned from its value; a rejection is logged to the console and nothing is
thrown on. -/
def update (cv : Conv) (outcome : FetchOutcome) (answer : Nat → Bool) (st : PageState) :
    PageState × List Effect :=
  match updateObjectModel cv outcome answer st with
  | (st2, log, some snapshot) => ({ st2 with published := some snapshot }, log)
  | (st2, log, none) => (st2, log)

/-- The status query fails, in the words of the spec: a network error, a
response that is not a success, or a body that cannot be decoded (it cannot be
read, or it is announced as JSON and is not JSON). -/
def QueryFails (outcome : FetchOutcome) : Prop :=
  match outcome with
  | .networkError => True
  | .response ok contentType body =>
    ok = false ∨ body = none
      ∨ ∃ ct text, contentType = some ct ∧ body = some text
          ∧ jsIncludes ct "application/json" = true ∧ jsonParse text = none

/-- A status document for examples: one heater in fault, no bed heater. -/
def sampleStatus : JSVal :=
  JSVal.obj [("heat", JSVal.obj
    [("heaters", JSVal.arr [JSVal.obj [("current", JSVal.num 21), ("state", JSVal.str "fault")]]),
     ("bedHeaters", JSVal.arr [sentinel]),
     ("chamberHeaters", JSVal.arr [])])]

/-- A page state for examples: nothing published yet, one label of each kind. -/
def samplePageState : PageState where
  globalObjectModelResult := none
  published := none
  faults := FaultState.init
  labels := { extruderTemps := ["-"], extruderStates := ["-"], bedTemps := ["-"],
              bedStates := ["-"] }
  tabLinks := 8

/-! ## Vocabulary of the statements about slots from 8 on and bed batches -/

/-- No slot from index `start` on can be prompted for: none of them has the flag
`false`, and none has a pending timer (whose firing would set it to `false`). -/
def NoneClearFrom (start : Nat) (st : FaultState) : Prop :=
  ∀ i, start ≤ i → st.heaterFaults i ≠ some false ∧ timersOf i st = []

/-- A status with nine heaters for examples: heaters 1 and 9 are in fault. -/
def sampleNineStates : List (Option String) :=
  [some "fault", some "off", some "off", some "off", some "off", some "off", some "off",
   some "off", some "fault"]

/-- The segment of bed heater `j` in a batch of mode 2 that numbers the bed
heaters from `offset` and gives both setpoints the text `Bd`. -/
def bedSegment (offset : Nat) (Bd : String) (j : Nat) : String :=
  "M568 P" ++ toString (j + offset) ++ " S" ++ Bd ++ " R" ++ Bd ++ " A2 "

/-- Every bed zone of the page has `Bd` as active and as preheat setpoint. -/
def BedSetpointsAre (Bd : String) (dom : Dom) : Prop :=
  ∀ zone ∈ ([.bed0, .bed1, .bed2, .bed3] : List Zone),
    dom.active zone = Bd ∧ dom.preheat zone = Bd

/-- Five configured bed heaters, for examples. -/
def sampleFiveBeds : List JSVal :=
  [JSVal.num 0, JSVal.num 1, JSVal.num 2, JSVal.num 3, JSVal.num 4]

/-- Four configured extruder heaters, for examples. -/
def sampleFourExtruders : List JSVal :=
  [JSVal.num 0, JSVal.num 1, JSVal.num 2, JSVal.num 3]

/-! ## The polling scheduler -/

/-- Who started a status query: `update`, which the interval calls (main.js
557), or `updateObjectModel`, which the listener of `DOMContentLoaded` calls
(main.js 560) and whose promise nobody awaits. -/
inductive PollOrigin where
  | interval : PollOrigin
  | startup : PollOrigin
  deriving DecidableEq, Repr

/-- The polling scheduler: the page state, the status queries in flight (from
the call of `fetch` until `fetchData` settles) in the order they were started,
and the effects so far. -/
structure Scheduler where
  page : PageState
  inFlight : List PollOrigin
  log : List Effect

/-- The scheduler at page load: no query in flight. -/
def Scheduler.init (page : PageState) : Scheduler where
  page := page
  inFlight := []
  log := []

/-- What happens to the scheduler: the interval of 500 ms fires; the event
`DOMContentLoaded` fires; the `k`-th query in flight completes with `outcome`,
the operator answering `answer i` to the fault dialog of slot `i`. -/
inductive SchedulerEvent where
  | tick : SchedulerEvent
  | domContentLoaded : SchedulerEvent
  | complete (k : Nat) (outcome : FetchOutcome) (answer : Nat → Bool) : SchedulerEvent

/-- Whether the event is an invocation of a poll. -/
def SchedulerEvent.isInvocation : SchedulerEvent → Bool
  | .tick => true
  | .domContentLoaded => true
  | .complete _ _ _ => false

/-- One event of the scheduler. An invocation runs `update` or
`updateObjectModel` up to the `await` of `fetchData` (main.js 44), where `fetch`
has been called: no variable is tested before, and nothing else is written. A
completion runs the rest of the poll in one go: it contains no further `await`,
and `window.confirm` blocks the page. A completion for an index without a query
in flight is no event. -/
def schedulerStep (cv : Conv) (s : Scheduler) : SchedulerEvent → Scheduler
  | .tick => { s with inFlight := s.inFlight ++ [PollOrigin.interval] }
  | .domContentLoaded => { s with inFlight := s.inFlight ++ [PollOrigin.startup] }
  | .complete k outcome answer =>
    match s.inFlight[k]? with
    | none => s
    | some PollOrigin.interval =>
      { page := (update cv outcome answer s.page).1,
        inFlight := s.inFlight.eraseIdx k,
        log := s.log ++ (update cv outcome answer s.page).2 }
    | some PollOrigin.startup =>
      { page := (updateObjectModel cv outcome answer s.page).1,
        inFlight := s.inFlight.eraseIdx k,
        log := s.log ++ (updateObjectModel cv outcome answer s.page).2.1 }

/-- The scheduler after a sequence of events. -/
def runScheduler (cv : Conv) (s : Scheduler) (events : List SchedulerEvent) : Scheduler :=
  events.foldl (schedulerStep cv) s

/-! ## Lemmas about `findHeaters` -/

theorem strictEqNumber_iff_sentinel (v : JSVal) :
    v.strictEqNumber (-1) = true ↔ v = sentinel := by
  cases v <;> simp [JSVal.strictEqNumber, sentinel]

theorem toBoolean_heaterPair (element : JSVal) (index : Nat) :
    (heaterPair element index).toBoolean = true := rfl

theorem findHeaters_from (xs : List JSVal) (start : Nat) :
    (mapIdxFrom (fun element index =>
        if !(element.strictEqNumber (-1)) then heaterPair element index else JSVal.null)
      start xs).filter JSVal.toBoolean
    = ((xs.enumFrom start).filter (fun p => decide (p.2 ≠ sentinel))).map
        (fun p => heaterPair p.2 p.1) := by
  induction xs generalizing start with
  | nil => rfl
  | cons x xs ih =>
    by_cases hx : x = sentinel
    · subst hx
      have h1 : sentinel.strictEqNumber (-1) = true := (strictEqNumber_iff_sentinel _).2 rfl
      simp only [mapIdxFrom, List.enumFrom_cons, List.filter_cons, h1, Bool.not_true,
        Bool.false_eq_true, if_false, JSVal.toBoolean, ih, ne_eq, not_true_eq_false,
        decide_False]
    · have h1 : x.strictEqNumber (-1) = false := by
        cases h : x.strictEqNumber (-1)
        · rfl
        · exact absurd ((strictEqNumber_iff_sentinel x).1 h) hx
      simp only [mapIdxFrom, List.enumFrom_cons, List.filter_cons, h1, Bool.not_false,
        if_true, toBoolean_heaterPair, ih, hx, ne_eq, not_false_eq_true,
        decide_True, List.map_cons]

/-! ## Decimal numerals -/

theorem digitChar_value (k : Nat) (h : k < 10) : (Nat.digitChar k).toNat - 48 = k := by
  interval_cases k <;> rfl

theorem digitsValue_toDigitsCore (fuel : Nat) :
    ∀ (n : Nat) (ds : List Char), n < fuel →
      digitsValue 0 (Nat.toDigitsCore 10 fuel n ds) = digitsValue n ds := by
  induction fuel with
  | zero => intro n ds h; omega
  | succ fuel ih =>
    intro n ds h
    simp only [Nat.toDigitsCore]
    split
    · rename_i h0
      have hn : n < 10 := by omega
      simp only [digitsValue, List.foldl_cons, Nat.mul_zero, Nat.zero_add]
      rw [Nat.mod_eq_of_lt hn, digitChar_value n hn]
    · rename_i h0
      rw [ih (n / 10) _ (by omega)]
      simp only [digitsValue, List.foldl_cons]
      rw [digitChar_value (n % 10) (Nat.mod_lt _ (by decide))]
      congr 1
      omega

theorem toString_nat_injective (a b : Nat) (h : toString a = toString b) : a = b := by
  have h2 : Nat.toDigits 10 a = Nat.toDigits 10 b := by
    have := congrArg String.data h
    exact this
  have ha := digitsValue_toDigitsCore (a + 1) a [] (by omega)
  have hb := digitsValue_toDigitsCore (b + 1) b [] (by omega)
  simp only [Nat.toDigits] at h2
  rw [h2, hb] at ha
  simpa [digitsValue] using ha.symm

theorem faultMessage_injective (i j : Nat) (h : faultMessage i = faultMessage j) : i = j := by
  unfold faultMessage at h
  rw [String.append_assoc, String.append_assoc] at h
  have h1 := congrArg String.data h
  simp only [String.data_append] at h1
  have h2 := List.append_cancel_left h1
  have h3 := List.append_cancel_right h2
  have h4 : toString (i + 1) = toString (j + 1) := String.ext h3
  have := toString_nat_injective _ _ h4
  omega

theorem resetCommand_injective (i j : Nat) (h : resetCommand i = resetCommand j) : i = j := by
  unfold resetCommand at h
  have h1 := congrArg String.data h
  simp only [String.data_append] at h1
  exact toString_nat_injective _ _ (String.ext (List.append_cancel_left h1))

/-! ## One slot through one poll -/

theorem count_confirm_single (i j : Nat) (h : j ≠ i) (rest : List Effect)
    (hrest : ∀ e ∈ rest, ∀ m, e ≠ Effect.confirm m) :
    (Effect.confirm (faultMessage j) :: rest).count (Effect.confirm (faultMessage i)) = 0 := by
  rw [List.count_eq_zero]
  intro hmem
  rcases List.mem_cons.1 hmem with h1 | h1
  · injection h1 with h2
    exact h (faultMessage_injective _ _ h2).symm
  · exact hrest _ h1 _ rfl

theorem timersOf_append (i : Nat) (st : FaultState) (extra : List Timer) :
    timersOf i { heaterFaults := st.heaterFaults, timers := st.timers ++ extra }
      = timersOf i st ++ extra.filter (fun t => decide (t.slot = i)) := by
  simp [timersOf, List.filter_append]

theorem faultCheckSlot_other (answer : Nat → Bool) (i j : Nat) (state : String)
    (st : FaultState) (hij : j ≠ i) :
    Quiet i st (faultCheckSlot answer j state st).1 (faultCheckSlot answer j state st).2 := by
  unfold faultCheckSlot
  have hji : i ≠ j := fun h => hij h.symm
  split
  · split
    · refine ⟨Function.update_noteq hji _ _, ?_, ?_, ?_⟩
      · simp [timersOf, List.filter_append, hij]
      · exact count_confirm_single i j hij _ (by simp)
      · rw [List.count_eq_zero]
        intro hmem
        simp only [List.mem_cons, List.mem_singleton, Effect.gcode.injEq, List.mem_nil_iff,
          or_false, false_or, reduceCtorEq] at hmem
        exact hij (resetCommand_injective _ _ hmem).symm
    · refine ⟨Function.update_noteq hji _ _, rfl, ?_, ?_⟩
      · exact count_confirm_single i j hij _ (by simp)
      · simp
  · exact ⟨rfl, rfl, rfl, rfl⟩

theorem faultCheckSlot_self (answer : Nat → Bool) (i : Nat) (state : String)
    (st : FaultState) :
    (Quiet i st (faultCheckSlot answer i state st).1 (faultCheckSlot answer i state st).2
        ∧ ¬ (jsIncludes state "fault" = true ∧ st.heaterFaults i = some false))
    ∨ (Prompted (answer i) i st (faultCheckSlot answer i state st).1
          (faultCheckSlot answer i state st).2
        ∧ jsIncludes state "fault" = true) := by
  unfold faultCheckSlot
  by_cases hc : jsIncludes state "fault" = true ∧ st.heaterFaults i = some false
  · right
    obtain ⟨h1, h2⟩ := hc
    refine ⟨?_, h1⟩
    cases ha : answer i
    · simp only [h1, h2, decide_True, Bool.and_self, if_true, Bool.false_eq_true, if_false]
      refine ⟨h2, Function.update_same _ _ _, by simp [timersOf], ?_, ?_⟩
      · simp
      · simp
    · simp only [h1, h2, decide_True, Bool.and_self, if_true]
      refine ⟨h2, Function.update_same _ _ _, ?_, ?_, ?_⟩
      · simp [timersOf, List.filter_append]
      · simp
      · simp
  · left
    refine ⟨?_, hc⟩
    have : (jsIncludes state "fault" && decide (st.heaterFaults i = some false)) = false := by
      rcases Bool.eq_false_or_eq_true (jsIncludes state "fault") with h | h
      · by_cases h2 : st.heaterFaults i = some false
        · exact absurd ⟨h, h2⟩ hc
        · simp [h2]
      · simp [h]
    simp only [this, Bool.false_eq_true, if_false]
    exact ⟨rfl, rfl, rfl, rfl⟩

theorem quiet_quiet {i : Nat} {a b c : FaultState} {l1 l2 : List Effect}
    (h1 : Quiet i a b l1) (h2 : Quiet i b c l2) : Quiet i a c (l1 ++ l2) := by
  obtain ⟨f1, t1, c1, g1⟩ := h1
  obtain ⟨f2, t2, c2, g2⟩ := h2
  exact ⟨f2.trans f1, t2.trans t1, by rw [List.count_append, c1, c2],
    by rw [List.count_append, g1, g2]⟩

theorem quiet_prompted {ans : Bool} {i : Nat} {a b c : FaultState} {l1 l2 : List Effect}
    (h1 : Quiet i a b l1) (h2 : Prompted ans i b c l2) : Prompted ans i a c (l1 ++ l2) := by
  obtain ⟨f1, t1, c1, g1⟩ := h1
  obtain ⟨p1, p2, p3, p4, p5⟩ := h2
  exact ⟨f1 ▸ p1, p2, by rw [p3, t1], by rw [List.count_append, c1, p4],
    by rw [List.count_append, g1, p5, Nat.zero_add]⟩

theorem prompted_quiet {ans : Bool} {i : Nat} {a b c : FaultState} {l1 l2 : List Effect}
    (h1 : Prompted ans i a b l1) (h2 : Quiet i b c l2) : Prompted ans i a c (l1 ++ l2) := by
  obtain ⟨f2, t2, c2, g2⟩ := h2
  obtain ⟨p1, p2, p3, p4, p5⟩ := h1
  exact ⟨p1, f2.trans p2, by rw [t2, p3], by rw [List.count_append, c2, p4],
    by rw [List.count_append, g2, p5, Nat.add_zero]⟩

theorem prompted_needs_clear {ans : Bool} {i : Nat} {a b : FaultState} {l : List Effect}
    (h : Prompted ans i a b l) (ha : a.heaterFaults i = some true) : False := by
  have := h.1
  rw [ha] at this
  exact absurd this (by decide)

/-- Through the fault loop, a slot is either untouched or prompted once. -/
theorem faultCheckFrom_summary (answer : Nat → Bool) (i : Nat) :
    ∀ (states : List (Option String)) (start : Nat) (st : FaultState),
      Quiet i st (faultCheckFrom answer start states st).state
          (faultCheckFrom answer start states st).log
      ∨ Prompted (answer i) i st (faultCheckFrom answer start states st).state
          (faultCheckFrom answer start states st).log := by
  intro states
  induction states with
  | nil => intro start st; exact Or.inl ⟨rfl, rfl, rfl, rfl⟩
  | cons x rest ih =>
    intro start st
    cases x with
    | none => exact Or.inl ⟨rfl, rfl, rfl, rfl⟩
    | some state =>
      simp only [faultCheckFrom]
      have hrest := ih (start + 1) (faultCheckSlot answer start state st).1
      by_cases hs : start = i
      · subst hs
        rcases faultCheckSlot_self answer start state st with ⟨hq, _⟩ | ⟨hp, _⟩
        · rcases hrest with h2 | h2
          · exact Or.inl (quiet_quiet hq h2)
          · exact Or.inr (quiet_prompted hq h2)
        · rcases hrest with h2 | h2
          · exact Or.inr (prompted_quiet hp h2)
          · exact absurd hp.2.1 (fun h => prompted_needs_clear h2 h)
      · have hq := faultCheckSlot_other answer i start state st hs
        rcases hrest with h2 | h2
        · exact Or.inl (quiet_quiet hq h2)
        · exact Or.inr (quiet_prompted hq h2)

/-! ## One slot through one event -/

theorem filter_eraseIdx_of_neg {α : Type} (p : α → Bool) :
    ∀ (l : List α) (k : Nat) (t : α), l[k]? = some t → p t = false →
      (l.eraseIdx k).filter p = l.filter p := by
  intro l
  induction l with
  | nil => intro k t h; simp at h
  | cons x xs ih =>
    intro k t h hp
    cases k with
    | zero =>
      simp only [List.getElem?_cons_zero, Option.some.injEq] at h
      subst h
      simp [List.filter_cons, hp]
    | succ k =>
      simp only [List.getElem?_cons_succ] at h
      simp only [List.eraseIdx_cons_succ, List.filter_cons, ih k t h hp]

theorem filter_eraseIdx_length {α : Type} (p : α → Bool) :
    ∀ (l : List α) (k : Nat) (t : α), l[k]? = some t → p t = true →
      ((l.eraseIdx k).filter p).length + 1 = (l.filter p).length := by
  intro l
  induction l with
  | nil => intro k t h; simp at h
  | cons x xs ih =>
    intro k t h hp
    cases k with
    | zero =>
      simp only [List.getElem?_cons_zero, Option.some.injEq] at h
      subst h
      simp [List.filter_cons, hp]
    | succ k =>
      simp only [List.getElem?_cons_succ] at h
      have := ih k t h hp
      simp only [List.eraseIdx_cons_succ, List.filter_cons]
      split <;> simp [this]

/-- What the firing of a timer does to slot `i`. -/
theorem fireTimer_slot (i k : Nat) (st : FaultState) :
    ((fireTimer k st).heaterFaults i = st.heaterFaults i
        ∧ timersOf i (fireTimer k st) = timersOf i st
        ∧ ∀ t, st.timers[k]? = some t → t.slot ≠ i)
    ∨ (∃ t, st.timers[k]? = some t ∧ t.slot = i
        ∧ (fireTimer k st).heaterFaults i = some false
        ∧ (timersOf i (fireTimer k st)).length + 1 = (timersOf i st).length) := by
  unfold fireTimer
  cases h : st.timers[k]? with
  | none => exact Or.inl ⟨rfl, rfl, by simp⟩
  | some t =>
    by_cases hs : t.slot = i
    · right
      refine ⟨t, rfl, hs, ?_, ?_⟩
      · subst hs; exact Function.update_same _ _ _
      · exact filter_eraseIdx_length _ st.timers k t h (by simpa using hs)
    · left
      refine ⟨Function.update_noteq (fun h2 => hs h2.symm) _ _, ?_, ?_⟩
      · exact filter_eraseIdx_of_neg _ st.timers k t h (by simpa using hs)
      · intro t2 h2
        cases h2
        exact hs

/-- What a click on a state label does to slot `i`: the timers stay, and the
flag stays or becomes Reported. -/
theorem toggleHeaterStates_slot (i : Nat) (heaterState : String) (heaterIndex : Nat)
    (answer : Bool) (dom : Dom) (st : FaultState) (r : FaultState × List Effect)
    (h : toggleHeaterStates heaterState heaterIndex answer dom st = some r) :
    r.1.timers = st.timers
      ∧ (r.1.heaterFaults i = st.heaterFaults i ∨ r.1.heaterFaults i = some true) := by
  unfold toggleHeaterStates at h
  simp only at h
  split at h
  · split at h
    · cases h
    · cases h; exact ⟨rfl, Or.inl rfl⟩
  · split at h
    · split at h
      · cases h
      · cases h; exact ⟨rfl, Or.inl rfl⟩
    · split at h
      · split at h
        · cases h
        · cases h; exact ⟨rfl, Or.inl rfl⟩
      · split at h
        · split at h
          · cases h; exact ⟨rfl, Or.inl rfl⟩
          · cases h
            refine ⟨rfl, ?_⟩
            by_cases hi : i = heaterIndex
            · subst hi; exact Or.inr (Function.update_same _ _ _)
            · exact Or.inl (Function.update_noteq hi _ _)
        · cases h; exact ⟨rfl, Or.inl rfl⟩

theorem timersOf_congr (i : Nat) (a b : FaultState) (h : a.timers = b.timers) :
    timersOf i a = timersOf i b := by
  simp [timersOf, h]

/-- The invariant of a slot holds after every event. -/
theorem slotInv_step (i : Nat) (st : FaultState) (e : Event) (h : SlotInv i st) :
    SlotInv i (step st e).1 := by
  cases e with
  | poll states answer =>
    simp only [step]
    rcases faultCheckFrom_summary answer i states 0 st with hq | hp
    · obtain ⟨f, t, _, _⟩ := hq
      unfold faultCheck
      rcases h with h | ⟨h1, h2⟩
      · exact Or.inl (t.trans h)
      · exact Or.inr ⟨t.trans h1, f.trans h2⟩
    · obtain ⟨p1, p2, p3, _, _⟩ := hp
      unfold faultCheck
      rcases h with h | ⟨h1, h2⟩
      · rw [h] at p3
        cases ha : answer i
        · left; simpa [ha] using p3
        · right; exact ⟨by simpa [ha] using p3, p2⟩
      · rw [h2] at p1; exact absurd p1 (by decide)
  | timer k =>
    simp only [step]
    rcases fireTimer_slot i k st with ⟨f, t, _⟩ | ⟨t, _, _, _, hl⟩
    · rcases h with h | ⟨h1, h2⟩
      · exact Or.inl (t.trans h)
      · exact Or.inr ⟨t.trans h1, f.trans h2⟩
    · left
      rcases h with h | ⟨h1, _⟩
      · rw [h] at hl; simp at hl
      · rw [h1] at hl
        simp only [List.length_singleton] at hl
        exact List.length_eq_zero.1 (by omega)
  | click heaterState heaterIndex answer dom =>
    simp only [step]
    cases hr : toggleHeaterStates heaterState heaterIndex answer dom st with
    | none => exact h
    | some r =>
      obtain ⟨ht, hf⟩ := toggleHeaterStates_slot i _ _ _ _ _ r hr
      have htt := timersOf_congr i r.1 st ht
      rcases h with h | ⟨h1, h2⟩
      · exact Or.inl (htt.trans h)
      · refine Or.inr ⟨htt.trans h1, ?_⟩
        rcases hf with hf | hf
        · exact hf.trans h2
        · exact hf

theorem slotInv_exec (i : Nat) (events : List Event) :
    ∀ st : FaultState, SlotInv i st → SlotInv i (exec st events) := by
  induction events with
  | nil => intro st h; exact h
  | cons e rest ih => intro st h; exact ih _ (slotInv_step i st e h)

theorem slotInv_init (i : Nat) : SlotInv i FaultState.init := Or.inl rfl

theorem exec_append (st : FaultState) (as bs : List Event) :
    exec st (as ++ bs) = exec (exec st as) bs := by
  simp [exec, List.foldl_append]

theorem exec_cons (st : FaultState) (e : Event) (rest : List Event) :
    exec st (e :: rest) = exec (step st e).1 rest := rfl

/-! ## A slot between two polls -/

theorem mem_log_prompted (answer : Nat → Bool) (i : Nat) (states : List (Option String))
    (st : FaultState)
    (h : Effect.confirm (faultMessage i) ∈ (faultCheck answer states st).log) :
    Prompted (answer i) i st (faultCheck answer states st).state
      (faultCheck answer states st).log := by
  rcases faultCheckFrom_summary answer i states 0 st with hq | hp
  · exact absurd h (List.count_eq_zero.1 hq.2.2.1)
  · exact hp

/-- A Reported slot stays Reported through an event, unless the event is the
firing of the slot's 500 ms timer. -/
theorem reported_step (i : Nat) (st : FaultState) (e : Event) (hinv : SlotInv i st)
    (hf : st.heaterFaults i = some true) :
    (step st e).1.heaterFaults i = some true
      ∨ ∃ k, e = Event.timer k ∧ st.timers[k]? = some { delay := 500, slot := i } := by
  cases e with
  | poll states answer =>
    left
    simp only [step]
    rcases faultCheckFrom_summary answer i states 0 st with hq | hp
    · exact hq.1.trans hf
    · exact hp.2.1
  | timer k =>
    simp only [step]
    rcases fireTimer_slot i k st with ⟨f, _, _⟩ | ⟨t, ht, hs, _, hl⟩
    · exact Or.inl (f.trans hf)
    · right
      refine ⟨k, rfl, ?_⟩
      have hmem : t ∈ timersOf i st :=
        List.mem_filter.2 ⟨List.getElem?_mem ht, by simpa using hs⟩
      rcases hinv with h | ⟨h1, _⟩
      · rw [h] at hmem; simp at hmem
      · rw [h1] at hmem
        rw [ht, List.mem_singleton.1 hmem]
  | click heaterState heaterIndex answer dom =>
    left
    simp only [step]
    cases hr : toggleHeaterStates heaterState heaterIndex answer dom st with
    | none => exact hf
    | some r =>
      rcases (toggleHeaterStates_slot i _ _ _ _ _ r hr).2 with h | h
      · exact h.trans hf
      · exact h

/-- If a slot is Reported before a sequence of events and not Reported after
it, the slot's 500 ms timer fired in between. -/
theorem reported_until_timer (i : Nat) (mid : List Event) :
    ∀ st : FaultState, SlotInv i st → st.heaterFaults i = some true →
      (exec st mid).heaterFaults i ≠ some true →
      ∃ mid1 k mid2, mid = mid1 ++ Event.timer k :: mid2
        ∧ (exec st mid1).timers[k]? = some { delay := 500, slot := i } := by
  induction mid with
  | nil => intro st _ hf hne; exact absurd hf hne
  | cons e rest ih =>
    intro st hinv hf hne
    rcases reported_step i st e hinv hf with h | ⟨k, hk, ht⟩
    · obtain ⟨mid1, k, mid2, hm, ht⟩ := ih _ (slotInv_step i st e hinv) h hne
      exact ⟨e :: mid1, k, mid2, by rw [hm]; rfl, ht⟩
    · exact ⟨[], k, rest, by rw [hk]; rfl, ht⟩

/-- A Reported slot without a pending timer stays so through every event. -/
theorem settled_exec (i : Nat) (mid : List Event) :
    ∀ st : FaultState, st.heaterFaults i = some true → timersOf i st = [] →
      (exec st mid).heaterFaults i = some true := by
  intro st hf ht
  by_contra hne
  obtain ⟨mid1, k, _, _, hk⟩ := reported_until_timer i mid st (Or.inl ht) hf hne
  have hinv : ∀ (evs : List Event) (s : FaultState), s.heaterFaults i = some true →
      timersOf i s = [] → timersOf i (exec s evs) = [] := by
    intro evs
    induction evs with
    | nil => intro s _ h; exact h
    | cons e rest ih =>
      intro s hsf hst
      have h1 : timersOf i (step s e).1 = [] := by
        rcases slotInv_step i s e (Or.inl hst) with h | ⟨h1, _⟩
        · exact h
        · exfalso
          cases e with
          | poll states answer =>
            simp only [step] at h1
            rcases faultCheckFrom_summary answer i states 0 s with hq | hp
            · have := hq.2.1; unfold faultCheck at h1; rw [this, hst] at h1; simp at h1
            · exact prompted_needs_clear hp hsf
          | timer k =>
            simp only [step] at h1
            rcases fireTimer_slot i k s with ⟨_, t, _⟩ | ⟨_, _, _, _, hl⟩
            · rw [t, hst] at h1; simp at h1
            · rw [hst] at hl; simp at hl
          | click heaterState heaterIndex answer dom =>
            simp only [step] at h1
            cases hr : toggleHeaterStates heaterState heaterIndex answer dom s with
            | none => rw [hr] at h1; simp only at h1; rw [hst] at h1; simp at h1
            | some r =>
              rw [hr] at h1
              simp only at h1
              rw [timersOf_congr i r.1 s (toggleHeaterStates_slot i _ _ _ _ _ r hr).1,
                hst] at h1
              simp at h1
      have h2 : (step s e).1.heaterFaults i = some true := by
        rcases reported_step i s e (Or.inl hst) hsf with h | ⟨k, _, hk⟩
        · exact h
        · have hmem : ({ delay := 500, slot := i } : Timer) ∈ timersOf i s :=
            List.mem_filter.2 ⟨List.getElem?_mem hk, by simp⟩
          rw [hst] at hmem; simp at hmem
      exact ih _ h2 h1
  have hmem : ({ delay := 500, slot := i } : Timer) ∈ timersOf i (exec st mid1) :=
    List.mem_filter.2 ⟨List.getElem?_mem hk, by simp⟩
  rw [hinv mid1 st hf ht] at hmem
  simp at hmem

/-- The loop reaches slot `i` when the states before it are strings, and then
prompts for it if it is Clear and in fault. -/
theorem faultCheckFrom_reach (answer : Nat → Bool) (i : Nat) :
    ∀ (states : List (Option String)) (start : Nat) (st : FaultState) (s : String),
      start ≤ i → states[i - start]? = some (some s) →
      (∀ j, j < i - start → ∃ sj, states[j]? = some (some sj)) →
      jsIncludes s "fault" = true → st.heaterFaults i = some false →
      Prompted (answer i) i st (faultCheckFrom answer start states st).state
        (faultCheckFrom answer start states st).log := by
  intro states
  induction states with
  | nil => intro start st s _ h; simp at h
  | cons x rest ih =>
    intro start st s hle hget hbefore hfault hclear
    by_cases hs : start = i
    · subst hs
      simp only [Nat.sub_self, List.getElem?_cons_zero, Option.some.injEq] at hget
      subst hget
      simp only [faultCheckFrom]
      rcases faultCheckSlot_self answer start s st with ⟨_, hn⟩ | ⟨hp, _⟩
      · exact absurd ⟨hfault, hclear⟩ hn
      · rcases faultCheckFrom_summary answer start rest (start + 1)
            (faultCheckSlot answer start s st).1 with h2 | h2
        · exact prompted_quiet hp h2
        · exact absurd hp.2.1 (fun h => prompted_needs_clear h2 h)
    · have hlt : start < i := by omega
      obtain ⟨sj, hsj⟩ := hbefore 0 (by omega)
      simp only [List.getElem?_cons_zero, Option.some.injEq] at hsj
      subst hsj
      simp only [faultCheckFrom]
      have hq := faultCheckSlot_other answer i start sj st hs
      have hidx : i - start = (i - (start + 1)) + 1 := by omega
      rw [hidx, List.getElem?_cons_succ] at hget
      have h2 := ih (start + 1) (faultCheckSlot answer start sj st).1 s (by omega) hget
        (by
          intro j hj
          have := hbefore (j + 1) (by omega)
          simpa [List.getElem?_cons_succ] using this)
        hfault (hq.1.trans hclear)
      exact quiet_prompted hq h2

/-! ## Command batches -/

theorem concatStrings_cons (part : String) (parts : List String) :
    concatStrings (part :: parts) = part ++ concatStrings parts := rfl

/-- A `forEach` whose callback appends the segment of its index to the
accumulated string yields the segments concatenated in index order. -/
theorem forEachFrom_segments {α : Type} (body : α → Nat → String → Option String)
    (seg : Nat → String) :
    ∀ (xs : List α) (start : Nat) (acc : String),
      (∀ x k g, start ≤ k → k < start + xs.length → body x k g = some (g ++ seg k)) →
      forEachFrom body start xs acc
        = some (acc ++ concatStrings ((List.range' start xs.length).map seg)) := by
  intro xs
  induction xs with
  | nil =>
    intro start acc _
    simp [forEachFrom, concatStrings]
  | cons x rest ih =>
    intro start acc h
    have h0 := h x start acc (Nat.le_refl _) (by simp)
    simp only [forEachFrom, h0, List.length_cons, List.range'_succ, List.map_cons,
      concatStrings_cons]
    rw [ih (start + 1) (acc ++ seg start)
      (fun y k g hk1 hk2 => h y k g (by omega) (by simp only [List.length_cons]; omega))]
    rw [String.append_assoc]

/-- The segments of a batch, listed by `mapIdxFrom` over the zones addressed. -/
theorem map_range_eq_mapIdxFrom (zones : List Zone) (f : Zone → Nat → String)
    (g : Nat → String) :
    ∀ (start : Nat), (∀ k z, zones[k]? = some z → g (start + k) = f z (start + k)) →
      (List.range' start zones.length).map g = mapIdxFrom f start zones := by
  induction zones with
  | nil => intro start _; rfl
  | cons z rest ih =>
    intro start h
    simp only [List.length_cons, List.range'_succ, List.map_cons, mapIdxFrom]
    have h0 := h 0 z (by simp)
    simp only [Nat.add_zero] at h0
    rw [h0, ih (start + 1)]
    intro k z2 hk
    have := h (k + 1) z2 (by simpa using hk)
    rw [show start + 1 + k = start + (k + 1) by omega]
    exact this

theorem paneHeater_key (zone : Zone) :
    paneHeater (".tab-pane-" ++ zone.key) = some (zone, "P" ++ toString zone.index) := by
  cases zone <;> rfl

theorem configureHeaters_batch (mode : Nat) (cfg : List JSVal) (dom : Dom)
    (h : cfg.length ≤ 4) :
    configureHeaters mode cfg dom
      = some [Effect.gcode (concatStrings (mapIdxFrom
          (fun zone k => "M568 P" ++ toString k ++ " S" ++ dom.active zone ++ " R"
            ++ dom.preheat zone ++ " A" ++ toString mode ++ " ")
          0 (([.top, .middle, .bottom, .nozzle] : List Zone).take cfg.length)))] := by
  unfold configureHeaters jsForEach
  dsimp only
  have hlen : (([.top, .middle, .bottom, .nozzle] : List Zone).take cfg.length).length
      = cfg.length := by
    simp only [List.length_take, List.length_cons, List.length_nil]; omega
  rw [forEachFrom_segments _ (fun k =>
      "M568 P" ++ toString k ++ " S"
        ++ dom.active (([.top, .middle, .bottom, .nozzle] : List Zone).getD k .top) ++ " R"
        ++ dom.preheat (([.top, .middle, .bottom, .nozzle] : List Zone).getD k .top)
        ++ " A" ++ toString mode ++ " ") cfg 0 ""]
  · simp only [String.empty_append]
    rw [← hlen, map_range_eq_mapIdxFrom _ _ _ 0]
    · rw [hlen]
    · intro k z hk
      have hk2 : ([.top, .middle, .bottom, .nozzle] : List Zone)[k]? = some z := by
        rw [List.getElem?_take] at hk
        split at hk
        · exact hk
        · cases hk
      simp only [Nat.zero_add, List.getD_eq_getElem?_getD, hk2, Option.getD_some]
  · intro x k g _ hk
    have hk4 : k < 4 := by omega
    interval_cases k <;> rfl

theorem configureBedHeaters_batch (mode : Nat) (cfgBed cfgExtruder : List JSVal) (dom : Dom)
    (h : cfgBed.length ≤ 4) :
    configureBedHeaters mode cfgBed cfgExtruder dom
      = some [Effect.gcode (concatStrings (mapIdxFrom
          (fun zone j => "M568 P" ++ toString (j + cfgExtruder.length) ++ " S"
            ++ dom.active zone ++ " R" ++ dom.preheat zone ++ " A" ++ toString mode ++ " ")
          0 (([.bed0, .bed1, .bed2, .bed3] : List Zone).take cfgBed.length)))] := by
  unfold configureBedHeaters jsForEach
  dsimp only
  have hlen : (([.bed0, .bed1, .bed2, .bed3] : List Zone).take cfgBed.length).length
      = cfgBed.length := by
    simp only [List.length_take, List.length_cons, List.length_nil]; omega
  rw [forEachFrom_segments _ (fun k =>
      "M568 P" ++ toString (k + cfgExtruder.length) ++ " S"
        ++ dom.active (([.bed0, .bed1, .bed2, .bed3] : List Zone).getD k .bed0) ++ " R"
        ++ dom.preheat (([.bed0, .bed1, .bed2, .bed3] : List Zone).getD k .bed0)
        ++ " A" ++ toString mode ++ " ") cfgBed 0 ""]
  · simp only [String.empty_append]
    rw [← hlen, map_range_eq_mapIdxFrom _ _ _ 0]
    · rw [hlen]
    · intro k z hk
      have hk2 : ([.bed0, .bed1, .bed2, .bed3] : List Zone)[k]? = some z := by
        rw [List.getElem?_take] at hk
        split at hk
        · exact hk
        · cases hk
      simp only [Nat.zero_add, List.getD_eq_getElem?_getD, hk2, Option.getD_some]
  · intro x k g _ hk
    have hk4 : k < 4 := by omega
    interval_cases k <;> rfl

theorem configuredExtruderHeatersOf_length (heaters : List JSVal) :
    (configuredExtruderHeatersOf heaters).length ≤ 4 := by
  unfold configuredExtruderHeatersOf defaultNumOfExtruderHeaters
  rw [List.length_take]
  exact Nat.min_le_left _ _

/-! ## The stored documents -/

set_option maxRecDepth 1000000 in
theorem parse_default_profiles (cv : Conv) :
    jsonParse (jsonStringify cv defaultHeatingProfiles) = some defaultHeatingProfiles := by
  rfl

set_option maxRecDepth 1000000 in
theorem parse_default_settings :
    jsonParse (stringifySettings initializeDefaultSettings) = some defaultSettingsDoc := by
  rfl

theorem normalize_default_settings :
    normalizeSettings defaultSettingsDoc
      = some (initializeDefaultSettings.map (fun kv => (kv.1, kv.2.toLoaded))) := by
  rfl

theorem stringify_default_profiles_ne_empty (cv : Conv) :
    jsonStringify cv defaultHeatingProfiles ≠ "" := by
  intro h
  have h2 := parse_default_profiles cv
  rw [h] at h2
  have h3 : jsonParse "" = none := rfl
  rw [h3] at h2
  cases h2

theorem stringify_default_settings_ne_empty :
    stringifySettings initializeDefaultSettings ≠ "" := by
  decide

theorem jsOr_ne_empty (text : String) : jsOr text "\x7b\x7d" ≠ "" := by
  unfold jsOr
  split
  · decide
  · assumption

/-- How `loadSettings` runs on a stored string that is not empty. -/
theorem loadSettings_stored (cv : Conv) (dom : Dom) (storage : Storage) (stored : String)
    (hs : storage "temperatureSettings" = some stored) (hne : stored ≠ "") :
    loadSettings cv dom storage
      = match jsonParse stored with
        | none => none
        | some doc =>
          match normalizeSettings doc with
          | none => none
          | some settings =>
            match setAllValuesInForm cv settings dom with
            | none => none
            | some dom2 => some { settings := settings, dom := dom2, storage := storage } := by
  unfold loadSettings
  have h1 : jsOr ((storage "temperatureSettings").getD "") "\x7b\x7d" = stored := by
    simp [hs, jsOr, hne]
  simp only [h1, hne, if_false]

/-- Writing eight zones of strings into the page sets the three fields of every
zone. -/
theorem setAllValuesInForm_zones (cv : Conv) (dom : Dom) (p a h : Zone → String) :
    setAllValuesInForm cv
        (([.top, .middle, .bottom, .nozzle, .bed0, .bed1, .bed2, .bed3] : List Zone).map
          (fun z => (z.key, ({ popup := .str (p z), active := .str (a z),
                               preheat := .str (h z) } : LoadedZone))))
        dom
      = some { dom with popup := p, active := a, preheat := h } := by
  simp only [List.map, setAllValuesInForm, setValuesInForm, Zone.key, zoneOfKey, jsToString]
  simp only [show ("middle" = "top") = False from by decide,
    show ("bottom" = "top") = False from by decide,
    show ("bottom" = "middle") = False from by decide,
    show ("nozzle" = "top") = False from by decide,
    show ("nozzle" = "middle") = False from by decide,
    show ("nozzle" = "bottom") = False from by decide,
    show ("bed0" = "top") = False from by decide,
    show ("bed0" = "middle") = False from by decide,
    show ("bed0" = "bottom") = False from by decide,
    show ("bed0" = "nozzle") = False from by decide,
    show ("bed1" = "top") = False from by decide,
    show ("bed1" = "middle") = False from by decide,
    show ("bed1" = "bottom") = False from by decide,
    show ("bed1" = "nozzle") = False from by decide,
    show ("bed1" = "bed0") = False from by decide,
    show ("bed2" = "top") = False from by decide,
    show ("bed2" = "middle") = False from by decide,
    show ("bed2" = "bottom") = False from by decide,
    show ("bed2" = "nozzle") = False from by decide,
    show ("bed2" = "bed0") = False from by decide,
    show ("bed2" = "bed1") = False from by decide,
    show ("bed3" = "top") = False from by decide,
    show ("bed3" = "middle") = False from by decide,
    show ("bed3" = "bottom") = False from by decide,
    show ("bed3" = "nozzle") = False from by decide,
    show ("bed3" = "bed0") = False from by decide,
    show ("bed3" = "bed1") = False from by decide,
    show ("bed3" = "bed2") = False from by decide, if_true, if_false]
  have hf : ∀ (f g : Zone → String),
      Function.update (Function.update (Function.update (Function.update (Function.update
        (Function.update (Function.update (Function.update f .top (g .top)) .middle
        (g .middle)) .bottom (g .bottom)) .nozzle (g .nozzle)) .bed0 (g .bed0)) .bed1
        (g .bed1)) .bed2 (g .bed2)) .bed3 (g .bed3) = g := by
    intro f g
    funext z
    cases z <;> simp [Function.update]
  rw [hf, hf, hf]

/-! ## Parsing back what `saveSettings` writes -/

theorem jsonEscapeChar_clean (c : Char) (h : CleanChar c) :
    jsonEscapeChar c = String.singleton c := by
  obtain ⟨h1, h2, h3⟩ := h
  unfold jsonEscapeChar
  have e1 : ¬ c.toNat = 0x08 := by omega
  have e2 : ¬ c.toNat = 0x0C := by omega
  have e3 : ¬ c.toNat = 0x0A := by omega
  have e4 : ¬ c.toNat = 0x0D := by omega
  have e5 : ¬ c.toNat = 0x09 := by omega
  have e6 : ¬ c.toNat < 0x20 := by omega
  simp only [h1, h2, e1, e2, e3, e4, e5, e6, if_false]

theorem concatStrings_data (parts : List String) :
    (concatStrings parts).data = (parts.map String.data).flatten := by
  induction parts with
  | nil => rfl
  | cons p rest ih =>
    rw [concatStrings_cons, String.data_append, ih]
    rfl

theorem quoteJSONString_clean (s : String) (h : ∀ c ∈ s.data, CleanChar c) :
    (quoteJSONString s).data = quotedChars s.data := by
  unfold quoteJSONString quotedChars
  rw [String.data_append, String.data_append, concatStrings_data]
  have : ∀ l : List Char, (∀ c ∈ l, CleanChar c) →
      ((l.map jsonEscapeChar).map String.data).flatten = l := by
    intro l
    induction l with
    | nil => intro _; rfl
    | cons c rest ih =>
      intro hl
      simp only [List.map_cons, List.flatten_cons]
      rw [ih (fun c hc => hl c (List.mem_cons_of_mem _ hc)),
        jsonEscapeChar_clean c (hl c (List.mem_cons_self _ _))]
      rfl
  show dquote.data ++ ((s.toList.map jsonEscapeChar).map String.data).flatten ++ dquote.data = _
  rw [show s.toList = s.data from rfl, this s.data h]
  rfl

theorem parseStringBody_clean (l rest : List Char) (h : ∀ c ∈ l, CleanChar c) :
    parseStringBody (l ++ Char.ofNat 0x22 :: rest) = some (l.map Char.toNat, rest) := by
  induction l with
  | nil =>
    simp only [List.nil_append, List.map_nil]
    unfold parseStringBody
    rfl
  | cons c cs ih =>
    obtain ⟨h1, h2, h3⟩ := h c (List.mem_cons_self _ _)
    have h4 : ¬ c.toNat < 0x20 := by omega
    simp only [List.cons_append, List.map_cons]
    rw [parseStringBody.eq_def]
    simp only [h1, h2, h4, if_false]
    rw [ih (fun c hc => h c (List.mem_cons_of_mem _ hc))]

theorem decodeUnits_toNat (l : List Char) : decodeUnits none (l.map Char.toNat) = l := by
  induction l with
  | nil => rfl
  | cons c cs ih =>
    have hv := c.valid
    have hn : c.toNat < 0xD800 ∨ (0xDFFF < c.toNat ∧ c.toNat < 0x110000) := hv
    simp only [List.map_cons, decodeUnits]
    have g1 : ¬ (0xD800 ≤ c.toNat ∧ c.toNat ≤ 0xDBFF) := by omega
    have g2 : ¬ (0xDC00 ≤ c.toNat ∧ c.toNat ≤ 0xDFFF) := by omega
    simp only [g1, g2, if_false, ih, Char.ofNat_toNat]

theorem unitsToString_toNat (s : String) : unitsToString (s.data.map Char.toNat) = s := by
  unfold unitsToString
  rw [decodeUnits_toNat]

/-- A quoted clean string parses to the string, with any fuel but zero. -/
theorem parseValue_quoted (fuel : Nat) (s : String) (rest : List Char)
    (h : ∀ c ∈ s.data, CleanChar c) :
    parseValue (fuel + 1) (quotedChars s.data ++ rest) = some (JSVal.str s, rest) := by
  unfold quotedChars
  simp only [List.cons_append, List.append_assoc, List.singleton_append]
  rw [parseValue.eq_def]
  simp only [show ¬ (Char.ofNat 0x22).toNat = 0x7B from by decide,
    show ¬ (Char.ofNat 0x22).toNat = 0x5B from by decide,
    show (Char.ofNat 0x22).toNat = 0x22 from by decide, if_false, if_true]
  rw [parseStringBody_clean _ _ h]
  simp [unitsToString_toNat]

theorem skipWs_cons_of_not_ws (c : Char) (rest : List Char) (h : isJsonWs c = false) :
    skipWs (c :: rest) = c :: rest := by
  simp [skipWs, h]

theorem skipWs_quoted (cs rest : List Char) :
    skipWs (quotedChars cs ++ rest) = quotedChars cs ++ rest := by
  unfold quotedChars
  exact skipWs_cons_of_not_ws _ _ (by decide)

/-- One member of an object followed by a comma and the next member. -/
theorem parseMembers_next (pv : List Char → Option (JSVal × List Char)) (n : Nat)
    (key : String) (hkey : ∀ c ∈ key.data, CleanChar c) (vchars more : List Char) (v : JSVal)
    (acc : List (String × JSVal))
    (hns : skipWs (vchars ++ ',' :: Char.ofNat 0x22 :: more)
      = vchars ++ ',' :: Char.ofNat 0x22 :: more)
    (hv : pv (vchars ++ ',' :: Char.ofNat 0x22 :: more)
      = some (v, ',' :: Char.ofNat 0x22 :: more)) :
    parseMembers pv (n + 1)
        (quotedChars key.data ++ ':' :: (vchars ++ ',' :: Char.ofNat 0x22 :: more)) acc
      = parseMembers pv n (Char.ofNat 0x22 :: more) (setProp acc key v) := by
  rw [parseMembers.eq_def]
  simp only [quotedChars, List.cons_append, List.append_assoc, List.singleton_append]
  simp only [show (Char.ofNat 0x22).toNat = 0x22 from by decide, if_true]
  rw [parseStringBody_clean _ _ hkey]
  simp only [unitsToString_toNat, List.nil_append]
  rw [skipWs_cons_of_not_ws ':' _ (by decide)]
  simp only [show (':' : Char).toNat = 0x3A from by decide, if_true]
  rw [hns, hv]
  simp only []
  rw [skipWs_cons_of_not_ws ',' _ (by decide)]
  simp only [show (',' : Char).toNat = 0x2C from by decide, if_true]
  rw [skipWs_cons_of_not_ws (Char.ofNat 0x22) _ (by decide)]

/-- The last member of an object and the closing brace. -/
theorem parseMembers_last (pv : List Char → Option (JSVal × List Char)) (n : Nat)
    (key : String) (hkey : ∀ c ∈ key.data, CleanChar c) (vchars rest : List Char) (v : JSVal)
    (acc : List (String × JSVal))
    (hns : skipWs (vchars ++ Char.ofNat 0x7D :: rest) = vchars ++ Char.ofNat 0x7D :: rest)
    (hv : pv (vchars ++ Char.ofNat 0x7D :: rest) = some (v, Char.ofNat 0x7D :: rest)) :
    parseMembers pv (n + 1) (quotedChars key.data ++ ':' :: (vchars ++ Char.ofNat 0x7D :: rest))
        acc
      = some (JSVal.obj (setProp acc key v), rest) := by
  rw [parseMembers.eq_def]
  simp only [quotedChars, List.cons_append, List.append_assoc, List.singleton_append]
  simp only [show (Char.ofNat 0x22).toNat = 0x22 from by decide, if_true]
  rw [parseStringBody_clean _ _ hkey]
  simp only [unitsToString_toNat, List.nil_append]
  rw [skipWs_cons_of_not_ws ':' _ (by decide)]
  simp only [show (':' : Char).toNat = 0x3A from by decide, if_true]
  rw [hns, hv]
  simp only []
  rw [skipWs_cons_of_not_ws (Char.ofNat 0x7D) _ (by decide)]
  simp

theorem stringifyZone_data (v : ZoneSettings) (h : CleanZone v) :
    (stringifyZone v).data = zoneChars v := by
  unfold stringifyZone zoneChars
  simp only [String.data_append]
  rw [quoteJSONString_clean _ h.1, quoteJSONString_clean _ h.2.1, quoteJSONString_clean _ h.2.2,
    quoteJSONString_clean "popup" (by decide), quoteJSONString_clean "active" (by decide),
    quoteJSONString_clean "preheat" (by decide)]
  simp only [List.append_assoc]
  rfl

theorem parseValue_zone (fuel : Nat) (v : ZoneSettings) (h : CleanZone v) (rest : List Char) :
    parseValue (fuel + 2) (zoneChars v ++ rest) = some (zoneDoc v, rest) := by
  unfold zoneChars
  rw [parseValue.eq_def]
  simp only [List.cons_append, List.append_assoc, List.singleton_append]
  simp only [show (Char.ofNat 0x7B).toNat = 0x7B from by decide, if_true]
  rw [skipWs_quoted]
  have hstep : ∀ k, parseMembers (parseValue (fuel + 1)) (k + 3)
      (quotedChars "popup".data ++ ':' :: (quotedChars v.popup.data ++ ',' ::
        (quotedChars "active".data ++ ':' :: (quotedChars v.active.data ++ ',' ::
        (quotedChars "preheat".data ++ ':' :: (quotedChars v.preheat.data ++
        Char.ofNat 0x7D :: rest)))))) []
      = some (zoneDoc v, rest) := by
    intro k
    have e1 := parseMembers_next (parseValue (fuel + 1)) (k + 2) "popup" (by decide)
      (quotedChars v.popup.data)
      ("active".data ++ Char.ofNat 0x22 :: ':' :: (quotedChars v.active.data ++ ',' ::
        (quotedChars "preheat".data ++ ':' :: (quotedChars v.preheat.data ++
        Char.ofNat 0x7D :: rest)))) (.str v.popup) []
      (skipWs_quoted _ _) (parseValue_quoted _ _ _ h.1)
    have e2 := parseMembers_next (parseValue (fuel + 1)) (k + 1) "active" (by decide)
      (quotedChars v.active.data)
      ("preheat".data ++ Char.ofNat 0x22 :: ':' :: (quotedChars v.preheat.data ++
        Char.ofNat 0x7D :: rest)) (.str v.active) (setProp [] "popup" (.str v.popup))
      (skipWs_quoted _ _) (parseValue_quoted _ _ _ h.2.1)
    have e3 := parseMembers_last (parseValue (fuel + 1)) k "preheat" (by decide)
      (quotedChars v.preheat.data) rest (.str v.preheat)
      (setProp (setProp [] "popup" (.str v.popup)) "active" (.str v.active))
      (skipWs_quoted _ _) (parseValue_quoted _ _ _ h.2.2)
    simp only [quotedChars, List.cons_append, List.append_assoc, List.singleton_append,
      List.nil_append] at e1 e2 e3 ⊢
    rw [e1, e2, e3]
    rfl
  simp only [quotedChars, List.cons_append, List.append_assoc, List.singleton_append,
    List.nil_append] at hstep ⊢
  simp only [show ¬ (Char.ofNat 0x22).toNat = 0x7D from by decide, if_false]
  generalize hlen : List.length _ = N
  obtain ⟨k, rfl⟩ : ∃ k, N = k + 3 := by
    refine ⟨N - 3, ?_⟩
    rw [← hlen]
    simp only [List.length_append, List.length_cons]
    omega
  exact hstep k

theorem intercalate_go_data (sep : String) :
    ∀ (parts : List String) (acc : String),
      (String.intercalate.go acc sep parts).data
        = acc.data ++ (parts.map (fun x => sep.data ++ x.data)).flatten := by
  intro parts
  induction parts with
  | nil => intro acc; simp [String.intercalate.go]
  | cons p rest ih =>
    intro acc
    simp only [String.intercalate.go, ih, String.data_append, List.map_cons,
      List.flatten_cons, List.append_assoc]

theorem stringifySettings_data (kv : String × ZoneSettings)
    (rest : List (String × ZoneSettings)) (h : ∀ e ∈ kv :: rest, CleanEntry e) :
    (stringifySettings (kv :: rest)).data
      = Char.ofNat 0x7B :: (memberChars kv ++ (moreMembersChars rest ++ [Char.ofNat 0x7D])) := by
  have hmember : ∀ e, CleanEntry e →
      (quoteJSONString e.1).data ++ [':'] ++ (stringifyZone e.2).data = memberChars e := by
    intro e he
    rw [quoteJSONString_clean _ he.1, stringifyZone_data _ he.2]
    unfold memberChars
    simp only [List.append_assoc, List.singleton_append]
  have hrest : ∀ l : List (String × ZoneSettings), (∀ e ∈ l, CleanEntry e) →
      ((l.map (fun kv => quoteJSONString kv.1 ++ ":" ++ stringifyZone kv.2)).map
        (fun x => [','] ++ x.data)).flatten = moreMembersChars l := by
    intro l
    induction l with
    | nil => intro _; rfl
    | cons e es ih =>
      intro hl
      unfold moreMembersChars at ih ⊢
      simp only [List.map_cons, List.flatten_cons, String.data_append]
      rw [ih (fun x hx => hl x (List.mem_cons_of_mem _ hx))]
      have := hmember e (hl e (List.mem_cons_self _ _))
      simp only [List.append_assoc, List.singleton_append] at this ⊢
      rw [← this]
  unfold stringifySettings
  simp only [List.map_cons, String.intercalate, String.data_append, intercalate_go_data]
  rw [hrest rest (fun x hx => h x (List.mem_cons_of_mem _ hx)),
    hmember kv (h kv (List.mem_cons_self _ _))]
  simp only [List.append_assoc, List.singleton_append, List.cons_append]
  rfl

theorem moreMembersChars_cons (e : String × ZoneSettings) (es : List (String × ZoneSettings)) :
    moreMembersChars (e :: es) = ',' :: (memberChars e ++ moreMembersChars es) := by
  simp [moreMembersChars]

theorem skipWs_zoneChars (v : ZoneSettings) (rest : List Char) :
    skipWs (zoneChars v ++ rest) = zoneChars v ++ rest := by
  unfold zoneChars
  exact skipWs_cons_of_not_ws _ _ (by decide)

/-- The members of a settings document parse to its entries. -/
theorem parseMembers_settings (fuel : Nat) :
    ∀ (rest : List (String × ZoneSettings)) (kv : String × ZoneSettings)
      (acc : List (String × JSVal)) (tail : List Char) (k : Nat),
      (∀ e ∈ kv :: rest, CleanEntry e) →
      parseMembers (parseValue (fuel + 2)) (k + rest.length + 1)
          (memberChars kv ++ (moreMembersChars rest ++ Char.ofNat 0x7D :: tail)) acc
        = some (JSVal.obj ((kv :: rest).foldl (fun a e => setProp a e.1 (zoneDoc e.2)) acc),
            tail) := by
  intro rest
  induction rest with
  | nil =>
    intro kv acc tail k h
    have hk := h kv (List.mem_cons_self _ _)
    unfold memberChars moreMembersChars
    simp only [List.map_nil, List.flatten_nil, List.nil_append, List.append_assoc,
      List.cons_append, List.length_nil, Nat.add_zero, List.foldl_cons, List.foldl_nil]
    exact parseMembers_last _ k kv.1 hk.1 (zoneChars kv.2) tail (zoneDoc kv.2) acc
      (skipWs_zoneChars _ _) (parseValue_zone fuel kv.2 hk.2 _)
  | cons e es ih =>
    intro kv acc tail k h
    have hk := h kv (List.mem_cons_self _ _)
    have ih2 := ih e (setProp acc kv.1 (zoneDoc kv.2)) tail k
      (fun x hx => h x (List.mem_cons_of_mem _ hx))
    have hstep := parseMembers_next (parseValue (fuel + 2)) (k + es.length + 1) kv.1 hk.1
      (zoneChars kv.2)
      (e.1.data ++ Char.ofNat 0x22 :: ':' :: (zoneChars e.2
        ++ (moreMembersChars es ++ Char.ofNat 0x7D :: tail)))
      (zoneDoc kv.2) acc (skipWs_zoneChars _ _) (parseValue_zone fuel kv.2 hk.2 _)
    have hform : memberChars kv ++ (moreMembersChars (e :: es) ++ Char.ofNat 0x7D :: tail)
        = quotedChars kv.1.data ++ ':' :: (zoneChars kv.2 ++ ',' :: Char.ofNat 0x22 ::
            (e.1.data ++ Char.ofNat 0x22 :: ':' :: (zoneChars e.2
              ++ (moreMembersChars es ++ Char.ofNat 0x7D :: tail)))) := by
      rw [moreMembersChars_cons]
      unfold memberChars quotedChars
      simp only [List.append_assoc, List.cons_append, List.nil_append, List.singleton_append]
    have hform2 : memberChars e ++ (moreMembersChars es ++ Char.ofNat 0x7D :: tail)
        = Char.ofNat 0x22 :: (e.1.data ++ Char.ofNat 0x22 :: ':' :: (zoneChars e.2
              ++ (moreMembersChars es ++ Char.ofNat 0x7D :: tail))) := by
      unfold memberChars quotedChars
      simp only [List.append_assoc, List.cons_append, List.nil_append, List.singleton_append]
    rw [hform, show k + (e :: es).length + 1 = (k + es.length + 1) + 1 from by simp; omega,
      hstep, ← hform2, ih2]
    rfl

theorem moreMembersChars_length (rest : List (String × ZoneSettings)) :
    rest.length ≤ (moreMembersChars rest).length := by
  induction rest with
  | nil => simp
  | cons e es ih =>
    rw [moreMembersChars_cons]
    simp only [List.length_cons, List.length_append]
    omega

/-- The settings document written by `JSON.stringify` parses back to its
entries, when keys and fields are clean. -/
theorem jsonParse_settings (kv : String × ZoneSettings) (rest : List (String × ZoneSettings))
    (h : ∀ e ∈ kv :: rest, CleanEntry e) :
    jsonParse (stringifySettings (kv :: rest))
      = some (JSVal.obj ((kv :: rest).foldl (fun a e => setProp a e.1 (zoneDoc e.2)) [])) := by
  unfold jsonParse
  have hdata := stringifySettings_data kv rest h
  have hlen : (stringifySettings (kv :: rest)).length
      = (stringifySettings (kv :: rest)).data.length := rfl
  rw [show (stringifySettings (kv :: rest)).toList = (stringifySettings (kv :: rest)).data
    from rfl, hlen, hdata]
  rw [skipWs_cons_of_not_ws (Char.ofNat 0x7B) _ (by decide)]
  obtain ⟨f, hf⟩ : ∃ f, (Char.ofNat 0x7B :: (memberChars kv
      ++ (moreMembersChars rest ++ [Char.ofNat 0x7D]))).length + 1 = f + 3 := by
    refine ⟨(Char.ofNat 0x7B :: (memberChars kv
      ++ (moreMembersChars rest ++ [Char.ofNat 0x7D]))).length - 2, ?_⟩
    simp only [List.length_cons, List.length_append, List.length_nil]
    omega
  rw [hf, parseValue.eq_def]
  simp only [show (Char.ofNat 0x7B).toNat = 0x7B from by decide, if_true]
  have hskip : skipWs (memberChars kv ++ (moreMembersChars rest ++ [Char.ofNat 0x7D]))
      = Char.ofNat 0x22 :: (kv.1.data ++ Char.ofNat 0x22 :: ':' :: (zoneChars kv.2
          ++ (moreMembersChars rest ++ [Char.ofNat 0x7D]))) := by
    unfold memberChars
    rw [List.append_assoc, skipWs_quoted]
    unfold quotedChars
    simp only [List.append_assoc, List.cons_append, List.nil_append, List.singleton_append]
  rw [hskip]
  simp only [show ¬ (Char.ofNat 0x22).toNat = 0x7D from by decide, if_false]
  have hform : Char.ofNat 0x22 :: (kv.1.data ++ Char.ofNat 0x22 :: ':' :: (zoneChars kv.2
          ++ (moreMembersChars rest ++ [Char.ofNat 0x7D])))
      = memberChars kv ++ (moreMembersChars rest ++ Char.ofNat 0x7D :: []) := by
    unfold memberChars quotedChars
    simp only [List.append_assoc, List.cons_append, List.nil_append, List.singleton_append]
  rw [hform]
  obtain ⟨k, hk⟩ : ∃ k, (memberChars kv ++ (moreMembersChars rest ++ [Char.ofNat 0x7D])).length
      = k + rest.length + 1 := by
    refine ⟨(memberChars kv ++ (moreMembersChars rest ++ [Char.ofNat 0x7D])).length
      - rest.length - 1, ?_⟩
    have := moreMembersChars_length rest
    simp only [List.length_append, List.length_cons, List.length_nil]
    omega
  rw [hk, parseMembers_settings f rest kv [] [] k h]
  rfl

theorem digitChar_isDigit (k : Nat) (h : k < 10) : isDigitChar (Nat.digitChar k) = true := by
  interval_cases k <;> rfl

theorem toDigitsCore_digits (fuel : Nat) :
    ∀ (n : Nat) (ds : List Char), (∀ c ∈ ds, isDigitChar c = true) →
      ∀ c ∈ Nat.toDigitsCore 10 fuel n ds, isDigitChar c = true := by
  induction fuel with
  | zero => intro n ds h c hc; exact h c hc
  | succ fuel ih =>
    intro n ds h c hc
    simp only [Nat.toDigitsCore] at hc
    have hd : ∀ c ∈ Nat.digitChar (n % 10) :: ds, isDigitChar c = true := by
      intro c hc
      rcases List.mem_cons.1 hc with rfl | hc
      · exact digitChar_isDigit _ (Nat.mod_lt _ (by decide))
      · exact h c hc
    split at hc
    · exact hd c hc
    · exact ih _ _ hd c hc

theorem toDigitsCore_ne_nil (fuel : Nat) :
    ∀ (n : Nat) (ds : List Char), ds ≠ [] → Nat.toDigitsCore 10 fuel n ds ≠ [] := by
  induction fuel with
  | zero => intro n ds h; exact h
  | succ fuel ih =>
    intro n ds h
    simp only [Nat.toDigitsCore]
    split
    · simp
    · exact ih _ _ (by simp)

theorem toString_nat_digits (n : Nat) : ∀ c ∈ (toString n).data, isDigitChar c = true := by
  show ∀ c ∈ Nat.toDigits 10 n, isDigitChar c = true
  exact toDigitsCore_digits _ _ _ (by simp)

theorem toString_nat_ne_empty (n : Nat) : toString n ≠ "" := by
  intro h
  have h2 : Nat.toDigits 10 n = [] := congrArg String.data h
  unfold Nat.toDigits at h2
  simp only [Nat.toDigitsCore] at h2
  split at h2
  · simp at h2
  · exact toDigitsCore_ne_nil _ _ _ (by simp) h2

theorem cleanChar_of_isDigit (c : Char) (h : isDigitChar c = true) : CleanChar c := by
  unfold isDigitChar at h
  simp only [Bool.and_eq_true, decide_eq_true_eq] at h
  unfold CleanChar
  omega

theorem isTemperature_clean (text : String) (h : IsTemperature text) :
    (∀ c ∈ text.data, CleanChar c) ∧ text ≠ "" := by
  obtain ⟨n, _, rfl⟩ := h
  exact ⟨fun c hc => cleanChar_of_isDigit c (toString_nat_digits n c hc),
    toString_nat_ne_empty n⟩

theorem jsOr_of_ne_empty (text fallback : String) (h : text ≠ "") :
    jsOr text fallback = text := by
  simp [jsOr, h]

theorem jsOrVal_str (text : String) (h : text ≠ "") :
    jsOrVal (.str text) (.str "0") = .str text := by
  simp [jsOrVal, JSVal.toBoolean, h]

theorem normalizeEntry_zoneDoc (acc : List (String × LoadedZone)) (key : String)
    (v : ZoneSettings) (hp : v.popup ≠ "") (ha : v.active ≠ "") (hh : v.preheat ≠ "") :
    normalizeEntry acc (key, zoneDoc v) = some (setZone acc key v.toLoaded) := by
  have g1 : getProp (zoneDoc v) "popup" = some (.str v.popup) := rfl
  have g2 : getProp (zoneDoc v) "active" = some (.str v.active) := rfl
  have g3 : getProp (zoneDoc v) "preheat" = some (.str v.preheat) := rfl
  simp only [normalizeEntry, g1, g2, g3, jsOrVal_str _ hp, jsOrVal_str _ ha, jsOrVal_str _ hh]
  rfl

theorem zone_key_clean (z : Zone) : ∀ c ∈ z.key.data, CleanChar c := by
  cases z <;> decide

/-- The settings document that `saveSettings` writes parses and normalises to
the fields of the page, when no field is empty and all are clean. -/
theorem roundtrip_collect (dom : Dom)
    (hp : ∀ z, (∀ c ∈ (dom.popup z).data, CleanChar c) ∧ dom.popup z ≠ "")
    (ha : ∀ z, (∀ c ∈ (dom.active z).data, CleanChar c) ∧ dom.active z ≠ "")
    (hh : ∀ z, (∀ c ∈ (dom.preheat z).data, CleanChar c) ∧ dom.preheat z ≠ "") :
    ∃ doc, jsonParse (stringifySettings (collectSettings dom)) = some doc
      ∧ normalizeSettings doc = some (zonesRecord dom.popup dom.active dom.preheat) := by
  have hcollect : collectSettings dom
      = ([.top, .middle, .bottom, .nozzle, .bed0, .bed1, .bed2, .bed3] : List Zone).map
          (fun z => (z.key, ((ZoneSettings.mk (dom.popup z) (dom.active z) (dom.preheat z)) : ZoneSettings))) := by
    unfold collectSettings
    simp only [jsOr_of_ne_empty _ _ (hp _).2, jsOr_of_ne_empty _ _ (ha _).2,
      jsOr_of_ne_empty _ _ (hh _).2]
  rw [hcollect]
  simp only [List.map_cons, List.map_nil]
  refine ⟨_, jsonParse_settings _ _ ?_, ?_⟩
  · intro e he
    simp only [List.mem_cons, List.mem_singleton, List.mem_nil_iff, or_false] at he
    rcases he with rfl | rfl | rfl | rfl | rfl | rfl | rfl | rfl <;>
      exact ⟨zone_key_clean _, (hp _).1, (ha _).1, (hh _).1⟩
  · have e1 : ∀ (z : Zone) (acc : List (String × LoadedZone)),
        normalizeEntry acc (z.key, zoneDoc (ZoneSettings.mk (dom.popup z) (dom.active z) (dom.preheat z)))
        = some (setZone acc z.key (LoadedZone.mk (.str (dom.popup z)) (.str (dom.active z)) (.str (dom.preheat z)))) := by
      intro z acc
      exact normalizeEntry_zoneDoc acc z.key _ (hp z).2 (ha z).2 (hh z).2
    simp only [List.foldl_cons, List.foldl_nil]
    have hfold : (setProp (setProp (setProp (setProp (setProp (setProp (setProp (setProp []
        Zone.top.key (zoneDoc (ZoneSettings.mk (dom.popup .top) (dom.active .top) (dom.preheat .top))))
        Zone.middle.key (zoneDoc (ZoneSettings.mk (dom.popup .middle) (dom.active .middle) (dom.preheat .middle))))
        Zone.bottom.key (zoneDoc (ZoneSettings.mk (dom.popup .bottom) (dom.active .bottom) (dom.preheat .bottom))))
        Zone.nozzle.key (zoneDoc (ZoneSettings.mk (dom.popup .nozzle) (dom.active .nozzle) (dom.preheat .nozzle))))
        Zone.bed0.key (zoneDoc (ZoneSettings.mk (dom.popup .bed0) (dom.active .bed0) (dom.preheat .bed0))))
        Zone.bed1.key (zoneDoc (ZoneSettings.mk (dom.popup .bed1) (dom.active .bed1) (dom.preheat .bed1))))
        Zone.bed2.key (zoneDoc (ZoneSettings.mk (dom.popup .bed2) (dom.active .bed2) (dom.preheat .bed2))))
        Zone.bed3.key (zoneDoc (ZoneSettings.mk (dom.popup .bed3) (dom.active .bed3) (dom.preheat .bed3))))
      = ([.top, .middle, .bottom, .nozzle, .bed0, .bed1, .bed2, .bed3] : List Zone).map
          (fun z => (z.key, zoneDoc (ZoneSettings.mk (dom.popup z) (dom.active z) (dom.preheat z)))) := rfl
    rw [hfold]
    simp only [normalizeSettings, objectEntries, List.map_cons, List.map_nil, reduceEntries, e1]
    rfl

/-! ## The defaulting rule of `loadSettings` -/

theorem defaultsToZero_jsOrVal (stored : Option JSVal) :
    DefaultsToZero stored (jsOrVal (stored.getD JSVal.undefined) (JSVal.str "0")) := by
  refine ⟨?_, ?_, ?_⟩
  · intro v hv ht
    subst hv
    simp [jsOrVal, ht]
  · intro v hv ht
    subst hv
    simp [jsOrVal, ht]
  · intro hv
    subst hv
    simp [jsOrVal, JSVal.toBoolean]

theorem jsOrVal_ne_undefined (v : JSVal) : jsOrVal v (JSVal.str "0") ≠ JSVal.undefined := by
  unfold jsOrVal
  split
  · rename_i h
    intro h2
    rw [h2] at h
    simp [JSVal.toBoolean] at h
  · intro h2
    cases h2

theorem normalizeEntry_obj (acc : List (String × LoadedZone)) (key : String)
    (fs : List (String × JSVal)) :
    ∃ zone, normalizeEntry acc (key, JSVal.obj fs) = some (setZone acc key zone)
      ∧ ZoneDefaultsToZero fs zone := by
  refine ⟨{ popup := jsOrVal ((fs.lookup "popup").getD JSVal.undefined) (JSVal.str "0"),
            active := jsOrVal ((fs.lookup "active").getD JSVal.undefined) (JSVal.str "0"),
            preheat := jsOrVal ((fs.lookup "preheat").getD JSVal.undefined) (JSVal.str "0") },
          rfl, ?_⟩
  exact ⟨defaultsToZero_jsOrVal _, defaultsToZero_jsOrVal _, defaultsToZero_jsOrVal _,
    jsOrVal_ne_undefined _, jsOrVal_ne_undefined _, jsOrVal_ne_undefined _⟩

theorem mem_setZone (acc : List (String × LoadedZone)) (category : String) (zone : LoadedZone)
    (k : String) (z : LoadedZone) (h : (k, z) ∈ setZone acc category zone) :
    (k, z) ∈ acc ∨ (k = category ∧ z = zone) := by
  induction acc with
  | nil =>
    unfold setZone at h
    split at h
    · exact Or.inl h
    · simp only [List.mem_singleton, Prod.mk.injEq] at h
      exact Or.inr h
  | cons kv rest ih =>
    obtain ⟨k0, z0⟩ := kv
    unfold setZone at h
    split at h
    · exact Or.inl h
    · simp only at h
      split at h
      · rename_i hk
        rcases List.mem_cons.1 h with h1 | h1
        · simp only [Prod.mk.injEq] at h1
          exact Or.inr ⟨h1.1.trans hk, h1.2⟩
        · exact Or.inl (List.mem_cons_of_mem _ h1)
      · rcases List.mem_cons.1 h with h1 | h1
        · exact Or.inl (h1 ▸ List.mem_cons_self _ _)
        · rcases ih h1 with h2 | h2
          · exact Or.inl (List.mem_cons_of_mem _ h2)
          · exact Or.inr h2

theorem setZone_has_key (acc : List (String × LoadedZone)) (category : String)
    (zone : LoadedZone) (hc : category ≠ "__proto__") :
    ∃ z, (category, z) ∈ setZone acc category zone := by
  induction acc with
  | nil =>
    unfold setZone
    simp [hc]
  | cons kv rest ih =>
    obtain ⟨k0, z0⟩ := kv
    unfold setZone
    simp only [hc, if_false]
    split
    · rename_i hk
      exact ⟨zone, by simp [hk]⟩
    · obtain ⟨z, hz⟩ := ih
      exact ⟨z, List.mem_cons_of_mem _ hz⟩

theorem setZone_keeps_key (acc : List (String × LoadedZone)) (category : String)
    (zone : LoadedZone) (k : String) (z : LoadedZone) (h : (k, z) ∈ acc) :
    ∃ z2, (k, z2) ∈ setZone acc category zone := by
  induction acc with
  | nil => cases h
  | cons kv rest ih =>
    obtain ⟨k0, z0⟩ := kv
    unfold setZone
    split
    · exact ⟨z, h⟩
    · simp only
      split
      · rename_i hk
        rcases List.mem_cons.1 h with h1 | h1
        · simp only [Prod.mk.injEq] at h1
          exact ⟨zone, by simp [h1.1]⟩
        · exact ⟨z, List.mem_cons_of_mem _ h1⟩
      · rcases List.mem_cons.1 h with h1 | h1
        · exact ⟨z, by rw [h1]; exact List.mem_cons_self _ _⟩
        · obtain ⟨z2, hz2⟩ := ih h1
          exact ⟨z2, List.mem_cons_of_mem _ hz2⟩

/-- The `reduce` of `loadSettings` over entries whose values are objects: it
raises nothing, every entry of its record comes from the accumulator or from a
stored zone object whose three fields it normalises, and every key is kept. -/
theorem reduceEntries_objects (entries : List (String × JSVal)) :
    ∀ (acc : List (String × LoadedZone)),
      (∀ kv ∈ entries, ∃ fs, kv.2 = JSVal.obj fs) →
      ∃ settings, reduceEntries entries acc = some settings
        ∧ (∀ key zone, (key, zone) ∈ settings →
            (key, zone) ∈ acc
            ∨ ∃ fs, (key, JSVal.obj fs) ∈ entries ∧ ZoneDefaultsToZero fs zone)
        ∧ (∀ kv ∈ entries, kv.1 ≠ "__proto__" → ∃ zone, (kv.1, zone) ∈ settings)
        ∧ (∀ key zone, (key, zone) ∈ acc → ∃ zone2, (key, zone2) ∈ settings) := by
  induction entries with
  | nil =>
    intro acc _
    refine ⟨acc, rfl, fun key zone h => Or.inl h, ?_, fun key zone h => ⟨zone, h⟩⟩
    intro kv h
    cases h
  | cons entry rest ih =>
    intro acc hobj
    obtain ⟨key, value⟩ := entry
    obtain ⟨fs, hfs⟩ := hobj (key, value) (List.mem_cons_self _ _)
    simp only at hfs
    subst hfs
    obtain ⟨zone0, hn, hz0⟩ := normalizeEntry_obj acc key fs
    obtain ⟨settings, hred, h1, h2, h3⟩ :=
      ih (setZone acc key zone0) (fun kv hkv => hobj kv (List.mem_cons_of_mem _ hkv))
    refine ⟨settings, ?_, ?_, ?_, ?_⟩
    · simp only [reduceEntries, hn]
      exact hred
    · intro k z hkz
      rcases h1 k z hkz with h | ⟨fs2, hm, hz⟩
      · rcases mem_setZone acc key zone0 k z h with h | ⟨hk, hz⟩
        · exact Or.inl h
        · subst hk
          subst hz
          exact Or.inr ⟨fs, List.mem_cons_self _ _, hz0⟩
      · exact Or.inr ⟨fs2, List.mem_cons_of_mem _ hm, hz⟩
    · intro kv hkv hne
      rcases List.mem_cons.1 hkv with h | h
      · subst h
        obtain ⟨z, hz⟩ := setZone_has_key acc key zone0 hne
        exact h3 key z hz
      · exact h2 kv h hne
    · intro k z hkz
      obtain ⟨z2, hz2⟩ := setZone_keeps_key acc key zone0 k z hkz
      exact h3 k z2 hz2

theorem setAllValuesInForm_some (cv : Conv) (settings : List (String × LoadedZone)) :
    ∀ (dom : Dom), (∀ kz ∈ settings, zoneOfKey kz.1 ≠ none) →
      ∃ dom2, setAllValuesInForm cv settings dom = some dom2 := by
  induction settings with
  | nil => intro dom _; exact ⟨dom, rfl⟩
  | cons kz rest ih =>
    intro dom h
    obtain ⟨k, z⟩ := kz
    have hk := h (k, z) (List.mem_cons_self _ _)
    simp only at hk
    obtain ⟨zn, hzn⟩ := Option.ne_none_iff_exists'.1 hk
    simp only [setAllValuesInForm, setValuesInForm, hzn]
    exact ih _ (fun kz hkz => h kz (List.mem_cons_of_mem _ hkz))

set_option maxRecDepth 1000000 in
theorem parse_sample_stored :
    jsonParse sampleStoredSettings = some (JSVal.obj sampleStoredFields) := by
  rfl

/-! ## Rendered texts and extracted values -/

theorem mapIdxFrom_getElem? {α β : Type} (f : α → Nat → β) (xs : List α) :
    ∀ (start i : Nat), (mapIdxFrom f start xs)[i]? = xs[i]?.map (fun x => f x (start + i)) := by
  induction xs with
  | nil => intro start i; simp [mapIdxFrom]
  | cons x rest ih =>
    intro start i
    cases i with
    | zero => simp [mapIdxFrom]
    | succ i =>
      simp only [mapIdxFrom, List.getElem?_cons_succ, ih]
      congr 1
      funext y
      congr 1
      omega

theorem isWordChar_of_isLower (c : Char) (h : c.isLower = true) : isWordChar c = true := by
  simp [isWordChar, Char.isAlphanum, Char.isAlpha, h]

theorem capitalizeFirst_lower (c : Char) (rest : List Char) (h : c.isLower = true) :
    capitalizeFirst (String.mk (c :: rest)) = String.mk (c.toUpper :: rest) := by
  simp [capitalizeFirst, isWordChar_of_isLower c h]

theorem extractProperty_map (targetObject : List JSVal) (targetProperty : String)
    (h : ∀ entry ∈ targetObject, entry ≠ JSVal.null ∧ entry ≠ JSVal.undefined) :
    extractProperty targetObject targetProperty
      = some (targetObject.map (fun entry => (getProp entry targetProperty).getD JSVal.undefined)) := by
  induction targetObject with
  | nil => rfl
  | cons entry rest ih =>
    have h1 := h entry (List.mem_cons_self _ _)
    have h2 := ih (fun e he => h e (List.mem_cons_of_mem _ he))
    obtain ⟨v, hv⟩ : ∃ v, getProp entry targetProperty = some v := by
      cases entry with
      | undefined => exact absurd rfl h1.2
      | null => exact absurd rfl h1.1
      | bool b => exact ⟨_, rfl⟩
      | num x => exact ⟨_, rfl⟩
      | str s => exact ⟨_, rfl⟩
      | arr items => exact ⟨_, rfl⟩
      | obj fields => exact ⟨_, rfl⟩
    simp only [extractProperty, hv, h2, List.map_cons, Option.getD_some]

theorem toUpper_of_isLower (c : Char) (h : c.isLower = true) :
    c.toUpper = Char.ofNat (c.toNat - 32) := by
  simp only [Char.isLower, Bool.and_eq_true, decide_eq_true_eq] at h
  have h1 : 97 ≤ c.toNat := h.1
  have h2 : c.toNat ≤ 122 := h.2
  simp [Char.toUpper, h1, h2]

theorem toggleHeaterStates_other (heaterState : String) (heaterIndex : Nat) (answer : Bool)
    (dom : Dom) (st : FaultState)
    (h : heaterState ∉ ["Off", "Preheat", "Active", "Fault"]) :
    toggleHeaterStates heaterState heaterIndex answer dom st = some (st, []) := by
  simp only [List.mem_cons, List.mem_singleton, List.mem_nil_iff, or_false, not_or] at h
  simp [toggleHeaterStates, h.1, h.2.1, h.2.2.1, h.2.2.2]

/-! ## The keypad on digit texts -/

theorem stringUnits_digits (s : String) (h : ∀ c ∈ s.data, isDigitChar c = true) :
    stringUnits s = s.data.map Char.toNat := by
  unfold stringUnits
  obtain ⟨l⟩ := s
  simp only at h ⊢
  induction l with
  | nil => rfl
  | cons c cs ih =>
    have hc := h c (List.mem_cons_self _ _)
    simp only [isDigitChar, Bool.and_eq_true, decide_eq_true_eq] at hc
    have hlt : c.toNat < 0x10000 := by omega
    simp only [List.map_cons, List.flatten_cons, charUnits, hlt, if_true,
      ih (fun c hc => h c (List.mem_cons_of_mem _ hc))]
    rfl

theorem jsLength_digits (s : String) (h : ∀ c ∈ s.data, isDigitChar c = true) :
    jsLength s = s.data.length := by
  rw [jsLength, stringUnits_digits s h, List.length_map]

theorem sliceLast_digits (s : String) (h : ∀ c ∈ s.data, isDigitChar c = true) :
    sliceLast s = String.mk s.data.dropLast := by
  rw [sliceLast, stringUnits_digits s h, ← List.map_dropLast, unitsToString, decodeUnits_toNat]

theorem spanDigits_all (ds : List Char) (h : ∀ c ∈ ds, isDigitChar c = true) :
    spanDigits ds = (ds, []) := by
  induction ds with
  | nil => rfl
  | cons c cs ih =>
    have hc := h c (List.mem_cons_self _ _)
    simp only [spanDigits, hc, if_true, ih (fun c hc => h c (List.mem_cons_of_mem _ hc))]

/-- On a text of decimal digits, `parseFloat` gives the number they denote. -/
theorem parseFloat_digits (ds : List Char) (h : ∀ c ∈ ds, isDigitChar c = true)
    (hne : ds ≠ []) : parseFloat ds = JSNum.fin ((digitsValue 0 ds : Nat) : Rat) := by
  cases ds with
  | nil => exact absurd rfl hne
  | cons c rest =>
    have hc := h c (List.mem_cons_self _ _)
    have hc2 := hc
    simp only [isDigitChar, Bool.and_eq_true, decide_eq_true_eq] at hc2
    have hws : isStrWhiteSpace c = false := by
      simp only [isStrWhiteSpace, List.mem_cons, List.mem_singleton, List.mem_nil_iff,
        Bool.or_eq_false_iff, decide_eq_false_iff_not, Bool.and_eq_false_iff, or_false]
      omega
    have h2D : ¬ c.toNat = 0x2D := by omega
    have h2B : ¬ c.toNat = 0x2B := by omega
    have hI : "Infinity".data.isPrefixOf (c :: rest) = false := by
      have hci : ('I' == c) = false := by
        rw [beq_eq_false_iff_ne]
        intro heq
        rw [← heq] at hc2
        revert hc2
        decide
      show List.isPrefixOf ('I' :: _) (c :: rest) = false
      simp only [List.isPrefixOf, hci, Bool.false_and]
    have hdrop : List.dropWhile isStrWhiteSpace (c :: rest) = c :: rest := by
      simp only [List.dropWhile, hws]
    unfold parseFloat
    simp only [hdrop, h2D, h2B, decide_False, Bool.or_self, Bool.false_eq_true, if_false, hI,
      spanDigits_all (c :: rest) h]
    simp [spanJsonExponent, numberValue]

theorem numberText_nat (cv : Conv) (m : Nat) (h : m < 10 ^ 21) :
    numberText cv ((m : Nat) : Rat) = toString m := by
  have h2 : m < 1000000000000000000000 := by
    norm_num at h
    exact h
  have h3 : ¬ ((m : Int) < 0) := by omega
  simp [numberText, h2, h3]

theorem text_clamp_nat (cv : Conv) (k : Nat) :
    ((JSNum.fin ((k : Nat) : Rat)).orZero.min400).text cv = toString (min k 400) := by
  have h1 : (JSNum.fin ((k : Nat) : Rat)).orZero = JSNum.fin ((k : Nat) : Rat) := by
    simp only [JSNum.orZero]
    split
    · rename_i h0
      rw [h0]
    · rfl
  have h2 : min ((k : Nat) : Rat) 400 = ((min k 400 : Nat) : Rat) := by
    rw [Nat.cast_min]
    rfl
  have h3 : min k 400 < 10 ^ 21 := lt_of_le_of_lt (min_le_right _ _) (by norm_num)
  rw [h1]
  simp only [JSNum.min400, JSNum.text]
  rw [h2]
  exact numberText_nat cv _ h3

theorem clampEntry_digits (cv : Conv) (s : String) (h : ∀ c ∈ s.data, isDigitChar c = true)
    (hne : s.data ≠ []) : ∃ v : Nat, v ≤ 400 ∧ clampEntry cv (.text s) = toString v := by
  unfold clampEntry
  simp only [jsLength_digits s h]
  by_cases h4 : s.data.length = 4
  · simp only [h4, if_true, sliceLast_digits s h]
    have hd : ∀ c ∈ s.data.dropLast, isDigitChar c = true :=
      fun c hc => h c (List.mem_of_mem_dropLast hc)
    have hn : s.data.dropLast ≠ [] := by
      intro h0
      have := congrArg List.length h0
      simp only [List.length_dropLast, h4, List.length_nil] at this
      omega
    rw [parseFloat_digits _ hd hn, text_clamp_nat]
    exact ⟨_, min_le_right _ _, rfl⟩
  · simp only [h4, if_false]
    rw [parseFloat_digits _ h hne, text_clamp_nat]
    exact ⟨_, min_le_right _ _, rfl⟩

theorem clampEntry_number (cv : Conv) (n : Nat) :
    ∃ v : Nat, v ≤ 400 ∧ clampEntry cv (.number n) = toString v := by
  unfold clampEntry
  simp only
  rw [parseFloat_digits _ (toString_nat_digits n)
    (fun h0 => toString_nat_ne_empty n (String.ext h0)), text_clamp_nat]
  exact ⟨_, min_le_right _ _, rfl⟩

theorem lastSegment_pane (tabpane : String) (zone : Zone) (heater : String)
    (h : paneHeater tabpane = some (zone, heater)) : lastSegment tabpane = some zone.key := by
  unfold paneHeater at h
  split at h
  · rename_i ht; subst ht; cases h; rfl
  split at h
  · rename_i ht; subst ht; cases h; rfl
  split at h
  · rename_i ht; subst ht; cases h; rfl
  split at h
  · rename_i ht; subst ht; cases h; rfl
  split at h
  · rename_i ht; subst ht; cases h; rfl
  split at h
  · rename_i ht; subst ht; cases h; rfl
  split at h
  · rename_i ht; subst ht; cases h; rfl
  split at h
  · rename_i ht; subst ht; cases h; rfl
  · cases h

theorem append_digits (s t : String) (hs : ∀ c ∈ s.data, isDigitChar c = true)
    (ht : ∀ c ∈ t.data, isDigitChar c = true) (hne : t.data ≠ []) :
    (∀ c ∈ (s ++ t).data, isDigitChar c = true) ∧ (s ++ t).data ≠ [] := by
  rw [String.data_append]
  constructor
  · intro c hc
    rcases List.mem_append.1 hc with h | h
    · exact hs c h
    · exact ht c h
  · intro h
    exact hne (List.append_eq_nil.1 h).2

/-- One key press on a pane whose entry shows a temperature: the press raises
nothing and leaves the decimal numeral of a number between 0 and 400. -/
theorem numPadClick_step (cv : Conv) (tabpane heater : String) (zone : Zone)
    (settings : List (String × LoadedZone)) (stored : LoadedZone) (dom : Dom)
    (buttonIndex : Nat)
    (hpane : paneHeater tabpane = some (zone, heater))
    (hentry : IsTemperature (dom.popup zone))
    (hstored : settings.lookup zone.key = some stored) :
    ∃ v : Nat, v ≤ 400 ∧ numPadClick cv tabpane buttonIndex settings dom
      = some { dom with popup := Function.update dom.popup zone (toString v) } := by
  obtain ⟨n, _, hn⟩ := hentry
  have hd : ∀ c ∈ (dom.popup zone).data, isDigitChar c = true := by
    rw [hn]
    exact toString_nat_digits n
  have key : ∀ value : EntryValue,
      (∃ v : Nat, v ≤ 400 ∧ clampEntry cv value = toString v) →
      ∃ v : Nat, v ≤ 400 ∧
        (some { dom with popup := Function.update dom.popup zone (clampEntry cv value) }
          : Option Dom)
        = some { dom with popup := Function.update dom.popup zone (toString v) } := by
    intro value hv
    obtain ⟨v, hv1, hv2⟩ := hv
    exact ⟨v, hv1, by rw [hv2]⟩
  have hnum : ∀ k : Nat, (∀ c ∈ (toString k).data, isDigitChar c = true)
      ∧ (toString k).data ≠ [] :=
    fun k => ⟨toString_nat_digits k, fun h0 => toString_nat_ne_empty k (String.ext h0)⟩
  simp only [numPadClick, hpane, lastSegment_pane tabpane zone heater hpane, hstored]
  by_cases h8 : buttonIndex ≤ 8
  · simp only [h8, if_true]
    by_cases heq : stored.popup.strictEqString (dom.popup zone) = true
    · simp only [heq, if_true]
      exact key _ (clampEntry_number cv _)
    · simp only [heq, Bool.false_eq_true, if_false]
      have ha := append_digits (dom.popup zone) (toString (buttonIndex + 1)) hd
        (hnum _).1 (hnum _).2
      exact key _ (clampEntry_digits cv _ ha.1 ha.2)
  · simp only [h8, if_false]
    by_cases h9 : buttonIndex = 9
    · simp only [h9, if_true]
      exact key _ (clampEntry_number cv _)
    · simp only [h9, if_false]
      by_cases h10 : buttonIndex = 10
      · simp only [h10, if_true]
        by_cases heq : stored.popup.strictEqString (dom.popup zone) = true
        · simp only [heq, if_true]
          exact key _ (clampEntry_number cv _)
        · simp only [heq, Bool.false_eq_true, if_false]
          have ha := append_digits (dom.popup zone) (toString 0) hd (hnum _).1 (hnum _).2
          exact key _ (clampEntry_digits cv _ ha.1 ha.2)
      · simp only [h10, if_false]
        by_cases hempty : sliceLast (dom.popup zone) = ""
        · simp only [hempty, if_true]
          exact key _ (clampEntry_number cv _)
        · simp only [hempty, if_false]
          have hsl := sliceLast_digits (dom.popup zone) hd
          have h1 : ∀ c ∈ (sliceLast (dom.popup zone)).data, isDigitChar c = true := by
            rw [hsl]
            exact fun c hc => hd c (List.mem_of_mem_dropLast hc)
          have h2 : (sliceLast (dom.popup zone)).data ≠ [] :=
            fun h0 => hempty (String.ext h0)
          exact key _ (clampEntry_digits cv _ h1 h2)

/-! ## A failed status query -/

theorem fetchData_fails (outcome : FetchOutcome) (h : QueryFails outcome) :
    fetchData outcome = none := by
  cases outcome with
  | networkError => rfl
  | response ok contentType body =>
    rcases h with h | h | ⟨ct, text, h1, h2, h3, h4⟩
    · simp [fetchData, h]
    · subst h
      simp only [fetchData]
      split <;> rfl
    · subst h1
      subst h2
      have hne : ct ≠ "" := by
        intro h0
        rw [h0] at h3
        revert h3
        decide
      cases ok with
      | false => rfl
      | true => simp [fetchData, h3, h4, hne]

set_option maxRecDepth 1000000 in
/-- A poll whose query succeeds, for contrast: the snapshot is published, the
operator is prompted for the heater in fault and the reset is submitted. -/
theorem update_sample_success :
    (update sampleConv
      (FetchOutcome.response true (some "application/json")
        (some (jsonStringify sampleConv sampleStatus)))
      (fun _ => true) samplePageState).2
      = [Effect.confirm (faultMessage 0), Effect.gcode (resetCommand 0)] := by
  rfl

/-! ## Slots from 8 on -/

theorem noneClearFrom_init : NoneClearFrom defaultNumOfHeaters FaultState.init := by
  intro i hi
  refine ⟨?_, rfl⟩
  have h : ¬ i < defaultNumOfHeaters := by omega
  simp [FaultState.init, h]

theorem noneClearFrom_step (start : Nat) (st : FaultState) (e : Event)
    (h : NoneClearFrom start st) : NoneClearFrom start (step st e).1 := by
  intro i hi
  obtain ⟨hf, ht⟩ := h i hi
  cases e with
  | poll allHeaterStates answer =>
    rcases faultCheckFrom_summary answer i allHeaterStates 0 st with hq | hp
    · have e1 : (step st (Event.poll allHeaterStates answer)).1.heaterFaults i
          = st.heaterFaults i := hq.1
      have e2 : timersOf i (step st (Event.poll allHeaterStates answer)).1
          = timersOf i st := hq.2.1
      rw [e1, e2]
      exact ⟨hf, ht⟩
    · exact absurd hp.1 hf
  | timer k =>
    rcases fireTimer_slot i k st with ⟨h1, h2, _⟩ | ⟨t, hk, hs, _, hlen⟩
    · have e1 : (step st (Event.timer k)).1.heaterFaults i = st.heaterFaults i := h1
      have e2 : timersOf i (step st (Event.timer k)).1 = timersOf i st := h2
      rw [e1, e2]
      exact ⟨hf, ht⟩
    · rw [ht] at hlen
      simp at hlen
  | click heaterState heaterIndex answer dom =>
    simp only [step]
    cases hr : toggleHeaterStates heaterState heaterIndex answer dom st with
    | none => exact ⟨hf, ht⟩
    | some r =>
      obtain ⟨h1, h2⟩ := toggleHeaterStates_slot i heaterState heaterIndex answer dom st r hr
      refine ⟨?_, ?_⟩
      · rcases h2 with h2 | h2
        · rw [h2]; exact hf
        · rw [h2]; intro h3; cases h3
      · simp only [timersOf, h1]
        exact ht

theorem noneClearFrom_exec (start : Nat) (events : List Event) :
    ∀ (st : FaultState), NoneClearFrom start st → NoneClearFrom start (exec st events) := by
  induction events with
  | nil => intro st h; exact h
  | cons e rest ih => intro st h; exact ih _ (noneClearFrom_step start st e h)

/-- The fault loop over slots that cannot be prompted for does nothing. -/
theorem faultCheckFrom_none_clear (answer : Nat → Bool) :
    ∀ (states : List (Option String)) (start : Nat) (st : FaultState),
      (∀ i, start ≤ i → st.heaterFaults i ≠ some false) →
      (faultCheckFrom answer start states st).state = st
        ∧ (faultCheckFrom answer start states st).log = [] := by
  intro states
  induction states with
  | nil => intro start st _; exact ⟨rfl, rfl⟩
  | cons x rest ih =>
    intro start st h
    cases x with
    | none => exact ⟨rfl, rfl⟩
    | some state =>
      have hs : faultCheckSlot answer start state st = (st, []) := by
        unfold faultCheckSlot
        have := h start (Nat.le_refl _)
        simp [this]
      simp only [faultCheckFrom, hs]
      obtain ⟨h1, h2⟩ := ih (start + 1) st (fun i hi => h i (by omega))
      exact ⟨h1, by rw [h2]; rfl⟩

/-- The fault loop over a list in two parts: the second part runs when the
first ran to its end. -/
theorem faultCheckFrom_append (answer : Nat → Bool) :
    ∀ (xs ys : List (Option String)) (start : Nat) (st : FaultState),
      (faultCheckFrom answer start xs st).completed = true →
      (faultCheckFrom answer start (xs ++ ys) st).state
          = (faultCheckFrom answer (start + xs.length) ys
              (faultCheckFrom answer start xs st).state).state
        ∧ (faultCheckFrom answer start (xs ++ ys) st).log
          = (faultCheckFrom answer start xs st).log
            ++ (faultCheckFrom answer (start + xs.length) ys
                (faultCheckFrom answer start xs st).state).log := by
  intro xs
  induction xs with
  | nil =>
    intro ys start st _
    exact ⟨rfl, rfl⟩
  | cons x rest ih =>
    intro ys start st hc
    cases x with
    | none => cases hc
    | some state =>
      simp only [faultCheckFrom] at hc
      obtain ⟨h1, h2⟩ := ih ys (start + 1) (faultCheckSlot answer start state st).1 hc
      simp only [List.cons_append, faultCheckFrom, List.length_cons, List.append_eq]
      rw [show start + (rest.length + 1) = start + 1 + rest.length by omega]
      refine ⟨h1, ?_⟩
      rw [h2, List.append_assoc]

/-- The fault loop stopped by a raise gives the same with anything appended. -/
theorem faultCheckFrom_append_raised (answer : Nat → Bool) :
    ∀ (xs ys : List (Option String)) (start : Nat) (st : FaultState),
      (faultCheckFrom answer start xs st).completed = false →
      (faultCheckFrom answer start (xs ++ ys) st).state
          = (faultCheckFrom answer start xs st).state
        ∧ (faultCheckFrom answer start (xs ++ ys) st).log
          = (faultCheckFrom answer start xs st).log := by
  intro xs
  induction xs with
  | nil => intro ys start st hc; cases hc
  | cons x rest ih =>
    intro ys start st hc
    cases x with
    | none => exact ⟨rfl, rfl⟩
    | some state =>
      simp only [faultCheckFrom] at hc
      obtain ⟨h1, h2⟩ := ih ys (start + 1) (faultCheckSlot answer start state st).1 hc
      simp only [List.cons_append, faultCheckFrom, List.append_eq]
      refine ⟨h1, ?_⟩
      rw [h2]

/-- The fault loop from a state in which no slot from 8 on can be prompted for
leaves the same state and effects as the loop over the first eight entries. -/
theorem faultCheck_first_eight (answer : Nat → Bool) (states : List (Option String))
    (st : FaultState) (h : NoneClearFrom 8 st) :
    (faultCheck answer states st).state = (faultCheck answer (states.take 8) st).state
      ∧ (faultCheck answer states st).log = (faultCheck answer (states.take 8) st).log := by
  by_cases hlen : states.length ≤ 8
  · rw [List.take_of_length_le hlen]
    exact ⟨rfl, rfl⟩
  · have hl8 : (states.take 8).length = 8 := by
      rw [List.length_take]
      omega
    have hsplit : states = states.take 8 ++ states.drop 8 := (List.take_append_drop 8 states).symm
    unfold faultCheck
    cases hc : (faultCheckFrom answer 0 (states.take 8) st).completed with
    | false =>
      have := faultCheckFrom_append_raised answer (states.take 8) (states.drop 8) 0 st hc
      rw [← hsplit] at this
      exact this
    | true =>
      have happ := faultCheckFrom_append answer (states.take 8) (states.drop 8) 0 st hc
      rw [← hsplit, hl8] at happ
      have hclear : ∀ i, 0 + 8 ≤ i →
          (faultCheckFrom answer 0 (states.take 8) st).state.heaterFaults i ≠ some false := by
        intro i hi
        have hi8 : 8 ≤ i := by omega
        rcases faultCheckFrom_summary answer i (states.take 8) 0 st with hq | hp
        · rw [hq.1]
          exact (h i hi8).1
        · exact absurd hp.1 (h i hi8).1
      obtain ⟨h1, h2⟩ := faultCheckFrom_none_clear answer (states.drop 8) (0 + 8)
        (faultCheckFrom answer 0 (states.take 8) st).state hclear
      rw [h1] at happ
      rw [h2, List.append_nil] at happ
      exact happ

/-! ## The bed batch of the set-profile handler -/

/-- The bed loop of the set-profile handler: one segment per configured bed
heater, numbered from 4. -/
theorem setProfile_bed_loop (cfgBed : List JSVal) (Bd : String) :
    jsForEach (fun (_heater : JSVal) index gcodeString =>
        some (gcodeString ++ ("M568 P" ++ toString (index + 4) ++ " S" ++ Bd ++ " R"
          ++ Bd ++ " A2 ")))
        cfgBed ""
      = some (concatStrings ((List.range cfgBed.length).map (bedSegment 4 Bd))) := by
  unfold jsForEach
  rw [forEachFrom_segments _ (fun j =>
    "M568 P" ++ toString (j + 4) ++ " S" ++ Bd ++ " R" ++ Bd ++ " A2 ")
    cfgBed 0 "" (fun _ _ _ _ _ => rfl)]
  rw [String.empty_append, List.range_eq_range']
  rfl

/-- The log of the set-profile handler. -/
theorem setProfileClick_log (index : Nat) (cfgBed : List JSVal) (dom : Dom)
    (storage : Storage) (T M B N Bd : String)
    (hT : dom.topTemps[index]? = some T) (hM : dom.middleTemps[index]? = some M)
    (hB : dom.bottomTemps[index]? = some B) (hN : dom.nozzleTemps[index]? = some N)
    (hBd : dom.bedTemps[index]? = some Bd) :
    ∃ r, setProfileClick index cfgBed dom storage = some r
      ∧ r.log[1]? = some (Effect.gcode
          (concatStrings ((List.range cfgBed.length).map (bedSegment 4 Bd))))
      ∧ r.dom.active = profileSetpoint T M B N Bd
      ∧ r.dom.preheat = profileSetpoint T M B N Bd := by
  let dom1 : Dom := { dom with active := profileSetpoint T M B N Bd,
                               preheat := profileSetpoint T M B N Bd }
  refine ⟨{ dom := dom1, storage := saveSettings dom1 storage,
            log := [Effect.gcode ("M568 P0 S" ++ T ++ " R" ++ T ++ " A2 M568 P1 S" ++ M ++ " R"
                ++ M ++ " A2 M568 P2 S" ++ B ++ " R" ++ B ++ " A2 M568 P3 S" ++ N ++ " R" ++ N
                ++ " A2"),
              Effect.gcode (concatStrings ((List.range cfgBed.length).map (bedSegment 4 Bd))),
              Effect.click ".main-tab-link"] },
    by simp only [setProfileClick, hT, hM, hB, hN, hBd, setProfile_bed_loop], rfl, rfl, rfl⟩

/-- The batch of `configureBedHeaters(2, list)` on a page whose bed setpoints
all read `Bd`: one segment per configured bed heater, numbered from the number
of configured extruder heaters. -/
theorem configureBedHeaters_uniform (cfgBed cfgExtruder : List JSVal) (dom : Dom) (Bd : String)
    (hb : cfgBed.length ≤ 4) (hdom : BedSetpointsAre Bd dom) :
    configureBedHeaters 2 cfgBed cfgExtruder dom
      = some [Effect.gcode (concatStrings
          ((List.range cfgBed.length).map (bedSegment cfgExtruder.length Bd)))] := by
  rw [configureBedHeaters_batch 2 cfgBed cfgExtruder dom hb]
  have hlen : (([.bed0, .bed1, .bed2, .bed3] : List Zone).take cfgBed.length).length
      = cfgBed.length := by
    simp only [List.length_take, List.length_cons, List.length_nil]; omega
  have hmap := map_range_eq_mapIdxFrom
    (([.bed0, .bed1, .bed2, .bed3] : List Zone).take cfgBed.length)
    (fun zone j => "M568 P" ++ toString (j + cfgExtruder.length) ++ " S"
      ++ dom.active zone ++ " R" ++ dom.preheat zone ++ " A" ++ toString 2 ++ " ")
    (bedSegment cfgExtruder.length Bd) 0 (by
      intro k z hk
      have hz : z ∈ ([.bed0, .bed1, .bed2, .bed3] : List Zone) :=
        List.mem_of_mem_take (List.getElem?_mem hk)
      obtain ⟨ha, hp⟩ := hdom z hz
      simp only [ha, hp, bedSegment]
      rw [String.append_assoc _ " A" (toString 2),
        String.append_assoc _ (" A" ++ toString 2) " "]
      rfl)
  rw [hlen] at hmap
  rw [List.range_eq_range', hmap]

theorem append_sep_cancel {α : Type} (a : α) :
    ∀ (l1 l2 r1 r2 : List α), a ∉ l1 → a ∉ l2 → l1 ++ a :: r1 = l2 ++ a :: r2 → l1 = l2 := by
  intro l1
  induction l1 with
  | nil =>
    intro l2 r1 r2 _ h2 h
    cases l2 with
    | nil => rfl
    | cons y ys =>
      simp only [List.nil_append, List.cons_append, List.cons.injEq] at h
      exact absurd (h.1 ▸ List.mem_cons_self _ _) h2
  | cons x xs ih =>
    intro l2 r1 r2 h1 h2 h
    cases l2 with
    | nil =>
      simp only [List.nil_append, List.cons_append, List.cons.injEq] at h
      exact absurd (h.1 ▸ List.mem_cons_self _ _) h1
    | cons y ys =>
      simp only [List.cons_append, List.cons.injEq] at h
      rw [h.1, ih ys r1 r2 (fun hm => h1 (List.mem_cons_of_mem _ hm))
        (fun hm => h2 (List.mem_cons_of_mem _ hm)) h.2]

theorem space_not_in_numeral (n : Nat) : Char.ofNat 0x20 ∉ (toString n).data := by
  intro h
  have := toString_nat_digits n _ h
  revert this
  decide

/-- Two batches of at least one bed heater that number the bed heaters from
different offsets are different texts. -/
theorem bed_batches_differ (e1 e2 : Nat) (Bd : String) (b : Nat) (hb : 0 < b)
    (h : concatStrings ((List.range b).map (bedSegment e1 Bd))
      = concatStrings ((List.range b).map (bedSegment e2 Bd))) : e1 = e2 := by
  obtain ⟨k, rfl⟩ : ∃ k, b = k + 1 := ⟨b - 1, by omega⟩
  rw [List.range_succ_eq_map] at h
  simp only [List.map_cons, concatStrings_cons, bedSegment, Nat.zero_add,
    String.append_assoc] at h
  have h1 := congrArg String.data h
  simp only [String.data_append] at h1
  have h2 := List.append_cancel_left h1
  have h3 : (toString e1).data = (toString e2).data :=
    append_sep_cancel (Char.ofNat 0x20) _ _ _ _ (space_not_in_numeral e1)
      (space_not_in_numeral e2) h2
  exact toString_nat_injective e1 e2 (String.ext h3)

theorem bedSetpointsAre_profile (T M B N Bd : String) (dom : Dom)
    (ha : dom.active = profileSetpoint T M B N Bd)
    (hp : dom.preheat = profileSetpoint T M B N Bd) : BedSetpointsAre Bd dom := by
  intro zone hz
  rw [ha, hp]
  simp only [List.mem_cons, List.mem_singleton, List.mem_nil_iff, or_false] at hz
  rcases hz with rfl | rfl | rfl | rfl <;> exact ⟨rfl, rfl⟩

/-! ## Invocations of the scheduler -/

/-- Invocations only add queries in flight, one each. -/
theorem runScheduler_invocations (cv : Conv) (events : List SchedulerEvent) :
    ∀ (s : Scheduler), (∀ e ∈ events, e.isInvocation = true) →
      (runScheduler cv s events).inFlight.length = s.inFlight.length + events.length
        ∧ (runScheduler cv s events).page = s.page
        ∧ (runScheduler cv s events).log = s.log
        ∧ s.inFlight <+: (runScheduler cv s events).inFlight := by
  induction events with
  | nil => intro s _; exact ⟨rfl, rfl, rfl, List.prefix_refl _⟩
  | cons e rest ih =>
    intro s h
    have he := h e (List.mem_cons_self _ _)
    have hrest := fun e2 he2 => h e2 (List.mem_cons_of_mem _ he2)
    cases e with
    | tick =>
      obtain ⟨h1, h2, h3, h4⟩ := ih (schedulerStep cv s SchedulerEvent.tick) hrest
      refine ⟨?_, h2, h3, ?_⟩
      · show (runScheduler cv (schedulerStep cv s SchedulerEvent.tick) rest).inFlight.length = _
        rw [h1]
        simp only [schedulerStep, List.length_append, List.length_cons, List.length_nil]
        omega
      · exact List.IsPrefix.trans (List.prefix_append _ _) h4
    | domContentLoaded =>
      obtain ⟨h1, h2, h3, h4⟩ := ih (schedulerStep cv s SchedulerEvent.domContentLoaded) hrest
      refine ⟨?_, h2, h3, ?_⟩
      · show (runScheduler cv (schedulerStep cv s SchedulerEvent.domContentLoaded)
          rest).inFlight.length = _
        rw [h1]
        simp only [schedulerStep, List.length_append, List.length_cons, List.length_nil]
        omega
      · exact List.IsPrefix.trans (List.prefix_append _ _) h4
    | complete k outcome answer => cases he

theorem runScheduler_append (cv : Conv) (s : Scheduler) (as bs : List SchedulerEvent) :
    runScheduler cv s (as ++ bs) = runScheduler cv (runScheduler cv s as) bs := by
  simp [runScheduler, List.foldl_append]

/-! ## Theorems -/

/-- C1: `findHeaters xs` is exactly the list of pairs `[xs[i], i]` for the
indices `i` whose entry is not the sentinel `-1`, in increasing order of `i`;
a pair `[v, i]` is in the result exactly when `xs[i]` is `v` and `v` is not the
sentinel, so falsy entries such as `0` and `null` are kept. -/
theorem findHeaters_exact (xs : List JSVal) :
    findHeaters xs
      = ((xs.enum.filter (fun p => decide (p.2 ≠ sentinel))).map
          (fun p => heaterPair p.2 p.1))
    ∧ (∀ (v : JSVal) (i : Nat),
        heaterPair v i ∈ findHeaters xs ↔ (xs[i]? = some v ∧ v ≠ sentinel))
    ∧ findHeaters [JSVal.num 0, sentinel, JSVal.null]
        = [heaterPair (JSVal.num 0) 0, heaterPair JSVal.null 2] := by
  have hmain : findHeaters xs
      = ((xs.enum.filter (fun p => decide (p.2 ≠ sentinel))).map
          (fun p => heaterPair p.2 p.1)) := findHeaters_from xs 0
  refine ⟨hmain, ?_, ?_⟩
  · intro v i
    rw [hmain]
    simp only [List.mem_map, List.mem_filter, decide_eq_true_eq]
    constructor
    · rintro ⟨⟨j, w⟩, ⟨hmem, hne⟩, heq⟩
      simp only [heaterPair, JSVal.arr.injEq, List.cons.injEq, JSVal.num.injEq,
        Nat.cast_inj, and_true] at heq
      obtain ⟨rfl, rfl⟩ := heq
      exact ⟨(List.mem_enum_iff_getElem?).1 hmem, hne⟩
    · rintro ⟨hget, hne⟩
      exact ⟨(i, v), ⟨(List.mem_enum_iff_getElem?).2 hget, hne⟩, rfl⟩
  · rfl

/-- C2: in every execution from page load, if a poll shows the dialog of slot
`i` and a later poll shows it again, then the flag of slot `i` was Clear at
both polls, the operator confirmed the first dialog, and between the two polls
the 500 ms timer of slot `i` fired and set the flag back to Clear. A loop
iteration does nothing for a slot whose flag is not Clear. -/
theorem fault_prompt_not_repeated (i : Nat) (pre mid : List Event)
    (statesA statesB : List (Option String)) (answerA answerB : Nat → Bool)
    (hA : Effect.confirm (faultMessage i)
      ∈ (faultCheck answerA statesA (exec FaultState.init pre)).log)
    (hB : Effect.confirm (faultMessage i)
      ∈ (faultCheck answerB statesB
          (exec FaultState.init (pre ++ Event.poll statesA answerA :: mid))).log) :
    (exec FaultState.init pre).heaterFaults i = some false
    ∧ (exec FaultState.init (pre ++ Event.poll statesA answerA :: mid)).heaterFaults i
        = some false
    ∧ answerA i = true
    ∧ (∃ mid1 k mid2, mid = mid1 ++ Event.timer k :: mid2
        ∧ (exec FaultState.init (pre ++ Event.poll statesA answerA :: mid1)).timers[k]?
            = some { delay := 500, slot := i }
        ∧ (exec FaultState.init
            (pre ++ Event.poll statesA answerA :: mid1 ++ [Event.timer k])).heaterFaults i
            = some false)
    ∧ (∀ (st : FaultState) (answer : Nat → Bool) (state : String),
        st.heaterFaults i ≠ some false → faultCheckSlot answer i state st = (st, [])) := by
  have pA := mem_log_prompted answerA i statesA _ hA
  have pB := mem_log_prompted answerB i statesB _ hB
  have hinvA : SlotInv i (exec FaultState.init pre) := slotInv_exec i pre _ (slotInv_init i)
  have hstepA : exec FaultState.init (pre ++ [Event.poll statesA answerA])
      = (faultCheck answerA statesA (exec FaultState.init pre)).state := by
    rw [exec_append]; rfl
  have hsplit : ∀ evs : List Event,
      exec FaultState.init (pre ++ Event.poll statesA answerA :: evs)
        = exec (faultCheck answerA statesA (exec FaultState.init pre)).state evs := by
    intro evs
    rw [exec_append, exec_cons]; rfl
  have hinvA2 : SlotInv i (faultCheck answerA statesA (exec FaultState.init pre)).state := by
    rw [← hstepA]; exact slotInv_exec i _ _ (slotInv_init i)
  have hnoTimer : timersOf i (exec FaultState.init pre) = [] := by
    rcases hinvA with h | ⟨_, h2⟩
    · exact h
    · exact absurd h2 (fun h => prompted_needs_clear pA h)
  have hclearB : (exec (faultCheck answerA statesA (exec FaultState.init pre)).state
      mid).heaterFaults i ≠ some true := by
    rw [← hsplit mid, pB.1]; decide
  refine ⟨pA.1, pB.1, ?_, ?_, ?_⟩
  · cases ha : answerA i
    · exfalso
      apply hclearB
      refine settled_exec i mid _ pA.2.1 ?_
      have := pA.2.2.1
      rw [ha, hnoTimer] at this
      simpa using this
    · rfl
  · obtain ⟨mid1, k, mid2, hm, hk⟩ := reported_until_timer i mid _ hinvA2 pA.2.1 hclearB
    refine ⟨mid1, k, mid2, hm, ?_, ?_⟩
    · rw [hsplit mid1]; exact hk
    · have : pre ++ Event.poll statesA answerA :: mid1 ++ [Event.timer k]
          = pre ++ Event.poll statesA answerA :: (mid1 ++ [Event.timer k]) := by simp
      rw [this, hsplit, exec_append]
      show (fireTimer k _).heaterFaults i = some false
      unfold fireTimer
      rw [hk]
      exact Function.update_same _ _ _
  · intro st answer state hne
    unfold faultCheckSlot
    simp [hne]

/-- Witness of C2: slot 0 is in fault, the operator confirms, the timer fires,
and the next poll prompts again. -/
theorem fault_prompt_not_repeated_witness :
    Effect.confirm (faultMessage 0)
      ∈ (faultCheck (fun _ => true) [some "fault"] (exec FaultState.init [])).log
    ∧ Effect.confirm (faultMessage 0)
      ∈ (faultCheck (fun _ => false) [some "fault"]
          (exec FaultState.init
            ([] ++ Event.poll [some "fault"] (fun _ => true) :: [Event.timer 0]))).log
    ∧ (exec FaultState.init
        ([] ++ Event.poll [some "fault"] (fun _ => true) :: [Event.timer 0])).heaterFaults 0
        = some false :=
  ⟨by decide, by decide,
    (fault_prompt_not_repeated 0 [] [Event.timer 0] [some "fault"] [some "fault"]
      (fun _ => true) (fun _ => false) (by decide) (by decide)).2.1⟩

/-- C3, as stated, fails: slot 0 is in fault and the operator declines; the next
poll reads "off" for slot 0 and the flag stays Reported; a third poll reads
"fault" again and shows no dialog, whatever the operator would answer. -/
theorem declined_fault_not_cleared_by_reading :
    (faultCheck (fun _ => false) [some "fault"] FaultState.init).log
        = [Effect.confirm (faultMessage 0)]
    ∧ jsIncludes "off" "fault" = false
    ∧ (exec FaultState.init
        [Event.poll [some "fault"] (fun _ => false),
         Event.poll [some "off"] (fun _ => true)]).heaterFaults 0 = some true
    ∧ (faultCheck (fun _ => true) [some "fault"]
        (exec FaultState.init
          [Event.poll [some "fault"] (fun _ => false),
           Event.poll [some "off"] (fun _ => true)])).log = [] := by
  refine ⟨by decide, by decide, by decide, by decide⟩

/-- C3, amended: after the operator declines the dialog of slot `i`, the slot
stays Reported through every later sequence of polls (whatever they read for
slot `i`), timer firings and clicks, and no later poll shows the dialog of
slot `i` again. -/
theorem declined_fault_stays_reported (i : Nat) (pre mid : List Event)
    (statesA : List (Option String)) (answerA : Nat → Bool)
    (hA : Effect.confirm (faultMessage i)
      ∈ (faultCheck answerA statesA (exec FaultState.init pre)).log)
    (hdecline : answerA i = false) :
    (exec FaultState.init (pre ++ Event.poll statesA answerA :: mid)).heaterFaults i
        = some true
    ∧ ∀ (statesB : List (Option String)) (answerB : Nat → Bool),
        Effect.confirm (faultMessage i)
          ∉ (faultCheck answerB statesB
              (exec FaultState.init (pre ++ Event.poll statesA answerA :: mid))).log := by
  have pA := mem_log_prompted answerA i statesA _ hA
  have hinvA : SlotInv i (exec FaultState.init pre) := slotInv_exec i pre _ (slotInv_init i)
  have hnoTimer : timersOf i (exec FaultState.init pre) = [] := by
    rcases hinvA with h | ⟨_, h2⟩
    · exact h
    · exact absurd h2 (fun h => prompted_needs_clear pA h)
  have hsplit : exec FaultState.init (pre ++ Event.poll statesA answerA :: mid)
      = exec (faultCheck answerA statesA (exec FaultState.init pre)).state mid := by
    rw [exec_append, exec_cons]; rfl
  have hrep : (exec FaultState.init
      (pre ++ Event.poll statesA answerA :: mid)).heaterFaults i = some true := by
    rw [hsplit]
    refine settled_exec i mid _ pA.2.1 ?_
    have := pA.2.2.1
    rw [hdecline, hnoTimer] at this
    simpa using this
  refine ⟨hrep, ?_⟩
  intro statesB answerB hB
  exact prompted_needs_clear (mem_log_prompted answerB i statesB _ hB) hrep

/-- Witness of C3 (amended): slot 0 in fault, the operator declines, then a poll
reads "off". -/
theorem declined_fault_stays_reported_witness :
    Effect.confirm (faultMessage 0)
      ∈ (faultCheck (fun _ => false) [some "fault"] (exec FaultState.init [])).log
    ∧ (exec FaultState.init
        ([] ++ Event.poll [some "fault"] (fun _ => false)
          :: [Event.poll [some "off"] (fun _ => true)])).heaterFaults 0 = some true :=
  ⟨by decide,
    (declined_fault_stays_reported 0 [] [Event.poll [some "off"] (fun _ => true)]
      [some "fault"] (fun _ => false) (by decide) rfl).1⟩

/-- C4: when the loop reaches slot `i`, whose state contains "fault" and whose
flag is Clear, and the operator confirms: the iteration shows the dialog naming
heater `i + 1`, submits the one command `M292 M562 P<i>`, sets the flag of slot
`i` and schedules one timer of 500 ms, leaving every other flag as it was; the
firing of that timer sets the flag of slot `i` back to Clear and changes no
other flag; over the whole poll the dialog and the command of slot `i` occur
exactly once and the flag of slot `i` ends Reported. -/
theorem confirmed_fault_reset (i : Nat) (answer : Nat → Bool)
    (allHeaterStates : List (Option String)) (state : String) (st : FaultState)
    (hstate : allHeaterStates[i]? = some (some state))
    (hbefore : ∀ j, j < i → ∃ sj, allHeaterStates[j]? = some (some sj))
    (hfault : jsIncludes state "fault" = true)
    (hclear : st.heaterFaults i = some false)
    (hconfirm : answer i = true) :
    faultCheckSlot answer i state st
        = ({ heaterFaults := Function.update st.heaterFaults i (some true),
             timers := st.timers ++ [{ delay := 500, slot := i }] },
           [Effect.confirm ("Heater " ++ toString (i + 1) ++
              " has a temperature fault. Reset the fault? If fault persists, contact local distributor or Rapid Fusion for support."),
            Effect.gcode ("M292 M562 P" ++ toString i)])
    ∧ (∀ j, j ≠ i → (faultCheckSlot answer i state st).1.heaterFaults j = st.heaterFaults j)
    ∧ (fireTimer st.timers.length (faultCheckSlot answer i state st).1).heaterFaults i
        = some false
    ∧ (∀ j, j ≠ i →
        (fireTimer st.timers.length (faultCheckSlot answer i state st).1).heaterFaults j
          = st.heaterFaults j)
    ∧ (fireTimer st.timers.length (faultCheckSlot answer i state st).1).timers = st.timers
    ∧ (faultCheck answer allHeaterStates st).state.heaterFaults i = some true
    ∧ timersOf i (faultCheck answer allHeaterStates st).state
        = timersOf i st ++ [{ delay := 500, slot := i }]
    ∧ (faultCheck answer allHeaterStates st).log.count
        (Effect.gcode ("M292 M562 P" ++ toString i)) = 1
    ∧ (faultCheck answer allHeaterStates st).log.count
        (Effect.confirm (faultMessage i)) = 1 := by
  have hslot : faultCheckSlot answer i state st
        = ({ heaterFaults := Function.update st.heaterFaults i (some true),
             timers := st.timers ++ [{ delay := 500, slot := i }] },
           [Effect.confirm (faultMessage i), Effect.gcode (resetCommand i)]) := by
    unfold faultCheckSlot
    simp [hfault, hclear, hconfirm]
  have hfire : fireTimer st.timers.length
        ({ heaterFaults := Function.update st.heaterFaults i (some true),
           timers := st.timers ++ [{ delay := 500, slot := i }] } : FaultState)
      = { heaterFaults :=
            Function.update (Function.update st.heaterFaults i (some true)) i (some false),
          timers := st.timers } := by
    unfold fireTimer
    simp [List.eraseIdx_append_of_length_le]
  have hp := faultCheckFrom_reach answer i allHeaterStates 0 st state (Nat.zero_le _)
    (by simpa using hstate) (by simpa using hbefore) hfault hclear
  rw [hconfirm] at hp
  refine ⟨hslot, ?_, ?_, ?_, ?_, hp.2.1, by simpa using hp.2.2.1, hp.2.2.2.2, hp.2.2.2.1⟩
  · intro j hj
    rw [hslot]
    exact Function.update_noteq hj _ _
  · rw [hslot, hfire]
    exact Function.update_same _ _ _
  · intro j hj
    rw [hslot, hfire]
    simp [Function.update_noteq hj]
  · rw [hslot, hfire]

/-- Witness of C4: slot 1 in fault after a healthy slot 0, at page load. -/
theorem confirmed_fault_reset_witness :
    ([some "active", some "fault"] : List (Option String))[1]? = some (some "fault")
    ∧ jsIncludes "fault" "fault" = true
    ∧ FaultState.init.heaterFaults 1 = some false
    ∧ (faultCheck (fun _ => true) [some "active", some "fault"] FaultState.init).log.count
        (Effect.gcode ("M292 M562 P" ++ toString 1)) = 1 :=
  ⟨rfl, by decide, rfl,
    (confirmed_fault_reset 1 (fun _ => true) [some "active", some "fault"] "fault"
      FaultState.init rfl
      (by intro j hj; interval_cases j; exact ⟨"active", rfl⟩)
      (by decide) rfl rfl).2.2.2.2.2.2.2.1⟩

/-- C5: for a profile row reading `T`, `M`, `B`, `N`, `Bd` and any list of `k`
configured bed heaters, the set-profile handler submits the extruder batch
`M568 P0 S<T> R<T> A2 M568 P1 S<M> R<M> A2 M568 P2 S<B> R<B> A2 M568 P3 S<N> R<N> A2`,
then the bed batch, the concatenation for `j = 0..k-1` of
`M568 P<j+4> S<Bd> R<Bd> A2 `, then saves the settings and clicks the main tab;
for the row 180/250/260/270/100 and `k = 4` the two batches are the literal
strings below. -/
theorem setProfile_batches (index : Nat) (configuredBedHeaters : List JSVal) (dom : Dom)
    (storage : Storage) (T M B N Bd : String)
    (hT : dom.topTemps[index]? = some T) (hM : dom.middleTemps[index]? = some M)
    (hB : dom.bottomTemps[index]? = some B) (hN : dom.nozzleTemps[index]? = some N)
    (hBd : dom.bedTemps[index]? = some Bd) :
    ∃ r, setProfileClick index configuredBedHeaters dom storage = some r
      ∧ r.log = [Effect.gcode ("M568 P0 S" ++ T ++ " R" ++ T ++ " A2 M568 P1 S" ++ M ++ " R"
            ++ M ++ " A2 M568 P2 S" ++ B ++ " R" ++ B ++ " A2 M568 P3 S" ++ N ++ " R" ++ N
            ++ " A2"),
          Effect.gcode (concatStrings ((List.range configuredBedHeaters.length).map
            (fun j => "M568 P" ++ toString (j + 4) ++ " S" ++ Bd ++ " R" ++ Bd ++ " A2 "))),
          Effect.click ".main-tab-link"]
      ∧ r.dom.active = profileSetpoint T M B N Bd
      ∧ r.dom.preheat = profileSetpoint T M B N Bd
      ∧ r.storage = saveSettings r.dom storage
      ∧ (T = "180" → M = "250" → B = "260" → N = "270" → Bd = "100" →
          configuredBedHeaters.length = 4 →
          r.log = [Effect.gcode
              "M568 P0 S180 R180 A2 M568 P1 S250 R250 A2 M568 P2 S260 R260 A2 M568 P3 S270 R270 A2",
            Effect.gcode
              "M568 P4 S100 R100 A2 M568 P5 S100 R100 A2 M568 P6 S100 R100 A2 M568 P7 S100 R100 A2 ",
            Effect.click ".main-tab-link"]) := by
  have hloop : jsForEach (fun (_heater : JSVal) index gcodeString =>
        some (gcodeString ++ ("M568 P" ++ toString (index + 4) ++ " S" ++ Bd ++ " R"
          ++ Bd ++ " A2 ")))
        configuredBedHeaters ""
      = some (concatStrings ((List.range configuredBedHeaters.length).map
          (fun j => "M568 P" ++ toString (j + 4) ++ " S" ++ Bd ++ " R" ++ Bd ++ " A2 "))) := by
    unfold jsForEach
    rw [forEachFrom_segments _ (fun j =>
      "M568 P" ++ toString (j + 4) ++ " S" ++ Bd ++ " R" ++ Bd ++ " A2 ")
      configuredBedHeaters 0 "" (fun _ _ _ _ _ => rfl)]
    rw [String.empty_append, List.range_eq_range']
  let dom1 : Dom := { dom with active := profileSetpoint T M B N Bd,
                               preheat := profileSetpoint T M B N Bd }
  refine ⟨{ dom := dom1, storage := saveSettings dom1 storage,
            log := [Effect.gcode ("M568 P0 S" ++ T ++ " R" ++ T ++ " A2 M568 P1 S" ++ M ++ " R"
                ++ M ++ " A2 M568 P2 S" ++ B ++ " R" ++ B ++ " A2 M568 P3 S" ++ N ++ " R" ++ N
                ++ " A2"),
              Effect.gcode (concatStrings ((List.range configuredBedHeaters.length).map
                (fun j => "M568 P" ++ toString (j + 4) ++ " S" ++ Bd ++ " R" ++ Bd ++ " A2 "))),
              Effect.click ".main-tab-link"] },
    by simp only [setProfileClick, hT, hM, hB, hN, hBd, hloop], rfl, rfl, rfl, rfl, ?_⟩
  intro h1 h2 h3 h4 h5 h6
  subst h1 h2 h3 h4 h5
  simp only [h6]
  rfl

/-- Witness of C5: the first row of the sample page, four bed heaters. -/
theorem setProfile_batches_witness :
    samplePage.topTemps[0]? = some "180" ∧ samplePage.bedTemps[0]? = some "100"
    ∧ ∃ r, setProfileClick 0 [JSVal.num 0, JSVal.num 1, JSVal.num 2, JSVal.num 3]
        samplePage Storage.empty = some r
      ∧ r.log = [Effect.gcode
          "M568 P0 S180 R180 A2 M568 P1 S250 R250 A2 M568 P2 S260 R260 A2 M568 P3 S270 R270 A2",
        Effect.gcode
          "M568 P4 S100 R100 A2 M568 P5 S100 R100 A2 M568 P6 S100 R100 A2 M568 P7 S100 R100 A2 ",
        Effect.click ".main-tab-link"] := by
  obtain ⟨r, hr, _, _, _, _, hlit⟩ :=
    setProfile_batches 0 [JSVal.num 0, JSVal.num 1, JSVal.num 2, JSVal.num 3] samplePage
      Storage.empty "180" "250" "260" "270" "100" rfl rfl rfl rfl rfl
  exact ⟨rfl, rfl, r, hr, hlit rfl rfl rfl rfl rfl rfl⟩

/-- C6: for a heater index `i` whose zone is `zone` (the `i`-th of top, middle,
bottom, nozzle, bed0..bed3), `toggleHeaterStates` submits exactly
`M568 P<i> R<preheat of zone> A1` for "Off", `M568 P<i> S<active of zone> A2` for
"Preheat" and `M568 P<i> A0` for "Active"; in each case that is the only
effect: no dialog, and flags and timers as before. -/
theorem toggleHeaterStates_cycle (i : Nat) (zone : Zone) (answer : Bool) (dom : Dom)
    (st : FaultState)
    (hz : ([.top, .middle, .bottom, .nozzle, .bed0, .bed1, .bed2, .bed3] : List Zone)[i]?
      = some zone) :
    toggleHeaterStates "Off" i answer dom st
        = some (st, [Effect.gcode ("M568 P" ++ toString i ++ " R" ++ dom.preheat zone ++ " A1")])
    ∧ toggleHeaterStates "Preheat" i answer dom st
        = some (st, [Effect.gcode ("M568 P" ++ toString i ++ " S" ++ dom.active zone ++ " A2")])
    ∧ toggleHeaterStates "Active" i answer dom st
        = some (st, [Effect.gcode ("M568 P" ++ toString i ++ " A0")])
    ∧ i < 8 ∧ zone.index = i := by
  have hi : i < 8 := by
    by_contra hge
    rw [List.getElem?_eq_none (by simp; omega)] at hz
    cases hz
  refine ⟨?_, ?_, ?_, hi, ?_⟩
  · unfold toggleHeaterStates
    simp only [hz, if_true]
  · unfold toggleHeaterStates
    simp only [hz, show ("Preheat" = "Off") = False from by decide, if_false, if_true]
  · unfold toggleHeaterStates
    simp only [hz, show ("Active" = "Off") = False from by decide,
      show ("Active" = "Preheat") = False from by decide, if_false, if_true]
  · interval_cases i <;> (simp at hz; subst hz; rfl)

/-- Witness of C6: heater 5 is the zone bed1. -/
theorem toggleHeaterStates_cycle_witness :
    ([.top, .middle, .bottom, .nozzle, .bed0, .bed1, .bed2, .bed3] : List Zone)[5]?
      = some Zone.bed1
    ∧ toggleHeaterStates "Off" 5 false samplePage FaultState.init
        = some (FaultState.init,
            [Effect.gcode ("M568 P" ++ toString 5 ++ " R" ++ samplePage.preheat Zone.bed1
              ++ " A1")]) :=
  ⟨rfl, (toggleHeaterStates_cycle 5 Zone.bed1 false samplePage FaultState.init rfl).1⟩

/-- C7 fails on the code at a confirmed click: in the state reached when slot 0
was in fault, the operator confirmed and the timer fired (flag Clear, no timer
pending, label still "Fault"), `toggleHeaterStates("Fault", 0)` with a
confirming operator submits the reset command but leaves the flag Clear and
schedules no timer, while the polling check in the same state sets the flag
and schedules the 500 ms timer. After a declined dialog a confirmed click
leaves the slot Reported with no timer pending. -/
theorem toggle_fault_confirm_differs_from_poll (dom : Dom) :
    (exec FaultState.init
        [Event.poll [some "fault"] (fun _ => true), Event.timer 0]).heaterFaults 0
      = some false
    ∧ (toggleHeaterStates "Fault" 0 true dom
        (exec FaultState.init
          [Event.poll [some "fault"] (fun _ => true), Event.timer 0])).map
        (fun r => (r.1.heaterFaults 0, r.1.timers, r.2))
      = some (some false, [],
          [Effect.confirm (faultMessage 0), Effect.gcode "M292 M562 P0"])
    ∧ ((faultCheckSlot (fun _ => true) 0 "fault"
          (exec FaultState.init
            [Event.poll [some "fault"] (fun _ => true), Event.timer 0])).1.heaterFaults 0,
        (faultCheckSlot (fun _ => true) 0 "fault"
          (exec FaultState.init
            [Event.poll [some "fault"] (fun _ => true), Event.timer 0])).1.timers,
        (faultCheckSlot (fun _ => true) 0 "fault"
          (exec FaultState.init
            [Event.poll [some "fault"] (fun _ => true), Event.timer 0])).2)
      = (some true, [{ delay := 500, slot := 0 }],
          [Effect.confirm (faultMessage 0), Effect.gcode "M292 M562 P0"])
    ∧ (toggleHeaterStates "Fault" 0 true dom
        (exec FaultState.init [Event.poll [some "fault"] (fun _ => false)])).map
        (fun r => (r.1.heaterFaults 0, r.1.timers, r.2))
      = some (some true, [],
          [Effect.confirm (faultMessage 0), Effect.gcode "M292 M562 P0"]) := by
  refine ⟨by decide, rfl, by decide, rfl⟩

/-- C8: `configureHeaters(0, list)`, for the list of `n` configured extruder
heaters a poll computes, submits one batch: the concatenation, for the first
`n` of the zones top, middle, bottom, nozzle and `k = 0..n-1`, of
`M568 P<k> S<active> R<preheat> A0 ` (and `n` is at most 4). Only the texts
after `S` and `R` come from the stored setpoints. -/
theorem configureHeaters_off (heaters : List JSVal) (dom : Dom) :
    configureHeaters 0 (configuredExtruderHeatersOf heaters) dom
      = some [Effect.gcode (concatStrings (mapIdxFrom
          (fun zone k => "M568 P" ++ toString k ++ " S" ++ dom.active zone ++ " R"
            ++ dom.preheat zone ++ " A0 ")
          0 (([.top, .middle, .bottom, .nozzle] : List Zone).take
              (configuredExtruderHeatersOf heaters).length)))]
    ∧ (([.top, .middle, .bottom, .nozzle] : List Zone).take
          (configuredExtruderHeatersOf heaters).length).length
        = (configuredExtruderHeatersOf heaters).length
    ∧ (configuredExtruderHeatersOf heaters).length ≤ 4 := by
  have hlen := configuredExtruderHeatersOf_length heaters
  refine ⟨?_, ?_, hlen⟩
  · rw [configureHeaters_batch 0 _ dom hlen]
    have hseg : ∀ a : String, a ++ " A" ++ toString 0 ++ " " = a ++ " A0 " := by
      intro a
      rw [String.append_assoc, String.append_assoc]
      rfl
    simp only [hseg]
  · simp only [List.length_take, List.length_cons, List.length_nil]; omega

/-- C9, as stated, fails for more than four configured bed heaters: with five,
the callback finds no element for the fifth and raises, and no batch is
submitted. -/
theorem configureBedHeaters_five_raises :
    configureBedHeaters 1
      [JSVal.num 0, JSVal.num 1, JSVal.num 2, JSVal.num 3, JSVal.num 4]
      [JSVal.num 0, JSVal.num 1, JSVal.num 2, JSVal.num 3] samplePage = none := by
  rfl

/-- C9, amended: for every mode `m`, every list of `b ≤ 4` configured bed
heaters and every current list of `e` configured extruder heaters,
`configureBedHeaters(m, list)` submits the single batch that is the
concatenation, for the first `b` of the zones bed0..bed3 and `j = 0..b-1`, of
`M568 P<j+e> S<active> R<preheat> A<m> `. -/
theorem configureBedHeaters_offset (mode : Nat) (configuredBedHeaters : List JSVal)
    (configuredExtruderHeaters : List JSVal) (dom : Dom)
    (hb : configuredBedHeaters.length ≤ 4) :
    configureBedHeaters mode configuredBedHeaters configuredExtruderHeaters dom
      = some [Effect.gcode (concatStrings (mapIdxFrom
          (fun zone j => "M568 P" ++ toString (j + configuredExtruderHeaters.length) ++ " S"
            ++ dom.active zone ++ " R" ++ dom.preheat zone ++ " A" ++ toString mode ++ " ")
          0 (([.bed0, .bed1, .bed2, .bed3] : List Zone).take configuredBedHeaters.length)))]
    ∧ (([.bed0, .bed1, .bed2, .bed3] : List Zone).take configuredBedHeaters.length).length
        = configuredBedHeaters.length := by
  refine ⟨configureBedHeaters_batch mode _ _ dom hb, ?_⟩
  simp only [List.length_take, List.length_cons, List.length_nil]; omega

/-- Witness of C9 (amended): two bed heaters after four extruder heaters are
addressed as P4 and P5. -/
theorem configureBedHeaters_offset_witness :
    ([JSVal.num 0, JSVal.num 1] : List JSVal).length ≤ 4
    ∧ configureBedHeaters 1 [JSVal.num 0, JSVal.num 1]
        [JSVal.num 0, JSVal.num 1, JSVal.num 2, JSVal.num 3] samplePage
      = some [Effect.gcode "M568 P4 S0 R0 A1 M568 P5 S0 R0 A1 "] :=
  ⟨by decide,
    (configureBedHeaters_offset 1 [JSVal.num 0, JSVal.num 1]
      [JSVal.num 0, JSVal.num 1, JSVal.num 2, JSVal.num 3] samplePage (by decide)).1.trans
      rfl⟩

/-- C10: for the pane of a zone with heater index `n` and displayed entry `v`,
`setTemp` with button 0 sets only that zone's active setpoint to `v` and
submits exactly `M568 P<n> S<v> A2`; with button 1 it sets only that zone's
preheat setpoint to `v` and submits exactly `M568 P<n> R<v>`; with button 2 it
sets both and submits the two commands in that order. In each case the
setpoint functions change at that zone only (`Function.update`), the entries are
as before, and the settings document written to the store is the one built from
the updated page, which has that zone's entry. -/
theorem setTemp_buttons (zone : Zone) (dom : Dom) (storage : Storage) :
    (∃ r, setTemp (".tab-pane-" ++ zone.key) 0 dom storage = some r
      ∧ r.dom.active = Function.update dom.active zone (dom.popup zone)
      ∧ r.dom.preheat = dom.preheat ∧ r.dom.popup = dom.popup
      ∧ r.log = [Effect.gcode
          ("M568 P" ++ toString zone.index ++ " S" ++ dom.popup zone ++ " A2")]
      ∧ r.storage "temperatureSettings" = some (stringifySettings (collectSettings r.dom)))
    ∧ (∃ r, setTemp (".tab-pane-" ++ zone.key) 1 dom storage = some r
      ∧ r.dom.active = dom.active
      ∧ r.dom.preheat = Function.update dom.preheat zone (dom.popup zone)
      ∧ r.dom.popup = dom.popup
      ∧ r.log = [Effect.gcode ("M568 P" ++ toString zone.index ++ " R" ++ dom.popup zone)]
      ∧ r.storage "temperatureSettings" = some (stringifySettings (collectSettings r.dom)))
    ∧ (∃ r, setTemp (".tab-pane-" ++ zone.key) 2 dom storage = some r
      ∧ r.dom.active = Function.update dom.active zone (dom.popup zone)
      ∧ r.dom.preheat = Function.update dom.preheat zone (dom.popup zone)
      ∧ r.dom.popup = dom.popup
      ∧ r.log = [Effect.gcode
            ("M568 P" ++ toString zone.index ++ " S" ++ dom.popup zone ++ " A2"),
          Effect.gcode ("M568 P" ++ toString zone.index ++ " R" ++ dom.popup zone)]
      ∧ r.storage "temperatureSettings" = some (stringifySettings (collectSettings r.dom)))
    ∧ (∀ page : Dom,
        (zone.key,
          ({ popup := jsOr (page.popup zone) "0", active := jsOr (page.active zone) "0",
             preheat := jsOr (page.preheat zone) "0" } : ZoneSettings))
          ∈ collectSettings page) := by
  have hcmd : ∀ (n : Nat) (rest : String),
      "M568 " ++ ("P" ++ toString n) ++ rest = "M568 P" ++ toString n ++ rest := by
    intro n rest
    rw [← String.append_assoc "M568 " "P"]
    rfl
  have hcmd2 : ∀ (n : Nat) (a b : String),
      "M568 " ++ ("P" ++ toString n) ++ a ++ b = "M568 P" ++ toString n ++ a ++ b := by
    intro n a b
    rw [hcmd]
  have hcmd3 : ∀ (n : Nat) (a b c : String),
      "M568 " ++ ("P" ++ toString n) ++ a ++ b ++ c = "M568 P" ++ toString n ++ a ++ b ++ c := by
    intro n a b c
    rw [hcmd]
  refine ⟨?_, ?_, ?_, ?_⟩
  · let dom1 : Dom := { dom with active := Function.update dom.active zone (dom.popup zone) }
    refine ⟨{ dom := dom1, storage := saveSettings dom1 storage,
              log := [Effect.gcode ("M568 " ++ ("P" ++ toString zone.index) ++ " S"
                ++ dom.popup zone ++ " A2")] },
      by simp only [setTemp, paneHeater_key, dom1], rfl, rfl, rfl, ?_, ?_⟩
    · simp only [hcmd3]
    · simp [saveSettings, Storage.setItem]
  · let dom1 : Dom := { dom with preheat := Function.update dom.preheat zone (dom.popup zone) }
    refine ⟨{ dom := dom1, storage := saveSettings dom1 storage,
              log := [Effect.gcode ("M568 " ++ ("P" ++ toString zone.index) ++ " R"
                ++ dom.popup zone)] },
      by simp only [setTemp, paneHeater_key, dom1], rfl, rfl, rfl, ?_, ?_⟩
    · simp only [hcmd2]
    · simp [saveSettings, Storage.setItem]
  · let dom1 : Dom := { dom with
      active := Function.update dom.active zone (dom.popup zone),
      preheat := Function.update dom.preheat zone (dom.popup zone) }
    refine ⟨{ dom := dom1, storage := saveSettings dom1 storage,
              log := [Effect.gcode ("M568 " ++ ("P" ++ toString zone.index) ++ " S"
                  ++ dom.popup zone ++ " A2"),
                Effect.gcode ("M568 " ++ ("P" ++ toString zone.index) ++ " R"
                  ++ dom.popup zone)] },
      by simp only [setTemp, paneHeater_key, dom1], rfl, rfl, rfl, ?_, ?_⟩
    · simp only [hcmd2, hcmd3]
    · simp [saveSettings, Storage.setItem]
  · intro page
    cases zone <;> simp [collectSettings, Zone.key]

/-- C11 fails on the code: with no `temperatureSettings` entry in the store,
`loadSettings` returns the empty record and writes nothing, although
`initializeDefaultSettings` has the eight zones. For every store the string
tested by `if (!storedSettings)` is not empty, so the branch that would
initialise the defaults is never taken. -/
theorem loadSettings_empty_store (cv : Conv) (dom : Dom) :
    (∃ r, loadSettings cv dom Storage.empty = some r
      ∧ r.settings = [] ∧ r.dom = dom ∧ r.storage "temperatureSettings" = none)
    ∧ initializeDefaultSettings.map (fun kv => kv.1)
        = ["top", "middle", "bottom", "nozzle", "bed0", "bed1", "bed2", "bed3"]
    ∧ (∀ storage : Storage,
        jsOr ((storage "temperatureSettings").getD "") "\x7b\x7d" ≠ "") := by
  refine ⟨⟨{ settings := [], dom := dom, storage := Storage.empty }, rfl, rfl, rfl, rfl⟩,
    rfl, ?_⟩
  intro storage
  exact jsOr_ne_empty _

/-- C13, as stated, fails: the stored text `\x7b` is not JSON, and both
`loadSettings` and `loadHeatingProfiles` raise instead of returning the
defaults. -/
theorem unparsable_document_raises :
    jsonParse "\x7b" = none
    ∧ loadSettings sampleConv samplePage
        (Storage.empty.setItem "temperatureSettings" "\x7b") = none
    ∧ loadHeatingProfiles sampleConv (Storage.empty.setItem "HeatingProfiles" "\x7b")
        = none := by
  refine ⟨rfl, rfl, rfl⟩

/-- C13, amended: for every stored text that is not empty and that `JSON.parse`
rejects, `loadSettings` and `loadHeatingProfiles` raise the error of
`JSON.parse`: they return nothing and write nothing. -/
theorem unparsable_document_propagates (cv : Conv) (dom : Dom) (storage : Storage)
    (stored : String) (hne : stored ≠ "") (hparse : jsonParse stored = none) :
    loadSettings cv dom (storage.setItem "temperatureSettings" stored) = none
    ∧ loadHeatingProfiles cv (storage.setItem "HeatingProfiles" stored) = none := by
  constructor
  · rw [loadSettings_stored cv dom _ stored (by simp [Storage.setItem]) hne, hparse]
  · unfold loadHeatingProfiles
    simp [Storage.setItem, hne, hparse]

/-- Witness of C13 (amended): the stored text `\x7b`. -/
theorem unparsable_document_propagates_witness :
    "\x7b" ≠ "" ∧ jsonParse "\x7b" = none
    ∧ loadSettings sampleConv samplePage
        (Storage.empty.setItem "temperatureSettings" "\x7b") = none :=
  ⟨by decide, rfl,
    (unparsable_document_propagates sampleConv samplePage Storage.empty "\x7b"
      (by decide) rfl).1⟩

/-- C14: with no `HeatingProfiles` entry in the store, `loadHeatingProfiles`
returns the six built-in profiles, in order, and stores their document; a
second `loadHeatingProfiles` finds a stored text that is not empty, parses it
to the same list and leaves the store as it is. -/
theorem loadHeatingProfiles_defaults (cv : Conv) (storage : Storage)
    (hnone : storage "HeatingProfiles" = none) :
    loadHeatingProfiles cv storage
        = some (JSVal.arr
            [heatingProfile "Airtech PC-GF" 180 250 260 270 100,
             heatingProfile "Airtech PP-GF" 150 200 200 210 90,
             heatingProfile "Airtech ABS-CF" 150 190 200 210 100,
             heatingProfile "Airtech PETG-GF" 150 160 200 205 80,
             heatingProfile "Default PETG" 80 160 170 180 80,
             heatingProfile "Default PLA" 80 140 150 160 50],
            storage.setItem "HeatingProfiles" (jsonStringify cv defaultHeatingProfiles))
    ∧ jsonStringify cv defaultHeatingProfiles ≠ ""
    ∧ jsonParse (jsonStringify cv defaultHeatingProfiles) = some defaultHeatingProfiles
    ∧ loadHeatingProfiles cv
          (storage.setItem "HeatingProfiles" (jsonStringify cv defaultHeatingProfiles))
        = some (defaultHeatingProfiles,
            storage.setItem "HeatingProfiles" (jsonStringify cv defaultHeatingProfiles)) := by
  refine ⟨?_, stringify_default_profiles_ne_empty cv, parse_default_profiles cv, ?_⟩
  · unfold loadHeatingProfiles
    rw [hnone]
    rfl
  · unfold loadHeatingProfiles
    simp [Storage.setItem, stringify_default_profiles_ne_empty cv, parse_default_profiles cv]

/-- Witness of C14: the empty store. -/
theorem loadHeatingProfiles_defaults_witness :
    Storage.empty "HeatingProfiles" = none
    ∧ loadHeatingProfiles sampleConv
          (Storage.empty.setItem "HeatingProfiles"
            (jsonStringify sampleConv defaultHeatingProfiles))
        = some (defaultHeatingProfiles,
            Storage.empty.setItem "HeatingProfiles"
              (jsonStringify sampleConv defaultHeatingProfiles)) :=
  ⟨rfl, (loadHeatingProfiles_defaults sampleConv Storage.empty rfl).2.2.2⟩

/-- C15: whatever the store held, after `resetlocalStorageSettings` the stored
`temperatureSettings` text parses to the eight zones with popup, active and
preheat all "0", the stored `HeatingProfiles` text parses to the six built-in
profiles, the next `loadSettings` returns those eight zones (and writes "0"
into every setpoint and entry of the page), the next `loadHeatingProfiles`
returns the six profiles, and one page reload is requested. -/
theorem reset_restores_defaults (cv : Conv) (dom : Dom) (storage : Storage) :
    (resetlocalStorageSettings cv storage).2 = [Effect.reload]
    ∧ (resetlocalStorageSettings cv storage).1 "temperatureSettings"
        = some (stringifySettings initializeDefaultSettings)
    ∧ jsonParse (stringifySettings initializeDefaultSettings)
        = some (JSVal.obj
            ((["top", "middle", "bottom", "nozzle", "bed0", "bed1", "bed2", "bed3"]).map
              (fun key => (key, JSVal.obj [("popup", .str "0"), ("active", .str "0"),
                                           ("preheat", .str "0")]))))
    ∧ (resetlocalStorageSettings cv storage).1 "HeatingProfiles"
        = some (jsonStringify cv defaultHeatingProfiles)
    ∧ jsonParse (jsonStringify cv defaultHeatingProfiles) = some defaultHeatingProfiles
    ∧ (∃ r, loadSettings cv dom (resetlocalStorageSettings cv storage).1 = some r
        ∧ r.settings
            = (["top", "middle", "bottom", "nozzle", "bed0", "bed1", "bed2", "bed3"]).map
                (fun key => (key, ({ popup := .str "0", active := .str "0",
                                     preheat := .str "0" } : LoadedZone)))
        ∧ r.dom = { dom with popup := fun _ => "0", active := fun _ => "0",
                             preheat := fun _ => "0" }
        ∧ r.storage = (resetlocalStorageSettings cv storage).1)
    ∧ loadHeatingProfiles cv (resetlocalStorageSettings cv storage).1
        = some (defaultHeatingProfiles, (resetlocalStorageSettings cv storage).1) := by
  have hs1 : (resetlocalStorageSettings cv storage).1 "temperatureSettings"
      = some (stringifySettings initializeDefaultSettings) := by
    simp [resetlocalStorageSettings, initializeDefaultHeatingProfiles, Storage.setItem]
  have hs2 : (resetlocalStorageSettings cv storage).1 "HeatingProfiles"
      = some (jsonStringify cv defaultHeatingProfiles) := by
    simp [resetlocalStorageSettings, initializeDefaultHeatingProfiles, Storage.setItem]
  refine ⟨rfl, hs1, parse_default_settings, hs2, parse_default_profiles cv, ?_, ?_⟩
  · refine ⟨{ settings := initializeDefaultSettings.map (fun kv => (kv.1, kv.2.toLoaded)),
              dom := { dom with popup := fun _ => "0", active := fun _ => "0",
                                preheat := fun _ => "0" },
              storage := (resetlocalStorageSettings cv storage).1 }, ?_, rfl, rfl, rfl⟩
    rw [loadSettings_stored cv dom _ _ hs1 stringify_default_settings_ne_empty,
      parse_default_settings]
    simp only [normalize_default_settings]
    have := setAllValuesInForm_zones cv dom (fun _ => "0") (fun _ => "0") (fun _ => "0")
    simp only [initializeDefaultSettings, ZoneSettings.toLoaded, List.map] at this ⊢
    rw [this]
  · unfold loadHeatingProfiles
    simp [hs2, stringify_default_profiles_ne_empty cv, parse_default_profiles cv]

/-- C12: when every popup, active and preheat field of the eight zones holds
the decimal numeral of a temperature in 0..400, `saveSettings` followed by
`loadSettings` returns the record of exactly the eight zones whose popup, active
and preheat values are the saved field texts, and the fields of the page are
the same after the two calls as before. -/
theorem save_load_roundtrip (cv : Conv) (dom : Dom) (storage : Storage)
    (hp : ∀ z, IsTemperature (dom.popup z)) (ha : ∀ z, IsTemperature (dom.active z))
    (hh : ∀ z, IsTemperature (dom.preheat z)) :
    ∃ r, loadSettings cv dom (saveSettings dom storage) = some r
      ∧ r.settings = zonesRecord dom.popup dom.active dom.preheat
      ∧ r.dom = dom
      ∧ r.storage = saveSettings dom storage := by
  obtain ⟨doc, hparse, hnorm⟩ := roundtrip_collect dom
    (fun z => isTemperature_clean _ (hp z)) (fun z => isTemperature_clean _ (ha z))
    (fun z => isTemperature_clean _ (hh z))
  have hs : saveSettings dom storage "temperatureSettings"
      = some (stringifySettings (collectSettings dom)) := by
    simp [saveSettings, Storage.setItem]
  have hne : stringifySettings (collectSettings dom) ≠ "" := by
    intro h
    rw [h] at hparse
    have h0 : jsonParse "" = none := rfl
    rw [h0] at hparse
    cases hparse
  refine ⟨{ settings := zonesRecord dom.popup dom.active dom.preheat, dom := dom,
            storage := saveSettings dom storage }, ?_, rfl, rfl, rfl⟩
  rw [loadSettings_stored cv dom _ _ hs hne, hparse]
  simp only [hnorm]
  unfold zonesRecord
  rw [setAllValuesInForm_zones]

/-- Witness of C12: the sample page, whose fields all hold "0". -/
theorem save_load_roundtrip_witness :
    (∀ z, IsTemperature (samplePage.popup z)) ∧
    ∃ r, loadSettings sampleConv samplePage (saveSettings samplePage Storage.empty) = some r
      ∧ r.settings = zonesRecord samplePage.popup samplePage.active samplePage.preheat
      ∧ r.dom = samplePage
      ∧ r.storage = saveSettings samplePage Storage.empty :=
  ⟨fun _ => ⟨0, by decide, rfl⟩,
   save_load_roundtrip sampleConv samplePage Storage.empty
    (fun _ => ⟨0, by decide, rfl⟩) (fun _ => ⟨0, by decide, rfl⟩) (fun _ => ⟨0, by decide, rfl⟩)⟩

/-- C18: for every stored `temperatureSettings` document that parses to an
object whose values are objects, the `reduce` of `loadSettings` raises nothing
and builds a record in which every zone entry stems from a stored zone object
and has its three fields popup, active and preheat, none of them `undefined`:
each field is the stored value when that value is present and non-empty
(truthy), and the string "0" when it is missing or empty (falsy); every stored
key has an entry. That record is what `loadSettings` returns whenever it
returns, and it returns when every stored key names a zone of the page. -/
theorem loadSettings_defaults_fields (cv : Conv) (dom : Dom) (storage : Storage)
    (stored : String) (fields : List (String × JSVal))
    (hs : storage "temperatureSettings" = some stored)
    (hparse : jsonParse stored = some (JSVal.obj fields))
    (hobj : ∀ kv ∈ fields, ∃ fs, kv.2 = JSVal.obj fs) :
    ∃ settings, normalizeSettings (JSVal.obj fields) = some settings
      ∧ (∀ key zone, (key, zone) ∈ settings →
          ∃ fs, (key, JSVal.obj fs) ∈ fields ∧ ZoneDefaultsToZero fs zone)
      ∧ (∀ kv ∈ fields, kv.1 ≠ "__proto__" → ∃ zone, (kv.1, zone) ∈ settings)
      ∧ (∀ r, loadSettings cv dom storage = some r → r.settings = settings)
      ∧ ((∀ kv ∈ fields, zoneOfKey kv.1 ≠ none) →
          ∃ r, loadSettings cv dom storage = some r ∧ r.settings = settings) := by
  obtain ⟨settings, hred, h1, h2, _⟩ := reduceEntries_objects fields [] hobj
  have hnorm : normalizeSettings (JSVal.obj fields) = some settings := hred
  have hfrom : ∀ key zone, (key, zone) ∈ settings →
      ∃ fs, (key, JSVal.obj fs) ∈ fields ∧ ZoneDefaultsToZero fs zone := by
    intro key zone h
    rcases h1 key zone h with h | h
    · cases h
    · exact h
  have hne : stored ≠ "" := by
    intro h
    rw [h] at hparse
    have h0 : jsonParse "" = none := rfl
    rw [h0] at hparse
    cases hparse
  have hload := loadSettings_stored cv dom storage stored hs hne
  rw [hparse] at hload
  simp only [hnorm] at hload
  refine ⟨settings, hnorm, hfrom, h2, ?_, ?_⟩
  · intro r hr
    rw [hload] at hr
    split at hr
    · cases hr
    · cases hr
      rfl
  · intro hkeys
    have hzone : ∀ kz ∈ settings, zoneOfKey kz.1 ≠ none := by
      intro kz hkz
      obtain ⟨fs, hm, _⟩ := hfrom kz.1 kz.2 hkz
      exact hkeys _ hm
    obtain ⟨dom2, hdom2⟩ := setAllValuesInForm_some cv settings dom hzone
    refine ⟨{ settings := settings, dom := dom2, storage := storage }, ?_, rfl⟩
    rw [hload]
    simp only [hdom2]

/-- Witness of C18: the sample document, whose zone `top` keeps its popup value
and takes "0" for the empty and the missing field. -/
theorem loadSettings_defaults_fields_witness :
    jsonParse sampleStoredSettings = some (JSVal.obj sampleStoredFields)
    ∧ ∃ settings, normalizeSettings (JSVal.obj sampleStoredFields) = some settings
      ∧ (∀ key zone, (key, zone) ∈ settings →
          ∃ fs, (key, JSVal.obj fs) ∈ sampleStoredFields ∧ ZoneDefaultsToZero fs zone)
      ∧ (∀ kv ∈ sampleStoredFields, kv.1 ≠ "__proto__" → ∃ zone, (kv.1, zone) ∈ settings)
      ∧ (∀ r, loadSettings sampleConv samplePage
            (Storage.empty.setItem "temperatureSettings" sampleStoredSettings) = some r →
          r.settings = settings)
      ∧ ((∀ kv ∈ sampleStoredFields, zoneOfKey kv.1 ≠ none) →
          ∃ r, loadSettings sampleConv samplePage
            (Storage.empty.setItem "temperatureSettings" sampleStoredSettings) = some r
            ∧ r.settings = settings) :=
  ⟨parse_sample_stored, loadSettings_defaults_fields sampleConv samplePage
    (Storage.empty.setItem "temperatureSettings" sampleStoredSettings)
    sampleStoredSettings sampleStoredFields rfl parse_sample_stored
    (by
      intro kv hkv
      simp only [sampleStoredFields, List.mem_cons, List.mem_singleton, List.mem_nil_iff,
        or_false] at hkv
      rcases hkv with rfl | rfl
      · exact ⟨_, rfl⟩
      · exact ⟨_, rfl⟩)⟩

/-- C17: with an empty suffix, the text `updateText` gives the element at
`index` for a state string that starts with a lowercase ASCII letter is
"Preheat" when the string is "standby", and otherwise the string with its first
character replaced by its capital (the character 32 code points below) and the
other characters as they were. The states "active", "standby", "fault" and "off"
give "Active", "Preheat", "Fault" and "Off", and `toggleHeaterStates` acts on no
other state name than these four. -/
theorem updateText_state_text (cv : Conv) (heater : List String) (outputData : List JSVal)
    (index : Nat) (c : Char) (rest : List Char)
    (hi : index < heater.length)
    (hs : outputData[index]? = some (JSVal.str (String.mk (c :: rest))))
    (hc : c.isLower = true) :
    (updateText cv heater outputData "").1[index]?
        = some (if String.mk (c :: rest) = "standby" then "Preheat"
                else String.mk (Char.ofNat (c.toNat - 32) :: rest))
    ∧ (updateText cv heater outputData "").2 = outputData
    ∧ ["active", "standby", "fault", "off"].map (fun s => renderText cv (JSVal.str s) "")
        = ["Active", "Preheat", "Fault", "Off"]
    ∧ (∀ heaterState heaterIndex answer dom st st2 log,
        toggleHeaterStates heaterState heaterIndex answer dom st = some (st2, log) →
        log ≠ [] → heaterState ∈ ["Off", "Preheat", "Active", "Fault"]) := by
  refine ⟨?_, rfl, rfl, ?_⟩
  · have hd : outputData.getD index JSVal.undefined = JSVal.str (String.mk (c :: rest)) := by
      rw [List.getD_eq_getElem?_getD, hs]
      rfl
    simp only [updateText, jsMap, mapIdxFrom_getElem?, Nat.zero_add,
      List.getElem?_eq_getElem hi, Option.map_some', hd, renderText,
      capitalizeFirst_lower c rest hc, toUpper_of_isLower c hc, String.append_empty]
  · intro heaterState heaterIndex answer dom st st2 log h hlog
    by_contra hn
    rw [toggleHeaterStates_other heaterState heaterIndex answer dom st hn] at h
    simp only [Option.some.injEq, Prod.mk.injEq] at h
    exact hlog h.2.symm

/-- Witness of C17: one state label showing "old" and the state "fault". -/
theorem updateText_state_text_witness :
    (updateText sampleConv ["old"] [JSVal.str "fault"] "").1[0]? = some "Fault" :=
  (updateText_state_text sampleConv ["old"] [JSVal.str "fault"] 0 'f' ['a', 'u', 'l', 't']
    (by decide) rfl (by decide)).1

/-- C20: for every array of heaters without a `null` entry, for the properties
`current` and `state`, for every list of render-target elements and every
suffix, `updateUIdata` returns the extracted values and not `null`: for
"extruderHeaters" the values of the property of entries 0..3, for "bedHeaters"
those of entries 4..7, for "chamberHeaters" and "allHeaters" those of every
entry, in the order of the array; whatever the description it returns, and it
returns `null` exactly when the description is none of the four kinds. -/
theorem updateUIdata_extracts (cv : Conv) (hs : List JSVal) (p : String)
    (elements : List String) (endText : String)
    (_ : p = "current" ∨ p = "state")
    (hh : ∀ h ∈ hs, h ≠ JSVal.null ∧ h ≠ JSVal.undefined) :
    (updateUIdata cv "extruderHeaters" hs p elements endText).map Prod.snd
        = some (some ((hs.take 4).map (fun h => (getProp h p).getD JSVal.undefined)))
    ∧ (updateUIdata cv "bedHeaters" hs p elements endText).map Prod.snd
        = some (some (((hs.drop 4).take 4).map (fun h => (getProp h p).getD JSVal.undefined)))
    ∧ (updateUIdata cv "chamberHeaters" hs p elements endText).map Prod.snd
        = some (some (hs.map (fun h => (getProp h p).getD JSVal.undefined)))
    ∧ updateUIdata cv "allHeaters" hs p elements endText
        = some (elements, some (hs.map (fun h => (getProp h p).getD JSVal.undefined)))
    ∧ (∀ description, ∃ r, updateUIdata cv description hs p elements endText = some r
        ∧ (r.2 = none ↔ description ∉
            ["extruderHeaters", "bedHeaters", "chamberHeaters", "allHeaters"])) := by
  have he := extractProperty_map hs p hh
  refine ⟨?_, ?_, ?_, ?_, ?_⟩
  · simp [updateUIdata, he, updateText, List.map_take]
  · simp [updateUIdata, he, updateText, List.map_take, List.map_drop]
  · simp [updateUIdata, he, updateText]
  · simp [updateUIdata, he]
  · intro description
    simp only [updateUIdata, he]
    by_cases h1 : description = "extruderHeaters"
    · simp [h1]
    · by_cases h2 : description = "bedHeaters"
      · simp [h2]
      · by_cases h3 : description = "chamberHeaters"
        · simp [h3]
        · by_cases h4 : description = "allHeaters"
          · simp [h4]
          · simp [h1, h2, h3, h4]

/-- Witness of C20: one heater and three render-target elements. -/
theorem updateUIdata_extracts_witness :
    updateUIdata sampleConv "allHeaters"
        [JSVal.obj [("current", JSVal.num 21), ("state", JSVal.str "off")]] "state"
        ["a", "b", "c"] ""
      = some (["a", "b", "c"], some [JSVal.str "off"]) :=
  (updateUIdata_extracts sampleConv
    [JSVal.obj [("current", JSVal.num 21), ("state", JSVal.str "off")]] "state"
    ["a", "b", "c"] "" (Or.inr rfl)
    (by
      intro h hm
      simp only [List.mem_singleton] at hm
      subst hm
      exact ⟨JSVal.noConfusion, JSVal.noConfusion⟩)).2.2.2.1

/-- C16: on every pane whose displayed entry is the decimal numeral of a number
in 0..400, whatever popup value is stored for the zone and whatever keypad
button is pressed (index 0..8 the digits 1-9, 9 clear, 10 the digit 0, 11
backspace), `numPadClick` raises nothing and leaves in the entry the decimal
numeral of a number `v` with 0 <= v <= 400, of at most 3 digits; and after any
sequence of key presses the entry still shows such a number. -/
theorem numPadClick_clamps (cv : Conv) (tabpane heater : String) (zone : Zone)
    (settings : List (String × LoadedZone)) (stored : LoadedZone) (dom : Dom)
    (hpane : paneHeater tabpane = some (zone, heater))
    (hentry : IsTemperature (dom.popup zone))
    (hstored : settings.lookup zone.key = some stored) :
    (∀ buttonIndex, ∃ v : Nat, v ≤ 400 ∧ (toString v).length ≤ 3
      ∧ numPadClick cv tabpane buttonIndex settings dom
          = some { dom with popup := Function.update dom.popup zone (toString v) })
    ∧ (∀ presses : List Nat, ∃ v : Nat, ∃ dom2 : Dom, v ≤ 400 ∧ (toString v).length ≤ 3
        ∧ pressKeys cv tabpane settings presses dom = some dom2
        ∧ dom2.popup zone = toString v) := by
  have hlen : ∀ v : Nat, v ≤ 400 → (toString v).length ≤ 3 :=
    fun v hv => Nat.repr_length v 3 (by decide) (by omega)
  constructor
  · intro buttonIndex
    obtain ⟨v, hv, h⟩ := numPadClick_step cv tabpane heater zone settings stored dom
      buttonIndex hpane hentry hstored
    exact ⟨v, hv, hlen v hv, h⟩
  · intro presses
    induction presses generalizing dom with
    | nil =>
      obtain ⟨n, hn, ht⟩ := hentry
      exact ⟨n, dom, hn, hlen n hn, rfl, ht⟩
    | cons b rest ih =>
      obtain ⟨v, hv, h⟩ := numPadClick_step cv tabpane heater zone settings stored dom
        b hpane hentry hstored
      have hnext : IsTemperature
          (({ dom with popup := Function.update dom.popup zone (toString v) } : Dom).popup
            zone) := by
        simp only [Function.update_same]
        exact ⟨v, hv, rfl⟩
      obtain ⟨w, dom2, hw, hwl, hp, ht⟩ := ih _ hnext
      refine ⟨w, dom2, hw, hwl, ?_, ht⟩
      simp only [pressKeys, h]
      exact hp

/-- Witness of C16: the sample page, zone `top`, nothing stored but "0". -/
theorem numPadClick_clamps_witness :
    (∀ buttonIndex, ∃ v : Nat, v ≤ 400 ∧ (toString v).length ≤ 3
      ∧ numPadClick sampleConv ".tab-pane-top" buttonIndex
          [("top", { popup := JSVal.str "0", active := JSVal.str "0",
                     preheat := JSVal.str "0" })] samplePage
          = some { samplePage with
                   popup := Function.update samplePage.popup Zone.top (toString v) })
    ∧ (∀ presses : List Nat, ∃ v : Nat, ∃ dom2 : Dom, v ≤ 400 ∧ (toString v).length ≤ 3
        ∧ pressKeys sampleConv ".tab-pane-top"
            [("top", { popup := JSVal.str "0", active := JSVal.str "0",
                       preheat := JSVal.str "0" })] presses samplePage = some dom2
        ∧ dom2.popup Zone.top = toString v) :=
  numPadClick_clamps sampleConv ".tab-pane-top" "P0" Zone.top
    [("top", { popup := JSVal.str "0", active := JSVal.str "0", preheat := JSVal.str "0" })]
    { popup := JSVal.str "0", active := JSVal.str "0", preheat := JSVal.str "0" }
    samplePage rfl ⟨0, by decide, rfl⟩ rfl

/-- C19: when the status query of a poll cycle fails (network error,
non-success response, or a body that cannot be decoded), `fetchData` is
rejected and `update` returns, with no effect at all (no prompt, no command)
and with the state as it was: `globalObjectModelResult`, the published heater
lists, every fault flag and timer, and the labels. -/
theorem update_failed_query (cv : Conv) (outcome : FetchOutcome) (answer : Nat → Bool)
    (st : PageState) (hfail : QueryFails outcome) :
    fetchData outcome = none ∧ update cv outcome answer st = (st, []) := by
  have h := fetchData_fails outcome hfail
  refine ⟨h, ?_⟩
  simp only [update, updateObjectModel, h]

/-- Witness of C19: a body announced as JSON that is not JSON, a response with
`ok` false, and a network error. -/
theorem update_failed_query_witness :
    update sampleConv (FetchOutcome.response true (some "application/json") (some "<html>"))
        (fun _ => true) samplePageState = (samplePageState, [])
    ∧ update sampleConv (FetchOutcome.response false none (some "busy"))
        (fun _ => true) samplePageState = (samplePageState, [])
    ∧ update sampleConv FetchOutcome.networkError (fun _ => true) samplePageState
        = (samplePageState, []) :=
  ⟨(update_failed_query sampleConv
      (FetchOutcome.response true (some "application/json") (some "<html>"))
      (fun _ => true) samplePageState
      (Or.inr (Or.inr ⟨"application/json", "<html>", rfl, rfl, by decide, rfl⟩))).2,
   (update_failed_query sampleConv (FetchOutcome.response false none (some "busy"))
      (fun _ => true) samplePageState (Or.inl rfl)).2,
   (update_failed_query sampleConv FetchOutcome.networkError
      (fun _ => true) samplePageState True.intro).2⟩

/-- C22: in every state the fault flags can reach from page load, and for every
list of heater states (in particular one of more than 8 heaters), the polling
fault check shows no dialog and submits no fault-reset command for a slot with
index 8 or higher, whatever that slot's state is: the flag array has the eight
entries 0..7 at page load, the flag of a slot from 8 on is never `false`, and
the dialog requires `false`. Such a slot keeps its flag, and the poll leaves the
same flags (of slots 0..7 and of all others) and the same effects as the poll
over the first eight states alone. -/
theorem high_slots_never_prompted (events : List Event)
    (allHeaterStates : List (Option String)) (answer : Nat → Bool) :
    (∀ i, 8 ≤ i →
        FaultState.init.heaterFaults i = none
        ∧ (exec FaultState.init events).heaterFaults i ≠ some false
        ∧ Effect.confirm (faultMessage i)
            ∉ (faultCheck answer allHeaterStates (exec FaultState.init events)).log
        ∧ Effect.gcode (resetCommand i)
            ∉ (faultCheck answer allHeaterStates (exec FaultState.init events)).log
        ∧ (faultCheck answer allHeaterStates (exec FaultState.init events)).state.heaterFaults i
            = (exec FaultState.init events).heaterFaults i)
    ∧ (∀ i, i < 8 → FaultState.init.heaterFaults i = some false)
    ∧ (faultCheck answer allHeaterStates (exec FaultState.init events)).state
        = (faultCheck answer (allHeaterStates.take 8) (exec FaultState.init events)).state
    ∧ (faultCheck answer allHeaterStates (exec FaultState.init events)).log
        = (faultCheck answer (allHeaterStates.take 8) (exec FaultState.init events)).log := by
  have hinv : NoneClearFrom 8 (exec FaultState.init events) :=
    noneClearFrom_exec 8 events FaultState.init noneClearFrom_init
  refine ⟨?_, ?_, (faultCheck_first_eight answer allHeaterStates _ hinv).1,
    (faultCheck_first_eight answer allHeaterStates _ hinv).2⟩
  · intro i hi
    have hnone : FaultState.init.heaterFaults i = none := by
      have h : ¬ i < defaultNumOfHeaters := by
        unfold defaultNumOfHeaters
        omega
      simp [FaultState.init, h]
    rcases faultCheckFrom_summary answer i allHeaterStates 0 (exec FaultState.init events)
      with hq | hp
    · exact ⟨hnone, (hinv i hi).1, List.count_eq_zero.1 hq.2.2.1, List.count_eq_zero.1 hq.2.2.2,
        hq.1⟩
    · exact absurd hp.1 (hinv i hi).1
  · intro i hi
    have h : i < defaultNumOfHeaters := hi
    simp [FaultState.init, h]

/-- Witness of C22: at page load, with heaters 1 and 9 in fault, the dialog of
heater 1 is shown and that of heater 9 is not. -/
theorem high_slots_never_prompted_witness :
    Effect.confirm (faultMessage 8)
        ∉ (faultCheck (fun _ => true) sampleNineStates (exec FaultState.init [])).log
    ∧ (faultCheck (fun _ => true) sampleNineStates (exec FaultState.init [])).log
        = [Effect.confirm (faultMessage 0), Effect.gcode (resetCommand 0)] :=
  ⟨((high_slots_never_prompted [] sampleNineStates (fun _ => true)).1 8 (by decide)).2.2.1,
    (high_slots_never_prompted [] sampleNineStates (fun _ => true)).2.2.2.trans (by decide)⟩

/-- C23, as stated, fails for more than four configured bed heaters: with four
extruder heaters and five bed heaters the set-profile handler submits a bed
batch of five segments P4..P8, while `configureBedHeaters(2, list)` on the page
the handler leaves (every bed setpoint reads the bed temperature "100") finds no
element for the fifth heater, raises and submits nothing. -/
theorem setProfile_five_beds_unmatched :
    sampleFourExtruders.length = 4
    ∧ (setProfileClick 0 sampleFiveBeds samplePage Storage.empty).map (fun r => r.log[1]?)
        = some (some (Effect.gcode
            "M568 P4 S100 R100 A2 M568 P5 S100 R100 A2 M568 P6 S100 R100 A2 M568 P7 S100 R100 A2 M568 P8 S100 R100 A2 "))
    ∧ (setProfileClick 0 sampleFiveBeds samplePage Storage.empty).map
          (fun r => configureBedHeaters 2 sampleFiveBeds sampleFourExtruders r.dom)
        = some none := by
  refine ⟨rfl, rfl, rfl⟩

/-- C23, amended: when exactly four extruder heaters are configured, for every
profile row with bed temperature `Bd` and every list of at most four configured
bed heaters, the bed batch of the set-profile handler (one segment
`M568 P<j+4> S<Bd> R<Bd> A2 ` per bed heater `j`) is the batch that
`configureBedHeaters(2, list)` submits on the page the handler leaves, and on
every page whose bed zones all have `Bd` as active and preheat setpoint. For any
number `e` of configured extruder heaters `configureBedHeaters` numbers the bed
heaters from `e`, and for `e` other than 4 and a non-empty list its batch is
another text than that of the set-profile handler. -/
theorem setProfile_bed_batch_matches (index : Nat)
    (configuredBedHeaters configuredExtruderHeaters : List JSVal) (dom : Dom)
    (storage : Storage) (T M B N Bd : String)
    (hT : dom.topTemps[index]? = some T) (hM : dom.middleTemps[index]? = some M)
    (hB : dom.bottomTemps[index]? = some B) (hN : dom.nozzleTemps[index]? = some N)
    (hBd : dom.bedTemps[index]? = some Bd)
    (he : configuredExtruderHeaters.length = 4)
    (hb : configuredBedHeaters.length ≤ 4) :
    ∃ r, setProfileClick index configuredBedHeaters dom storage = some r
      ∧ r.log[1]? = some (Effect.gcode (concatStrings
          ((List.range configuredBedHeaters.length).map (bedSegment 4 Bd))))
      ∧ BedSetpointsAre Bd r.dom
      ∧ configureBedHeaters 2 configuredBedHeaters configuredExtruderHeaters r.dom
          = some [Effect.gcode (concatStrings
              ((List.range configuredBedHeaters.length).map (bedSegment 4 Bd)))]
      ∧ (∀ dom2, BedSetpointsAre Bd dom2 →
          configureBedHeaters 2 configuredBedHeaters configuredExtruderHeaters dom2
            = some [Effect.gcode (concatStrings
                ((List.range configuredBedHeaters.length).map (bedSegment 4 Bd)))])
      ∧ (∀ (others : List JSVal) (dom2 : Dom), BedSetpointsAre Bd dom2 →
          configureBedHeaters 2 configuredBedHeaters others dom2
              = some [Effect.gcode (concatStrings
                  ((List.range configuredBedHeaters.length).map
                    (bedSegment others.length Bd)))]
            ∧ (configuredBedHeaters ≠ [] → others.length ≠ 4 →
                concatStrings ((List.range configuredBedHeaters.length).map
                    (bedSegment others.length Bd))
                  ≠ concatStrings ((List.range configuredBedHeaters.length).map
                    (bedSegment 4 Bd)))) := by
  obtain ⟨r, hr, hlog, ha, hp⟩ :=
    setProfileClick_log index configuredBedHeaters dom storage T M B N Bd hT hM hB hN hBd
  have hbed : BedSetpointsAre Bd r.dom := bedSetpointsAre_profile T M B N Bd r.dom ha hp
  have hcfg : ∀ dom2, BedSetpointsAre Bd dom2 →
      configureBedHeaters 2 configuredBedHeaters configuredExtruderHeaters dom2
        = some [Effect.gcode (concatStrings
            ((List.range configuredBedHeaters.length).map (bedSegment 4 Bd)))] := by
    intro dom2 h2
    rw [configureBedHeaters_uniform configuredBedHeaters configuredExtruderHeaters dom2 Bd hb h2,
      he]
  refine ⟨r, hr, hlog, hbed, hcfg r.dom hbed, hcfg, ?_⟩
  intro others dom2 h2
  refine ⟨configureBedHeaters_uniform configuredBedHeaters others dom2 Bd hb h2, ?_⟩
  intro hne hoff heq
  have hpos : 0 < configuredBedHeaters.length := List.length_pos.2 hne
  exact hoff (bed_batches_differ others.length 4 Bd _ hpos heq)

/-- Witness of C23 (amended): the first row of the sample page, two bed heaters
after four extruder heaters. -/
theorem setProfile_bed_batch_matches_witness :
    sampleFourExtruders.length = 4
    ∧ ∃ r, setProfileClick 0 [JSVal.num 0, JSVal.num 1] samplePage Storage.empty = some r
      ∧ r.log[1]? = some (Effect.gcode "M568 P4 S100 R100 A2 M568 P5 S100 R100 A2 ")
      ∧ configureBedHeaters 2 [JSVal.num 0, JSVal.num 1] sampleFourExtruders r.dom
          = some [Effect.gcode "M568 P4 S100 R100 A2 M568 P5 S100 R100 A2 "] := by
  obtain ⟨r, hr, hlog, _, hcfg, _⟩ :=
    setProfile_bed_batch_matches 0 [JSVal.num 0, JSVal.num 1] sampleFourExtruders samplePage
      Storage.empty "180" "250" "260" "270" "100" rfl rfl rfl rfl rfl rfl (by decide)
  exact ⟨rfl, r, hr, hlog.trans rfl, hcfg.trans rfl⟩

/-- C21, as stated, fails: a second tick that fires while the query of the first
is still in flight starts a second query, and so does the first tick after the
start-up invocation: two status queries are in flight. -/
theorem second_tick_starts_second_query :
    (runScheduler sampleConv (Scheduler.init samplePageState)
        [SchedulerEvent.tick, SchedulerEvent.tick]).inFlight
      = [PollOrigin.interval, PollOrigin.interval]
    ∧ (runScheduler sampleConv (Scheduler.init samplePageState)
        [SchedulerEvent.domContentLoaded, SchedulerEvent.tick]).inFlight
      = [PollOrigin.startup, PollOrigin.interval] := by
  exact ⟨rfl, rfl⟩

/-- C21, amended: from every state `s` of the polling scheduler (so from every
state an execution reaches), every 500 ms tick and the start-up invocation
starts a status query, whatever is in flight: after `n` invocations without a
completion in between, `n` more queries are in flight, the earlier ones still
among them, and the page state and the effects are as before. The snapshot
update of a poll is applied as a whole in the step in which its own query
completes, to the page state that step finds: that of `update` for a query of
the interval, that of `updateObjectModel` for the query of the start-up
invocation. -/
theorem invocations_always_start_queries (cv : Conv) (s : Scheduler)
    (invocations : List SchedulerEvent)
    (hinv : ∀ e ∈ invocations, e.isInvocation = true) :
    (runScheduler cv s invocations).inFlight.length
        = s.inFlight.length + invocations.length
    ∧ s.inFlight <+: (runScheduler cv s invocations).inFlight
    ∧ (runScheduler cv s invocations).page = s.page
    ∧ (runScheduler cv s invocations).log = s.log
    ∧ (schedulerStep cv s SchedulerEvent.tick).inFlight = s.inFlight ++ [PollOrigin.interval]
    ∧ (schedulerStep cv s SchedulerEvent.domContentLoaded).inFlight
        = s.inFlight ++ [PollOrigin.startup]
    ∧ (∀ k outcome answer,
        (s.inFlight[k]? = some PollOrigin.interval →
          schedulerStep cv s (SchedulerEvent.complete k outcome answer)
            = { page := (update cv outcome answer s.page).1,
                inFlight := s.inFlight.eraseIdx k,
                log := s.log ++ (update cv outcome answer s.page).2 })
        ∧ (s.inFlight[k]? = some PollOrigin.startup →
          schedulerStep cv s (SchedulerEvent.complete k outcome answer)
            = { page := (updateObjectModel cv outcome answer s.page).1,
                inFlight := s.inFlight.eraseIdx k,
                log := s.log ++ (updateObjectModel cv outcome answer s.page).2.1 })
        ∧ (s.inFlight[k]? = none →
          schedulerStep cv s (SchedulerEvent.complete k outcome answer) = s)) := by
  obtain ⟨h1, h2, h3, h4⟩ := runScheduler_invocations cv invocations s hinv
  refine ⟨h1, h4, h2, h3, rfl, rfl, ?_⟩
  intro k outcome answer
  refine ⟨?_, ?_, ?_⟩
  · intro h
    simp only [schedulerStep, h]
  · intro h
    simp only [schedulerStep, h]
  · intro h
    simp only [schedulerStep, h]

/-- Witness of C21 (amended): the start-up invocation and two ticks, no
completion: three status queries in flight. -/
theorem invocations_always_start_queries_witness :
    (∀ e ∈ [SchedulerEvent.domContentLoaded, SchedulerEvent.tick, SchedulerEvent.tick],
        e.isInvocation = true)
    ∧ (runScheduler sampleConv (Scheduler.init samplePageState)
        [SchedulerEvent.domContentLoaded, SchedulerEvent.tick,
         SchedulerEvent.tick]).inFlight.length = 3 :=
  ⟨by decide,
    (invocations_always_start_queries sampleConv (Scheduler.init samplePageState)
      [SchedulerEvent.domContentLoaded, SchedulerEvent.tick, SchedulerEvent.tick]
      (by decide)).1⟩

end PE320
